import Mathlib

/-!
A shallow embedding of `src/get_move.ts`, the decision core of a Go-playing
computer opponent, together with proofs about the claims of its specification.

Modelling conventions (they apply throughout the file):

* JavaScript numbers that hold integers (coordinates, liberty counts) are
  modelled as `Int`; values drawn from the random-number generator are
  modelled as `Rat` (every float is a rational; the comparisons performed by
  the source are order comparisons, which agree).
* A `Board` is a list of columns, each a list of cells; a cell is
  `Option PointState` with `none` standing for the JS `null` of an offline
  node.  Indexing `board[x]?.[y]` with an out-of-range index yields JS
  `undefined`; wherever the source distinguishes `null` from `undefined`
  (only the pattern matcher does, via `point === null`) we use the
  three-valued `JSCell`, everywhere else both collapse to `Option.none`.
* The source stores, in each point, its list of liberties as references to
  the point objects of the same board.  References into a board are modelled
  as coordinate pairs; a field read through such a reference is modelled as
  a lookup of the current board at those coordinates.  The two agree on
  boards whose points carry their own position in their `x`/`y` fields
  (`wellFormedBoard` below), which is how every board of the pipeline is
  built (`boardFromSimpleBoard` + `updateChains`).
* In-place mutation of a board becomes a function returning the new board;
  the JS iteration `for x / for y` becomes a fold over the scan coordinates.
* `structuredClone` (`getBoardCopy`) is the identity on values.
* Promises, `sleep` and `waitCycle` have no semantic content and are erased.
* The JS idiom `Math.max(...xs)`, which is `-Infinity` on an empty list, is
  modelled as `Option Int` with `none` for `-Infinity` (`jsMaxD`); the only
  uses compare the result with small constants.
-/

set_option autoImplicit false
set_option maxHeartbeats 2000000
set_option maxRecDepth 1000000

inductive GoColor where
  | white
  | black
  | empty
deriving DecidableEq, Repr

inductive GoOpponent where
  | none
  | Netburners
  | SlumSnakes
  | TheBlackHand
  | Tetrads
  | Daedalus
  | Illuminati
  | w0r1d_d43m0n
deriving DecidableEq, Repr

inductive GoValidity where
  | pointBroken
  | pointNotEmpty
  | boardRepeated
  | noSuicide
  | notYourTurn
  | gameOver
  | invalid
  | valid
deriving DecidableEq, Repr

inductive GoPlayType where
  | move
  | pass
  | gameOver
deriving DecidableEq, Repr

/-- `Play` record: `{type: move, x, y}` or `{type: pass|gameOver, x: null, y: null}`. -/
inductive Play where
  | move (x y : Int)
  | pass
  | gameOver
deriving DecidableEq, Repr

structure PointState where
  color : GoColor
  chain : String
  /-- Liberty references, modelled as coordinates into the same board;
  `none` is the JS `null`. -/
  liberties : Option (List (Int × Int))
  x : Int
  y : Int
deriving DecidableEq, Repr

abbrev SimpleBoard := List String

abbrev Board := List (List (Option PointState))

structure BoardState where
  board : Board
  previousPlayer : Option GoColor
  previousBoards : List String
  ai : GoOpponent
  passCount : Nat
  cheatCount : Nat
  cheatCountForWhite : Nat
deriving DecidableEq, Repr

structure Neighbor where
  north : Option PointState
  east : Option PointState
  south : Option PointState
  west : Option PointState
deriving DecidableEq, Repr

structure Move where
  point : PointState
  oldLibertyCount : Option Int
  newLibertyCount : Option Int
  createsLife : Option Bool
deriving DecidableEq, Repr

structure EyeMove where
  point : PointState
  createsLife : Bool
deriving DecidableEq, Repr

/-- JS array indexing `l[i]`: `undefined` (here `none`) when out of range,
including negative indices. -/
def listGetI {α : Type} (l : List α) (i : Int) : Option α :=
  if i < 0 then none else l[i.toNat]?

/-- JS `arr[Math.floor(r * arr.length)]`, `undefined` out of range. -/
def jsPick {α : Type} (l : List α) (r : Rat) : Option α :=
  listGetI l (Rat.floor (r * (l.length : Rat)))

/-- JS `Math.max(...xs)` where the empty spread gives `-Infinity` (`none`). -/
def jsMaxD (l : List Int) : Option Int :=
  l.foldl (fun acc v => some (max (acc.getD v) v)) none

/-- Keep the first occurrence of each element (JS `Set` insertion order / the
`findIndex === index` dedup idiom). -/
def dedupFirst {α : Type} [DecidableEq α] (l : List α) : List α :=
  l.foldl (fun acc a => if acc.contains a then acc else acc ++ [a]) []

/-- `board[x]?.[y]` with `null` and `undefined` collapsed to `none`. -/
def getPt (board : Board) (x y : Int) : Option PointState :=
  match listGetI board x with
  | Option.none => none
  | Option.some col => (listGetI col y).join

/-- Mutation primitive: rewrite the point stored at position `(x, y)`
(the model of an in-place field assignment on a board's point object).
If there is no point there, the board is unchanged. -/
def setPt (board : Board) (x y : Int) (f : PointState → PointState) : Board :=
  match getPt board x y with
  | Option.none => board
  | Option.some p =>
    if 0 ≤ x ∧ 0 ≤ y then
      board.set x.toNat ((board[x.toNat]?.getD []).set y.toNat (some (f p)))
    else board

/-- src `blankPointState`. -/
def blankPointState (color : GoColor) (x y : Int) : PointState :=
  ⟨color, "", none, x, y⟩

/-- The per-character body of `boardFromSimpleBoard`. -/
def pointFromChar (x y : Int) (char : Char) : Option PointState :=
  if char = '#' then none
  else if char = 'X' then some (blankPointState GoColor.black x y)
  else if char = 'O' then some (blankPointState GoColor.white x y)
  else some (blankPointState GoColor.empty x y)

/-- src `boardFromSimpleBoard`. -/
def boardFromSimpleBoard (simpleBoard : SimpleBoard) : Board :=
  simpleBoard.enum.map (fun xcol =>
    xcol.2.data.enum.map (fun ychar => pointFromChar (xcol.1 : Int) (ychar.1 : Int) ychar.2))

/-- The reducer body of `simpleBoardFromBoard`. -/
def simpleBoardStep (str : String) (point : Option PointState) : String :=
  match point with
  | Option.none => str ++ "#"
  | Option.some p =>
    if p.color = GoColor.black then str ++ "X"
    else if p.color = GoColor.white then str ++ "O"
    else str ++ "."

/-- src `simpleBoardFromBoard`. -/
def simpleBoardFromBoard (board : Board) : SimpleBoard :=
  board.map (fun column => column.foldl simpleBoardStep "")

/-- src `boardStringFromBoard`. -/
def boardStringFromBoard (board : Board) : String :=
  String.join (simpleBoardFromBoard board)

/-- JS `Math.round(Math.sqrt n)` for a natural `n`. -/
def jsRoundSqrt (n : Nat) : Nat :=
  let r := Nat.sqrt n
  if n ≤ r * r + r then r else r + 1

/-- The `if char === 'X' ...` chain of `getColorOnBoardString`. -/
def charColor (char : Option Char) : Option GoColor :=
  if char == some 'X' then some GoColor.black
  else if char == some 'O' then some GoColor.white
  else if char == some '.' then some GoColor.empty
  else none

/-- src `getColorOnBoardString`. -/
def getColorOnBoardString (boardString : String) (x y : Int) : Option GoColor :=
  let boardSize : Int := (jsRoundSqrt boardString.length : Int)
  charColor (listGetI boardString.data (x * boardSize + y))

/-- src `findNeighbors`. -/
def findNeighbors (board : Board) (x y : Int) : Neighbor :=
  ⟨getPt board x (y + 1), getPt board (x + 1) y, getPt board x (y - 1), getPt board (x - 1) y⟩

/-- src `getArrayFromNeighbor`. -/
def getArrayFromNeighbor (neighborObject : Neighbor) : List PointState :=
  [neighborObject.north, neighborObject.east, neighborObject.south, neighborObject.west].filterMap id

/-- src `getBoardCopy` (`structuredClone` is the identity on values). -/
def getBoardCopy (board : Board) : Board := board

/-- src `contains` (comparison by coordinates, as in the source). -/
def contains (arr : List PointState) (point : PointState) : Bool :=
  arr.any (fun p => p.x == point.x && p.y == point.y)

/-- src `isPointInChain`. -/
def isPointInChain (point : PointState) (chain : List PointState) : Bool :=
  chain.any (fun chainPoint => chainPoint.x == point.x && chainPoint.y == point.y)

/-- src `getEmptySpaces` (column-major scan). -/
def getEmptySpaces (board : Board) : List PointState :=
  (board.map (fun column => column.filterMap id)).flatten.filter
    (fun point => point.color == GoColor.empty)

/-- The non-absent points of a board in column-major scan order. -/
def scanPoints (board : Board) : List PointState :=
  (board.map (fun column => column.filterMap id)).flatten

/-- Insertion-ordered grouping used to model a JS object keyed by chain-id
strings (`"x,y"` keys are not array indices, so `Object.keys` returns them
in insertion order). -/
def addToGroups (groups : List (String × List PointState)) (key : String) (p : PointState) :
    List (String × List PointState) :=
  match groups with
  | [] => [(key, [p])]
  | (k, ps) :: rest =>
    if k = key then (k, ps ++ [p]) :: rest else (k, ps) :: addToGroups rest key p

/-- src `getAllChains`: group the analysed points by their `chain` field. -/
def getAllChains (board : Board) : List (List PointState) :=
  ((scanPoints board).foldl
    (fun gs p => if p.chain = "" then gs else addToGroups gs p.chain p) []).map (fun g => g.2)

/-- `chain[0].color` guarded against the empty list (the source only ever
applies it to the non-empty groups produced by `getAllChains`). -/
def chainHeadColor (chain : List PointState) : Option GoColor :=
  chain.head?.map (fun p => p.color)

/-- `chain[0].chain` guarded against the empty list. -/
def chainHeadId (chain : List PointState) : Option String :=
  chain.head?.map (fun p => p.chain)

/-- `chain[0].liberties` guarded against the empty list. -/
def chainHeadLiberties (chain : List PointState) : Option (List (Int × Int)) :=
  chain.head?.bind (fun p => p.liberties)

/-- src `getAllNeighbors`; the `Set` dedups object references, i.e. board
positions, i.e. coordinates on a well-formed board. -/
def getAllNeighbors (board : Board) (chain : List PointState) : List PointState :=
  chain.foldl (fun acc point =>
    ((getArrayFromNeighbor (findNeighbors board point.x point.y)).filter
        (fun neighborPoint => !(isPointInChain neighborPoint chain))).foldl
      (fun acc2 np => if contains acc2 np then acc2 else acc2 ++ [np]) acc) []

/-- src `findLibertiesForChain`. -/
def findLibertiesForChain (board : Board) (chain : List PointState) : List PointState :=
  (getAllNeighbors board chain).filter (fun neighbor => neighbor.color == GoColor.empty)

/-- src `getPlayerNeighbors`. -/
def getPlayerNeighbors (board : Board) (chain : List PointState) : List PointState :=
  (getAllNeighbors board chain).filter (fun neighbor => neighbor.color != GoColor.empty)

/-- src `getAllNeighboringChains`; the `Set` dedups found chain groups by
object identity (distinct ids give distinct, value-different groups), while
each failed lookup contributes a fresh `[]` that is never deduped. -/
def getAllNeighboringChains (board : Board) (chain : List PointState)
    (allChains : List (List PointState)) : List (List PointState) :=
  (getPlayerNeighbors board chain).foldl (fun acc neighbor =>
    match allChains.find? (fun c => chainHeadId c == some neighbor.chain) with
    | Option.none => acc ++ [[]]
    | Option.some g => if acc.contains g then acc else acc ++ [g]) []

/-- src `clearChains`. -/
def clearChains (board : Board) : Board :=
  board.map (fun column => column.map (fun cell => cell.map (fun p =>
    ⟨p.color, "", none, p.x, p.y⟩)))

/-- src `resetChainsById`. -/
def resetChainsById (board : Board) (chainIds : List String) : Board :=
  board.map (fun column => column.map (fun cell => cell.map (fun p =>
    if chainIds.contains p.chain then ⟨p.color, "", some [], p.x, p.y⟩ else p)))

/-- The chain id `` `${x},${y}` ``. -/
def coordId (x y : Int) : String := toString x ++ "," ++ toString y

/-- Fuel that strictly bounds the number of iterations of the flood-fill
loop of `findAdjacentPointsInChain` (see `floodLoop_measure` below). -/
def floodFuel (board : Board) : Nat := 5 * (board.map (fun c => c.length)).sum + 2

/-- One step of the `forEach` body over the four neighbors of the current
point: state is (checkedPoints, pointsToCheckNeighbors, adjacentPoints);
the stack is kept top-first (JS pushes/pops at the array's end). -/
def floodStep (cur : PointState)
    (st : List PointState × List PointState × List PointState) (neighbor : PointState) :
    List PointState × List PointState × List PointState :=
  if neighbor.color == cur.color && !(contains st.1 neighbor) then
    (st.1 ++ [neighbor], neighbor :: st.2.1, st.2.2 ++ [neighbor])
  else
    (st.1 ++ [neighbor], st.2.1, st.2.2)

/-- The `while (pointsToCheckNeighbors.length)` loop of
`findAdjacentPointsInChain`, run on explicit fuel.  With the fuel supplied by
`findAdjacentPointsInChain` the zero-fuel branch is unreachable. -/
def floodLoop (board : Board) : Nat → List PointState → List PointState → List PointState →
    List PointState
  | 0, _, _, acc => acc
  | _ + 1, _, [], acc => acc
  | fuel + 1, checked, cur :: stackRest, acc =>
    let checked1 := checked ++ [cur]
    let st := (getArrayFromNeighbor (findNeighbors board cur.x cur.y)).foldl
      (floodStep cur) (checked1, stackRest, acc)
    floodLoop board fuel st.1 st.2.1 st.2.2

/-- src `findAdjacentPointsInChain`. -/
def findAdjacentPointsInChain (board : Board) (x y : Int) : List PointState :=
  match getPt board x y with
  | Option.none => []
  | Option.some point => floodLoop board (floodFuel board) [] [point] [point]

/-- The column-major scan coordinates `for x, for y` of `updateChains`. -/
def scanCoords (board : Board) : List (Nat × Nat) :=
  (List.range board.length).flatMap (fun x =>
    (List.range ((board[x]?.getD []).length)).map (fun y => (x, y)))

/-- The body of `updateChains` at one scan position. -/
def updateChainsAt (b : Board) (xy : Nat × Nat) : Board :=
  match getPt b (xy.1 : Int) (xy.2 : Int) with
  | Option.none => b
  | Option.some point =>
    if point.chain ≠ "" then b
    else
      let chainMembers := findAdjacentPointsInChain b (xy.1 : Int) (xy.2 : Int)
      let libertiesForChain := findLibertiesForChain b chainMembers
      let id := coordId point.x point.y
      let libCoords := libertiesForChain.map (fun p => (p.x, p.y))
      chainMembers.foldl
        (fun bb m => setPt bb m.x m.y (fun p => ⟨p.color, id, some libCoords, p.x, p.y⟩)) b

/-- src `updateChains`. -/
def updateChains (board : Board) (resetChains : Bool) : Board :=
  let b0 := if resetChains then clearChains board else board
  (scanCoords b0).foldl updateChainsAt b0

/-- src `captureChain` (in-place removal of a captured chain). -/
def captureChainB (board : Board) (chain : List PointState) : Board :=
  chain.foldl (fun b p => setPt b p.x p.y (fun q => ⟨GoColor.empty, "", some [], q.x, q.y⟩)) board

/-- src `findCapturedChainOfColor`. -/
def findCapturedChainOfColor (chainList : List (List PointState)) (playerColor : GoColor) :
    List (List PointState) :=
  chainList.filter (fun chain =>
    chainHeadColor chain == some playerColor &&
    (chainHeadLiberties chain).map List.length == some 0)

/-- src `findAllCapturedChains` (`none` models the `null` return). -/
def findAllCapturedChains (chainList : List (List PointState)) (playerWhoMoved : GoColor) :
    Option (List (List PointState)) :=
  let opposingPlayer := if playerWhoMoved = GoColor.white then GoColor.black else GoColor.white
  let enemyChainsToCapture := findCapturedChainOfColor chainList opposingPlayer
  if enemyChainsToCapture.length ≠ 0 then some enemyChainsToCapture
  else
    let friendlyChainsToCapture := findCapturedChainOfColor chainList playerWhoMoved
    if friendlyChainsToCapture.length ≠ 0 then some friendlyChainsToCapture
    else none

/-- src `updateCaptures`. -/
def updateCaptures (board : Board) (playerWhoMoved : GoColor) (resetChains : Bool) : Board :=
  let b1 := updateChains board resetChains
  let chains := getAllChains b1
  match findAllCapturedChains chains playerWhoMoved with
  | Option.none => b1
  | Option.some chainsToCapture =>
    if chainsToCapture.length = 0 then b1
    else updateChains (chainsToCapture.foldl captureChainB b1) true

/-- src `evaluateMoveResult`.  When the target cell is absent the *input*
board itself is returned (see claims C7/C9). -/
def evaluateMoveResult (board : Board) (x y : Int) (player : GoColor) (resetChains : Bool) :
    Board :=
  let evaluationBoard := getBoardCopy board
  match getPt evaluationBoard x y with
  | Option.none => board
  | Option.some point =>
    let b1 := setPt evaluationBoard x y (fun p => ⟨player, p.chain, p.liberties, p.x, p.y⟩)
    let neighbors := getArrayFromNeighbor (findNeighbors board x y)
    let chainIdsToUpdate := point.chain :: neighbors.map (fun p => p.chain)
    updateCaptures (resetChainsById b1 chainIdsToUpdate) player resetChains

/-- src `findAdjacentLibertiesForPoint`. -/
def findAdjacentLibertiesForPoint (board : Board) (x y : Int) : Neighbor :=
  let neighbors := findNeighbors board x y
  ⟨ if neighbors.north.map (fun p => p.color) == some GoColor.empty then neighbors.north else none,
    if neighbors.east.map (fun p => p.color) == some GoColor.empty then neighbors.east else none,
    if neighbors.south.map (fun p => p.color) == some GoColor.empty then neighbors.south else none,
    if neighbors.west.map (fun p => p.color) == some GoColor.empty then neighbors.west else none ⟩

/-- src `findAdjacentLibertiesAndAlliesForPoint`; `Option GoColor` equality
with `none == none` true mirrors `undefined === undefined`. -/
def findAdjacentLibertiesAndAlliesForPoint (board : Board) (x y : Int)
    (player? : Option GoColor) : Neighbor :=
  let currentPoint := getPt board x y
  let player : Option GoColor :=
    match player? with
    | Option.some p => some p
    | Option.none =>
      match currentPoint with
      | Option.none => none
      | Option.some cp => if cp.color = GoColor.empty then none else some cp.color
  let adjacentLiberties := findAdjacentLibertiesForPoint board x y
  let neighbors := findNeighbors board x y
  ⟨ if adjacentLiberties.north.isSome || neighbors.north.map (fun p => p.color) == player then
      neighbors.north else none,
    if adjacentLiberties.east.isSome || neighbors.east.map (fun p => p.color) == player then
      neighbors.east else none,
    if adjacentLiberties.south.isSome || neighbors.south.map (fun p => p.color) == player then
      neighbors.south else none,
    if adjacentLiberties.west.isSome || neighbors.west.map (fun p => p.color) == player then
      neighbors.west else none ⟩

/-- src `findMaxLibertyCountOfAdjacentChains`. -/
def findMaxLibertyCountOfAdjacentChains (boardState : BoardState) (x y : Int)
    (player : GoColor) : Int :=
  let neighbors := findAdjacentLibertiesAndAlliesForPoint boardState.board x y (some player)
  let friendlyNeighbors := (getArrayFromNeighbor neighbors).filter
    (fun neighbor => neighbor.color == player)
  friendlyNeighbors.foldl
    (fun mx neighbor => max mx (((neighbor.liberties.map List.length).getD 0 : Int))) 0

/-- src `findEnemyNeighborChainWithFewestLiberties`. -/
def findEnemyNeighborChainWithFewestLiberties (board : Board) (x y : Int) (player : GoColor) :
    Option (List PointState) :=
  let chains := getAllChains board
  let neighbors := findAdjacentLibertiesAndAlliesForPoint board x y (some player)
  let friendlyNeighbors := (getArrayFromNeighbor neighbors).filter
    (fun neighbor => neighbor.color == player)
  let minimumLiberties := friendlyNeighbors.foldl
    (fun mn neighbor => min mn (((neighbor.liberties.map List.length).getD 0 : Int)))
    (((friendlyNeighbors.head?.bind (fun p => p.liberties)).map List.length).getD 99 : Int)
  let chainId := (friendlyNeighbors.find?
    (fun neighbor => (neighbor.liberties.map (fun l => (l.length : Int))) == some minimumLiberties)).map
    (fun p => p.chain)
  match chainId with
  | Option.none => none
  | Option.some cid => chains.find? (fun chain => chainHeadId chain == some cid)

/-- src `findMinLibertyCountOfAdjacentChains`. -/
def findMinLibertyCountOfAdjacentChains (board : Board) (x y : Int) (player : GoColor) : Int :=
  match findEnemyNeighborChainWithFewestLiberties board x y player with
  | Option.none => 99
  | Option.some chain => ((chainHeadLiberties chain).map List.length).getD 99

/-- src `findEffectiveLibertiesOfNewMove` (as coordinates; only its length
and entries' coordinates are consumed). -/
def findEffectiveLibertiesOfNewMove (board : Board) (x y : Int) (player : GoColor) :
    List (Int × Int) :=
  let friendlyChains := (getAllChains board).filter
    (fun chain => chainHeadColor chain == some player)
  let neighbors := findAdjacentLibertiesAndAlliesForPoint board x y (some player)
  let neighborPoints := getArrayFromNeighbor neighbors
  let allyNeighbors := neighborPoints.filter (fun neighbor => neighbor.color == player)
  let allyNeighborChainLiberties := (allyNeighbors.map (fun neighbor =>
    match friendlyChains.find? (fun chain => chainHeadId chain == some neighbor.chain) with
    | Option.none => []
    | Option.some chain => (chainHeadLiberties chain).getD [])).flatten
  let directLiberties := (neighborPoints.filter
    (fun neighbor => neighbor.color == GoColor.empty)).map (fun p => (p.x, p.y))
  let allLiberties := directLiberties ++ allyNeighborChainLiberties
  (dedupFirst allLiberties).filter (fun liberty => liberty.1 ≠ x ∨ liberty.2 ≠ y)

/-- src `evaluateIfMoveIsValid`. -/
def evaluateIfMoveIsValid (boardState : BoardState) (x y : Int) (player : GoColor)
    (shortcut : Bool) : GoValidity :=
  match boardState.previousPlayer with
  | Option.none => GoValidity.gameOver
  | Option.some previousPlayer =>
    if previousPlayer = player then GoValidity.notYourTurn
    else
      match getPt boardState.board x y with
      | Option.none => GoValidity.pointBroken
      | Option.some point =>
        if point.color ≠ GoColor.empty then GoValidity.pointNotEmpty
        else
          let possibleRepeat := boardState.previousBoards.find?
            (fun board => getColorOnBoardString board x y == some player)
          let fastResult : Option GoValidity :=
            if shortcut then
              let liberties := findAdjacentLibertiesForPoint boardState.board x y
              let hasLiberty := liberties.north.isSome || liberties.east.isSome ||
                liberties.south.isSome || liberties.west.isSome
              let neighborChainLibertyCount :=
                findMaxLibertyCountOfAdjacentChains boardState x y player
              let potentialCaptureChainLibertyCount :=
                findMinLibertyCountOfAdjacentChains boardState.board x y
                  (if player = GoColor.black then GoColor.white else GoColor.black)
              if possibleRepeat.isNone && hasLiberty then some GoValidity.valid
              else if possibleRepeat.isNone && neighborChainLibertyCount > 1 then
                some GoValidity.valid
              else if possibleRepeat.isNone && potentialCaptureChainLibertyCount < 2 then
                some GoValidity.valid
              else if !hasLiberty && potentialCaptureChainLibertyCount ≥ 2 &&
                  neighborChainLibertyCount ≤ 1 then
                some GoValidity.noSuicide
              else none
            else none
          match fastResult with
          | Option.some v => v
          | Option.none =>
            let evaluationBoard := evaluateMoveResult boardState.board x y player true
            if (getPt evaluationBoard x y).map (fun p => p.color) ≠ some player then
              GoValidity.noSuicide
            else if possibleRepeat.isSome && boardState.previousBoards.length ≠ 0 then
              if boardState.previousBoards.contains (boardStringFromBoard evaluationBoard) then
                GoValidity.boardRepeated
              else GoValidity.valid
            else GoValidity.valid

/-- src `getAllValidMoves`. -/
def getAllValidMoves (boardState : BoardState) (player : GoColor) : List PointState :=
  (getEmptySpaces boardState.board).filter
    (fun point => evaluateIfMoveIsValid boardState point.x point.y player true == GoValidity.valid)

/-- Well-formedness of a board: square, and every point records its own
position in its `x`/`y` fields.  This is the (implicit) invariant of every
board the source constructs. -/
def wellFormedBoard (b : Board) : Bool :=
  (b.all (fun col => col.length == b.length)) &&
  ((List.range b.length).all (fun x => (List.range ((b[x]?.getD []).length)).all (fun y =>
    match (b[x]?.getD [])[y]? with
    | Option.some (Option.some p) => p.x == (x : Int) && p.y == (y : Int)
    | _ => true)))

/-- The eye-candidate record of `getAllPotentialEyes`. -/
structure EyeCandidate where
  neighbors : List (List PointState)
  chain : List PointState
  id : String
deriving DecidableEq, Repr

/-- Membership of a liberty reference (a coordinate) in a point list. -/
def containsCoord (arr : List PointState) (c : Int × Int) : Bool :=
  arr.any (fun p => p.x == c.1 && p.y == c.2)

/-- src `getAllPotentialEyes`; `0.4` is the float literal of the source. -/
def getAllPotentialEyes (board : Board) (allChains : List (List PointState)) (player : GoColor)
    (maxSize? : Option Nat) : List EyeCandidate :=
  let nodeCount := (board.map (fun col => col.filterMap id)).flatten.length
  let maxSize : Rat :=
    match maxSize? with
    | Option.some m => (m : Rat)
    | Option.none => min ((nodeCount : Rat) * ((2 : Rat)/5)) 11
  let emptyPointChains := allChains.filter
    (fun chain => chainHeadColor chain == some GoColor.empty)
  (emptyPointChains.filter (fun chain => (chain.length : Rat) ≤ maxSize)).filterMap
    (fun chain =>
      let neighboringChains := getAllNeighboringChains board chain allChains
      let hasWhitePieceNeighbor := neighboringChains.any
        (fun nc => chainHeadColor nc == some GoColor.white)
      let hasBlackPieceNeighbor := neighboringChains.any
        (fun nc => chainHeadColor nc == some GoColor.black)
      if (hasWhitePieceNeighbor && !hasBlackPieceNeighbor && player == GoColor.white) ||
         (!hasWhitePieceNeighbor && hasBlackPieceNeighbor && player == GoColor.black) then
        some ⟨neighboringChains, chain, (chainHeadId chain).getD ""⟩
      else none)

/-- The bounding-box record of `findFurthestPointsOfChain`. -/
structure Spread where
  north : Int
  east : Int
  south : Int
  west : Int
deriving DecidableEq, Repr

/-- src `findFurthestPointsOfChain` (only ever applied to non-empty chains). -/
def findFurthestPointsOfChain (chain : List PointState) : Spread :=
  match chain with
  | [] => ⟨0, 0, 0, 0⟩
  | h :: _ =>
    chain.foldl (fun d point =>
      ⟨max d.north point.y, max d.east point.x, min d.south point.y, min d.west point.x⟩)
      ⟨h.y, h.x, h.y, h.x⟩

/-- src `findNeighboringChainsThatFullyEncircleEmptySpace`. -/
def findNeighboringChainsThatFullyEncircleEmptySpace (board : Board)
    (candidateChain : List PointState) (neighborChainList : List (List PointState))
    (allChains : List (List PointState)) : List (List PointState) :=
  let boardMax : Int := ((board[0]?.getD []).length : Int) - 1
  let candidateSpread := findFurthestPointsOfChain candidateChain
  (neighborChainList.enum.filter (fun ix =>
    let neighborSpread := findFurthestPointsOfChain ix.2
    let couldWrapNorth := neighborSpread.north > candidateSpread.north ||
      (candidateSpread.north == boardMax && neighborSpread.north == boardMax)
    let couldWrapEast := neighborSpread.east > candidateSpread.east ||
      (candidateSpread.east == boardMax && neighborSpread.east == boardMax)
    let couldWrapSouth := neighborSpread.south < candidateSpread.south ||
      (candidateSpread.south == 0 && neighborSpread.south == 0)
    let couldWrapWest := neighborSpread.west < candidateSpread.west ||
      (candidateSpread.west == 0 && neighborSpread.west == 0)
    if !couldWrapNorth || !couldWrapEast || !couldWrapSouth || !couldWrapWest then false
    else
      match candidateChain.head? with
      | Option.none => false
      | Option.some examplePoint =>
        let evaluationBoard := getBoardCopy board
        let otherChainNeighborPoints := (neighborChainList.eraseIdx ix.1).flatten
        let b1 := otherChainNeighborPoints.foldl (fun bb point =>
          setPt bb point.x point.y (fun p => ⟨GoColor.empty, p.chain, p.liberties, p.x, p.y⟩))
          evaluationBoard
        let b2 := updateChains b1 true
        let newChains := getAllChains b2
        let newChainID := (getPt b2 examplePoint.x examplePoint.y).map (fun p => p.chain)
        let chain :=
          match newChainID with
          | Option.none => []
          | Option.some cid => (newChains.find? (fun c => chainHeadId c == some cid)).getD []
        let newNeighborChains := getAllNeighboringChains board chain allChains
        newNeighborChains.length == 1)).map (fun ix => ix.2)

/-- Insertion-ordered `eyes[chainId].push(candidate.chain)`. -/
def addEye (eyes : List (String × List (List PointState))) (key : String)
    (v : List PointState) : List (String × List (List PointState)) :=
  match eyes with
  | [] => [(key, [v])]
  | (k, vs) :: rest => if k = key then (k, vs ++ [v]) :: rest else (k, vs) :: addEye rest key v

/-- src `getAllEyesByChainId`. -/
def getAllEyesByChainId (board : Board) (player : GoColor) :
    List (String × List (List PointState)) :=
  let allChains := getAllChains board
  let eyeCandidates := getAllPotentialEyes board allChains player none
  eyeCandidates.foldl (fun eyes candidate =>
    if candidate.neighbors.length = 0 then eyes
    else if candidate.neighbors.length = 1 then
      addEye eyes ((chainHeadId (candidate.neighbors.headD [])).getD "") candidate.chain
    else
      (findNeighboringChainsThatFullyEncircleEmptySpace board candidate.chain
        candidate.neighbors allChains).foldl
        (fun es neighborChain => addEye es ((chainHeadId neighborChain).getD "") candidate.chain)
        eyes) []

/-- src `getAllEyes` (`Object.keys(eyes).map`). -/
def getAllEyesFrom (eyesObject : List (String × List (List PointState))) :
    List (List (List PointState)) :=
  eyesObject.map (fun kv => kv.2)

/-- src `getAllEyes` without a precomputed eyes object. -/
def getAllEyes (board : Board) (player : GoColor) : List (List (List PointState)) :=
  getAllEyesFrom (getAllEyesByChainId board player)

/-- Membership of a point in a coordinate list, for the final filter of
`findDisputedTerritory`. -/
def coordListContains (cs : List (Int × Int)) (move : PointState) : Bool :=
  cs.any (fun c => c.1 == move.x && c.2 == move.y)

/-- src `findDisputedTerritory`. -/
def findDisputedTerritory (boardState : BoardState) (player : GoColor)
    (excludeFriendlyEyes : Bool) : List PointState :=
  let validMoves0 := getAllValidMoves boardState player
  let validMoves :=
    if excludeFriendlyEyes then
      let friendlyEyes := (((getAllEyes boardState.board player).filter
        (fun eye => eye.length ≥ 2)).flatten).flatten
      validMoves0.filter (fun point => !(contains friendlyEyes point))
    else validMoves0
  let opponent := if player = GoColor.white then GoColor.black else GoColor.white
  let chains := getAllChains boardState.board
  let emptySpacesToAnalyze := getAllPotentialEyes boardState.board chains opponent none
  let nodesInsideEyeSpacesToAnalyze := (emptySpacesToAnalyze.map (fun space => space.chain)).flatten
  let playableNodesInsideOfEnemySpace : List (Int × Int) :=
    emptySpacesToAnalyze.foldl (fun playableNodes space =>
      let attackableLiberties := (space.neighbors.map (fun neighborChain =>
        let liberties := (chainHeadLiberties neighborChain).getD []
        if liberties.length > 4 then []
        else
          let neighborChains := getAllNeighboringChains boardState.board neighborChain chains
          if !(neighborChains.any (fun chain => chainHeadColor chain == some player)) then []
          else
            let libertiesInsideOfSpaceToAnalyze :=
              liberties.filter (fun point => containsCoord space.chain point)
            if libertiesInsideOfSpaceToAnalyze.length ≠ liberties.length then []
            else libertiesInsideOfSpaceToAnalyze)).flatten
      playableNodes ++ attackableLiberties) []
  validMoves.filter (fun move =>
    !(contains nodesInsideEyeSpacesToAnalyze move) ||
      coordListContains playableNodesInsideOfEnemySpace move)

/-- src `getDisputedTerritoryMoves`. -/
def getDisputedTerritoryMoves (board : Board) (availableSpaces : List PointState)
    (maxChainSize : Nat) : List PointState :=
  let chains := (getAllChains board).filter (fun chain => chain.length ≤ maxChainSize)
  availableSpaces.filter (fun space =>
    let chain := (chains.find? (fun chain => chainHeadId chain == some space.chain)).getD []
    let playerNeighbors := getAllNeighboringChains board chain chains
    (playerNeighbors.any (fun nc => chainHeadColor nc == some GoColor.white)) &&
    (playerNeighbors.any (fun nc => chainHeadColor nc == some GoColor.black)))

/-- src `getExpansionMoveArray`. -/
def getExpansionMoveArray (board : Board) (availableSpaces : List PointState) : List Move :=
  let emptySpaces := availableSpaces.filter (fun space =>
    let neighbors := findNeighbors board space.x space.y
    ([neighbors.north, neighbors.east, neighbors.south, neighbors.west].filter
      (fun point => point.map (fun p => p.color) == some GoColor.empty)).length = 4)
  let disputedSpaces :=
    if emptySpaces.length ≠ 0 then [] else getDisputedTerritoryMoves board availableSpaces 1
  (emptySpaces ++ disputedSpaces).map (fun point => (⟨point, some (-1), some (-1), none⟩ : Move))

/-- The stable sort of `getEyeCreationMoves` (comparator
`+b.createsLife - +a.createsLife`): life-creating moves first, order kept. -/
def sortByCreatesLife (l : List EyeMove) : List EyeMove :=
  (l.filter (fun e => e.createsLife)) ++ (l.filter (fun e => !e.createsLife))

/-- The reducer body of `getEyeCreationMoves`: play the liberty out on an
evaluation board and keep it when it increases living groups, or increases
eyes without losing living groups. -/
def eyeCreationStep (board : Board) (player : GoColor)
    (currentLivingGroupsCount currentEyeCount : Nat)
    (moveOptions : List EyeMove) (point : PointState) : List EyeMove :=
  let evaluationBoard := evaluateMoveResult board point.x point.y player false
  let newEyes := getAllEyes evaluationBoard player
  let newLivingGroupsCount := (newEyes.filter (fun eye => eye.length ≥ 2)).length
  let newEyeCount := (newEyes.filter (fun eye => eye.length ≠ 0)).length
  if newLivingGroupsCount > currentLivingGroupsCount ||
     (newEyeCount > currentEyeCount && newLivingGroupsCount == currentLivingGroupsCount) then
    moveOptions ++ [(⟨point, newLivingGroupsCount > currentLivingGroupsCount⟩ : EyeMove)]
  else moveOptions

/-- src `getEyeCreationMoves`. -/
def getEyeCreationMoves (board : Board) (player : GoColor) (availableSpaces : List PointState)
    (maxLiberties : Int) : List EyeMove :=
  let allEyes := getAllEyesByChainId board player
  let currentEyes := getAllEyesFrom allEyes
  let currentLivingGroupIDs := (allEyes.filter (fun kv => kv.2.length ≥ 2)).map (fun kv => kv.1)
  let currentLivingGroupsCount := currentLivingGroupIDs.length
  let currentEyeCount := (currentEyes.filter (fun eye => eye.length ≠ 0)).length
  let chains := getAllChains board
  let friendlyLiberties := (((((chains.filter
      (fun chain => chainHeadColor chain == some player)).filter
      (fun chain => chain.length > 1)).filter
      (fun chain =>
        match chainHeadLiberties chain with
        | Option.none => false
        | Option.some l => (l.length : Int) ≤ maxLiberties)).filter
      (fun chain => !(currentLivingGroupIDs.contains ((chainHeadId chain).getD "")))).map
      (fun chain => (chainHeadLiberties chain).getD [])).flatten.filterMap
      (fun c => getPt board c.1 c.2)
  let friendlyLiberties2 := (friendlyLiberties.filter
      (fun point => availableSpaces.any (fun ap => ap.x == point.x && ap.y == point.y))).filter
      (fun point =>
        let neighbors := findNeighbors board point.x point.y
        let neighborhood := [neighbors.north, neighbors.east, neighbors.south, neighbors.west]
        ((neighborhood.filter (fun p => p.isNone || p.map (fun q => q.color) == some player)).length ≥ 2) &&
        (neighborhood.any (fun p => p.map (fun q => q.color) == some GoColor.empty)))
  let eyeCreationMoves := friendlyLiberties2.foldl
    (eyeCreationStep board player currentLivingGroupsCount currentEyeCount) []
  sortByCreatesLife eyeCreationMoves

/-- src `getEyeCreationMove`. -/
def getEyeCreationMove (board : Board) (player : GoColor) (availableSpaces : List PointState) :
    Option EyeMove :=
  (getEyeCreationMoves board player availableSpaces 99).head?

/-- src `getEyeBlockingMove`. -/
def getEyeBlockingMove (board : Board) (player : GoColor) (availablePoints : List PointState) :
    Option EyeMove :=
  let opposingPlayer := if player = GoColor.white then GoColor.black else GoColor.white
  let opponentEyeMoves := getEyeCreationMoves board opposingPlayer availablePoints 5
  let twoEyeMoves := opponentEyeMoves.filter (fun m => m.createsLife)
  let oneEyeMoves := opponentEyeMoves.filter (fun m => !m.createsLife)
  if twoEyeMoves.length = 1 then twoEyeMoves.head?
  else if twoEyeMoves.length = 0 ∧ oneEyeMoves.length = 1 then oneEyeMoves.head?
  else none

/-- The move records produced by `getLibertyGrowthMoves` (their liberty
counts are always present in the source). -/
structure GrowthMove where
  point : PointState
  oldLibertyCount : Int
  newLibertyCount : Int
deriving DecidableEq, Repr

/-- src `getLibertyGrowthMoves`; the `oldLibertyCount` recorded alongside
each liberty is immediately shadowed by `findMinLibertyCountOfAdjacentChains`
in the source and is dropped here. -/
def getLibertyGrowthMoves (board : Board) (player : GoColor)
    (availableSpaces : List PointState) : List GrowthMove :=
  let friendlyChains := (getAllChains board).filter
    (fun chain => chainHeadColor chain == some player)
  if friendlyChains.length = 0 then []
  else
    let liberties := (((friendlyChains.map (fun chain =>
        ((chainHeadLiberties chain).getD []).filterMap (fun c => getPt board c.1 c.2))).flatten).filter
      (fun libertyPoint =>
        availableSpaces.any (fun point => libertyPoint.x == point.x && libertyPoint.y == point.y)))
    (liberties.map (fun move =>
      let newLibertyCount : Int :=
        ((findEffectiveLibertiesOfNewMove board move.x move.y player).length : Int)
      let oldLibertyCount := findMinLibertyCountOfAdjacentChains board move.x move.y player
      (⟨move, oldLibertyCount, newLibertyCount⟩ : GrowthMove))).filter
      (fun move => move.newLibertyCount > 1 && move.newLibertyCount ≥ move.oldLibertyCount)

/-- src `getGrowthMove`. -/
def getGrowthMove (board : Board) (player : GoColor) (availableSpaces : List PointState)
    (rng : Rat) : Option GrowthMove :=
  let growthMoves := getLibertyGrowthMoves board player availableSpaces
  let maxLibertyCount := jsMaxD (growthMoves.map (fun l => l.newLibertyCount - l.oldLibertyCount))
  jsPick (growthMoves.filter
    (fun l => some (l.newLibertyCount - l.oldLibertyCount) == maxLibertyCount)) rng

/-- src `getDefendMove`. -/
def getDefendMove (board : Board) (player : GoColor) (availableSpaces : List PointState)
    (rng : Rat) : Option GrowthMove :=
  let growthMoves := getLibertyGrowthMoves board player availableSpaces
  let libertyIncreases := growthMoves.filter
    (fun move => move.oldLibertyCount ≤ 1 && move.newLibertyCount > move.oldLibertyCount)
  let maxLibertyCount := jsMaxD
    (libertyIncreases.map (fun l => l.newLibertyCount - l.oldLibertyCount))
  if (match maxLibertyCount with | Option.none => true | Option.some m => decide (m < 1)) then none
  else jsPick (libertyIncreases.filter
    (fun l => some (l.newLibertyCount - l.oldLibertyCount) == maxLibertyCount)) rng

/-- src `getExpansionMove`. -/
def getExpansionMove (board : Board) (availableSpaces : List PointState) (rng : Rat)
    (moveArray : Option (List Move)) : Option Move :=
  jsPick (moveArray.getD (getExpansionMoveArray board availableSpaces)) rng

/-- src `getJumpMove`. -/
def getJumpMove (board : Board) (player : GoColor) (availableSpaces : List PointState)
    (rng : Rat) (moveArray : Option (List Move)) : Option Move :=
  let moveOptions := (moveArray.getD (getExpansionMoveArray board availableSpaces)).filter
    (fun m =>
      [getPt board m.point.x (m.point.y + 2), getPt board (m.point.x + 2) m.point.y,
       getPt board m.point.x (m.point.y - 2), getPt board (m.point.x - 2) m.point.y].any
        (fun point => point.map (fun p => p.color) == some player))
  jsPick moveOptions rng

/-- The per-liberty body of `getSurroundMove`, sorting each enemy liberty
into the capture / atari / surround buckets (the state is the bucket
triple). -/
def surroundClassify (board : Board) (player : GoColor) (smart : Bool)
    (st : List Move × List Move × List Move) (move : PointState) :
    List Move × List Move × List Move :=
  let newLibertyCount : Int :=
    ((findEffectiveLibertiesOfNewMove board move.x move.y player).length : Int)
  let weakestEnemyChain := findEnemyNeighborChainWithFewestLiberties board move.x move.y
    (if player = GoColor.black then GoColor.white else GoColor.black)
  let weakestEnemyChainLength : Int :=
    (weakestEnemyChain.map (fun c => (c.length : Int))).getD 99
  let enemyChainLibertyCount : Int :=
    ((weakestEnemyChain.bind chainHeadLiberties).map (fun l => (l.length : Int))).getD 99
  let enemyLibertyGroups := dedupFirst
    (((weakestEnemyChain.bind chainHeadLiberties).getD []).map
      (fun c => ((getPt board c.1 c.2).map (fun p => p.chain)).getD ""))
  if newLibertyCount ≤ 2 ∧ enemyChainLibertyCount > 2 then st
  else if enemyChainLibertyCount ≤ 1 then
    (st.1 ++ [(⟨move, some enemyChainLibertyCount, some (enemyChainLibertyCount - 1), none⟩ : Move)],
     st.2.1, st.2.2)
  else if enemyChainLibertyCount = 2 ∧
      (newLibertyCount ≥ 2 ∨ (enemyLibertyGroups.length = 1 ∧ weakestEnemyChainLength > 3) ∨ !smart) then
    (st.1,
     st.2.1 ++ [(⟨move, some enemyChainLibertyCount, some (enemyChainLibertyCount - 1), none⟩ : Move)],
     st.2.2)
  else if newLibertyCount ≥ 2 then
    (st.1, st.2.1,
     st.2.2 ++ [(⟨move, some enemyChainLibertyCount, some (enemyChainLibertyCount - 1), none⟩ : Move)])
  else st

/-- src `getSurroundMove`. -/
def getSurroundMove (board : Board) (player : GoColor) (availableSpaces : List PointState)
    (smart : Bool) : Option Move :=
  let opposingPlayer := if player = GoColor.black then GoColor.white else GoColor.black
  let enemyChains := (getAllChains board).filter
    (fun chain => chainHeadColor chain == some opposingPlayer)
  if enemyChains.length = 0 ∨ availableSpaces.length = 0 then none
  else
    let enemyLiberties := (((enemyChains.map
        (fun chain => (chainHeadLiberties chain).getD [])).flatten).filterMap
      (fun c => getPt board c.1 c.2)).filter
      (fun liberty => availableSpaces.any (fun point => liberty.x == point.x && liberty.y == point.y))
    let classified := enemyLiberties.foldl (surroundClassify board player smart) ([], [], [])
    (classified.1 ++ classified.2.1 ++ classified.2.2).head?

/-- src `findLiveNodesInArea`. -/
def findLiveNodesInArea (board : Board) (x1 y1 x2 y2 : Int) : List PointState :=
  ((board.map (fun column => column.filterMap id)).flatten).filter (fun point =>
    x1 ≤ point.x && point.x ≤ x2 && y1 ≤ point.y && point.y ≤ y2)

/-- src `isCornerAvailableForMove`. -/
def isCornerAvailableForMove (board : Board) (x1 y1 x2 y2 : Int) : Bool :=
  let foundPoints := findLiveNodesInArea board x1 y1 x2 y2
  let foundPieces := foundPoints.filter (fun point => point.color != GoColor.empty)
  if foundPoints.length ≥ 7 then foundPieces.length = 0 else false

/-- src `getCornerMove` (with the asymmetric upper-right window the source
actually checks). -/
def getCornerMove (board : Board) : Option PointState :=
  let boardEdge : Int := ((board[0]?.getD []).length : Int) - 1
  let cornerMax := boardEdge - 2
  if isCornerAvailableForMove board cornerMax cornerMax boardEdge boardEdge then
    getPt board cornerMax cornerMax
  else if isCornerAvailableForMove board 0 cornerMax 2 boardEdge then
    getPt board 2 cornerMax
  else if isCornerAvailableForMove board 0 0 2 2 then
    getPt board 2 2
  else if isCornerAvailableForMove board cornerMax 0 boardEdge 2 then
    getPt board cornerMax 2
  else none

/-- src `threeByThreePatterns` (the 13 base patterns). -/
def threeByThreePatterns : List (List String) := [
  ["XOX", "...", "???"],
  ["XO.", "...", "?.?"],
  ["XO?", "X..", "o.?"],
  [".O.", "X..", "..."],
  ["XO?", "O.x", "?x?"],
  ["XO?", "O.X", "???"],
  ["?X?", "O.O", "xxx"],
  ["OX?", "x.O", "???"],
  ["X.?", "O.?", "   "],
  ["OX?", "X.O", "   "],
  ["?X?", "o.O", "   "],
  ["?XO", "o.o", "   "],
  ["?OX", "X.O", "   "]]

/-- A three-character pattern row. -/
def patRow3 (a b c : Char) : String := String.mk [a, b, c]

/-- src `rotate90Degrees` (character indexing is always in range at its
uses: it is applied before the mirrors, to three-character rows). -/
def rotate90Degrees (pattern : List String) : List String :=
  let g := fun (i j : Nat) => ((pattern.getD i "").data.getD j ' ')
  [patRow3 (g 2 0) (g 1 0) (g 0 0),
   patRow3 (g 2 1) (g 1 1) (g 0 1),
   patRow3 (g 2 2) (g 1 2) (g 0 2)]

/-- src `verticalMirror`. -/
def verticalMirror (pattern : List String) : List String :=
  [pattern.getD 2 "", pattern.getD 1 "", pattern.getD 0 ""]

/-- src `horizontalMirror`: `split("").reverse().join()` joins with the
default "," separator, so each produced row is comma-separated. -/
def horizontalMirror (pattern : List String) : List String :=
  pattern.map (fun row => String.intercalate "," ((row.data.reverse).map (fun c => String.mk [c])))

/-- src `expandAllThreeByThreePatterns`. -/
def expandAllThreeByThreePatterns : List (List String) :=
  let rotatedPatterns :=
    threeByThreePatterns ++
    threeByThreePatterns.map rotate90Degrees ++
    (threeByThreePatterns.map rotate90Degrees).map rotate90Degrees ++
    ((threeByThreePatterns.map rotate90Degrees).map rotate90Degrees).map rotate90Degrees
  let mirroredPatterns := rotatedPatterns ++ rotatedPatterns.map verticalMirror
  mirroredPatterns ++ mirroredPatterns.map horizontalMirror

/-- A board cell as the pattern matcher sees it: JS `undefined` for an
out-of-range index, `null` for an offline node, or a point. -/
inductive JSCell where
  | undef
  | nullv
  | pt (p : PointState)
deriving DecidableEq, Repr

/-- `board[x]?.[y]` keeping the `null` / `undefined` distinction. -/
def getCellJS (board : Board) (x y : Int) : JSCell :=
  match listGetI board x with
  | Option.none => JSCell.undef
  | Option.some col =>
    match listGetI col y with
    | Option.none => JSCell.undef
    | Option.some Option.none => JSCell.nullv
    | Option.some (Option.some p) => JSCell.pt p

/-- src `getNeighborhood`. -/
def getNeighborhood (board : Board) (x y : Int) : List (List JSCell) :=
  [[getCellJS board (x-1) (y-1), getCellJS board (x-1) y, getCellJS board (x-1) (y+1)],
   [getCellJS board x (y-1), getCellJS board x y, getCellJS board x (y+1)],
   [getCellJS board (x+1) (y-1), getCellJS board (x+1) y, getCellJS board (x+1) (y+1)]]

/-- `point?.color` on a `JSCell`. -/
def cellColor : JSCell → Option GoColor
  | JSCell.pt p => some p.color
  | _ => none

/-- src `matches`; its fall-through `return null` is falsy in the `every`
that consumes it, hence `false` here.  Note `point === null` is false for
`undefined`, so `' '` matches offline nodes but not out-of-range cells. -/
def matchesCell (stringPoint : Char) (point : JSCell) (player : GoColor) : Bool :=
  let opponent := if player = GoColor.white then GoColor.black else GoColor.white
  if stringPoint = 'X' then cellColor point == some player
  else if stringPoint = 'O' then cellColor point == some opponent
  else if stringPoint = 'x' then cellColor point != some opponent
  else if stringPoint = 'o' then cellColor point != some player
  else if stringPoint = '.' then cellColor point == some GoColor.empty
  else if stringPoint = ' ' then point == JSCell.nullv
  else if stringPoint = '?' then true
  else false

/-- src `checkMatch`; `pattern.join("").split("")` may be longer than the
nine neighborhood cells (the comma-separated mirrored rows), in which case
the excess indices read `undefined` from the neighborhood array. -/
def checkMatch (neighborhood : List (List JSCell)) (pattern : List String) (player : GoColor) :
    Bool :=
  let patternArr := (String.join pattern).data
  let neighborhoodArray := neighborhood.flatten
  patternArr.enum.all (fun ic => matchesCell ic.2 (neighborhoodArray.getD ic.1 JSCell.undef) player)

/-- src `findAnyMatchedPatterns`; the pushed `board[x][y]` is looked up with
`getPt` (a match requires `'.'` at the pattern's center, so the cell holds a
point whenever a pattern matched). -/
def findAnyMatchedPatterns (board : Board) (player : GoColor)
    (availableSpaces : List PointState) (smart : Bool) (rng : Rat) : Option PointState :=
  let boardSize := (board[0]?.getD []).length
  let patterns := expandAllThreeByThreePatterns
  let moves := ((List.range boardSize).flatMap (fun x =>
      (List.range boardSize).map (fun y => (x, y)))).filterMap (fun xy =>
    let neighborhood := getNeighborhood board (xy.1 : Int) (xy.2 : Int)
    let matchedPattern := patterns.find? (fun pattern => checkMatch neighborhood pattern player)
    if matchedPattern.isSome &&
       (availableSpaces.any (fun ap => ap.x == (xy.1 : Int) && ap.y == (xy.2 : Int))) &&
       (!smart || decide ((findEffectiveLibertiesOfNewMove board (xy.1 : Int) (xy.2 : Int) player).length > 1))
    then getPt board (xy.1 : Int) (xy.2 : Int) else none)
  jsPick moves rng

/-- src `isSmart` (the float literals as rationals). -/
def isSmart (faction : GoOpponent) (rng : Rat) : Bool :=
  if faction = GoOpponent.Netburners then false
  else if faction = GoOpponent.SlumSnakes then decide (rng < (3 : Rat)/10)
  else if faction = GoOpponent.TheBlackHand then decide (rng < (4 : Rat)/5)
  else true

/-- The memo table of src `getMoveOptions`: every getter is pure, so the
per-decision memoization is modelled by computing each option once. -/
structure MoveOptions where
  capture : Option Move
  defendCapture : Option Move
  eyeMove : Option Move
  eyeBlock : Option Move
  pattern : Option Move
  growth : Option Move
  expansion : Option Move
  jump : Option Move
  defend : Option Move
  surround : Option Move
  corner : Option Move
  random : Option Move
deriving DecidableEq, Repr

/-- src `getMoveOptions`. -/
def getMoveOptions (boardState : BoardState) (player : GoColor) (rng : Rat) (smart : Bool) :
    MoveOptions :=
  let board := boardState.board
  let availableSpaces := findDisputedTerritory boardState player smart
  let contestedPoints := getDisputedTerritoryMoves board availableSpaces 99
  let expansionMoves := getExpansionMoveArray board availableSpaces
  let endGameAvailable := contestedPoints.length = 0 ∧ boardState.passCount ≠ 0
  let growthOpt := if endGameAvailable then none else
    (getGrowthMove board player availableSpaces rng).map
      (fun g => (⟨g.point, some g.oldLibertyCount, some g.newLibertyCount, none⟩ : Move))
  let defendOpt := (getDefendMove board player availableSpaces rng).map
    (fun g => (⟨g.point, some g.oldLibertyCount, some g.newLibertyCount, none⟩ : Move))
  let surroundOpt := getSurroundMove board player availableSpaces smart
  let eyeMoveOpt := if endGameAvailable then none else
    (getEyeCreationMove board player availableSpaces).map
      (fun e => (⟨e.point, none, none, some e.createsLife⟩ : Move))
  let eyeBlockOpt := if endGameAvailable then none else
    (getEyeBlockingMove board player availableSpaces).map
      (fun e => (⟨e.point, none, none, some e.createsLife⟩ : Move))
  let patternOpt := if endGameAvailable then none else
    (findAnyMatchedPatterns board player availableSpaces smart rng).map
      (fun point => (⟨point, none, none, none⟩ : Move))
  let expansionOpt := getExpansionMove board availableSpaces rng (some expansionMoves)
  let jumpOpt := getJumpMove board player availableSpaces rng (some expansionMoves)
  let cornerOpt := (getCornerMove board).map (fun point => (⟨point, none, none, none⟩ : Move))
  let randomOpt := if contestedPoints.length ≠ 0 then
    (jsPick availableSpaces rng).map (fun point => (⟨point, none, none, none⟩ : Move)) else none
  let captureOpt :=
    match surroundOpt with
    | Option.some m => if m.newLibertyCount == some 0 then some m else none
    | Option.none => none
  let defendCaptureOpt :=
    match defendOpt with
    | Option.some m =>
      if m.oldLibertyCount == some 1 &&
         (match m.newLibertyCount with
          | Option.some v => decide (v ≠ 0) && decide (v > 1)
          | Option.none => false) then some m else none
    | Option.none => none
  ⟨captureOpt, defendCaptureOpt, eyeMoveOpt, eyeBlockOpt, patternOpt, growthOpt,
   expansionOpt, jumpOpt, defendOpt, surroundOpt, cornerOpt, randomOpt⟩

/-- src `getIlluminatiPriorityMove`. -/
def getIlluminatiPriorityMove (moves : MoveOptions) (rng : Rat) : Option PointState :=
  if moves.capture.isSome then moves.capture.map (fun m => m.point)
  else if moves.defendCapture.isSome then moves.defendCapture.map (fun m => m.point)
  else if moves.eyeMove.isSome then moves.eyeMove.map (fun m => m.point)
  else if moves.surround.isSome ∧ ((moves.surround.bind (fun m => m.newLibertyCount)).getD 9 ≤ 1) then
    moves.surround.map (fun m => m.point)
  else if moves.eyeBlock.isSome then moves.eyeBlock.map (fun m => m.point)
  else if moves.corner.isSome then moves.corner.map (fun m => m.point)
  else
    let hasMoves := ([moves.eyeMove, moves.eyeBlock, moves.growth, moves.defend,
      moves.surround].filter Option.isSome).length
    let usePattern := rng > (1 : Rat)/4 ∨ hasMoves = 0
    if moves.pattern.isSome ∧ usePattern then moves.pattern.map (fun m => m.point)
    else if rng > (2 : Rat)/5 ∧ moves.jump.isSome then moves.jump.map (fun m => m.point)
    else if rng < (3 : Rat)/5 ∧ moves.surround.isSome ∧
        ((moves.surround.bind (fun m => m.newLibertyCount)).getD 9 ≤ 2) then
      moves.surround.map (fun m => m.point)
    else none

/-- src `getNetburnersPriorityMove`. -/
def getNetburnersPriorityMove (moves : MoveOptions) (rng : Rat) : Option PointState :=
  if rng < (1 : Rat)/5 then getIlluminatiPriorityMove moves rng
  else if rng < (2 : Rat)/5 ∧ moves.expansion.isSome then moves.expansion.map (fun m => m.point)
  else if rng < (3 : Rat)/5 ∧ moves.growth.isSome then moves.growth.map (fun m => m.point)
  else if rng < (3 : Rat)/4 then moves.random.map (fun m => m.point)
  else none

/-- src `getSlumSnakesPriorityMove`. -/
def getSlumSnakesPriorityMove (moves : MoveOptions) (rng : Rat) : Option PointState :=
  if moves.defendCapture.isSome then moves.defendCapture.map (fun m => m.point)
  else if rng < (1 : Rat)/5 then getIlluminatiPriorityMove moves rng
  else if rng < (3 : Rat)/5 ∧ moves.growth.isSome then moves.growth.map (fun m => m.point)
  else if rng < (13 : Rat)/20 then moves.random.map (fun m => m.point)
  else none

/-- src `getBlackHandPriorityMove`. -/
def getBlackHandPriorityMove (moves : MoveOptions) (rng : Rat) : Option PointState :=
  if moves.capture.isSome then moves.capture.map (fun m => m.point)
  else if moves.surround.isSome ∧ ((moves.surround.bind (fun m => m.newLibertyCount)).getD 999 ≤ 1) then
    moves.surround.map (fun m => m.point)
  else if moves.defendCapture.isSome then moves.defendCapture.map (fun m => m.point)
  else if moves.surround.isSome ∧ ((moves.surround.bind (fun m => m.newLibertyCount)).getD 999 ≤ 2) then
    moves.surround.map (fun m => m.point)
  else if rng < (3 : Rat)/10 then getIlluminatiPriorityMove moves rng
  else if rng < (3 : Rat)/4 ∧ moves.surround.isSome then moves.surround.map (fun m => m.point)
  else if rng < (4 : Rat)/5 then moves.random.map (fun m => m.point)
  else none

/-- src `getTetradPriorityMove`. -/
def getTetradPriorityMove (moves : MoveOptions) (rng : Rat) : Option PointState :=
  if moves.capture.isSome then moves.capture.map (fun m => m.point)
  else if moves.defendCapture.isSome then moves.defendCapture.map (fun m => m.point)
  else if moves.pattern.isSome then moves.pattern.map (fun m => m.point)
  else if moves.surround.isSome ∧ ((moves.surround.bind (fun m => m.newLibertyCount)).getD 9 ≤ 1) then
    moves.surround.map (fun m => m.point)
  else if rng < (2 : Rat)/5 then getIlluminatiPriorityMove moves rng
  else none

/-- src `getDaedalusPriorityMove`. -/
def getDaedalusPriorityMove (moves : MoveOptions) (rng : Rat) : Option PointState :=
  if rng < (9 : Rat)/10 then getIlluminatiPriorityMove moves rng
  else none

/-- src `getFactionMove`. -/
def getFactionMove (moves : MoveOptions) (faction : GoOpponent) (rng : Rat) :
    Option PointState :=
  if faction = GoOpponent.Netburners then getNetburnersPriorityMove moves rng
  else if faction = GoOpponent.SlumSnakes then getSlumSnakesPriorityMove moves rng
  else if faction = GoOpponent.TheBlackHand then getBlackHandPriorityMove moves rng
  else if faction = GoOpponent.Tetrads then getTetradPriorityMove moves rng
  else if faction = GoOpponent.Daedalus then getDaedalusPriorityMove moves rng
  else getIlluminatiPriorityMove moves rng

/-- Every `GoValidity` value is a non-empty string in the source, hence
truthy: the fallback filter of `getMove` keeps every point. -/
def goValidityTruthy (_v : GoValidity) : Bool := true

/-- The `moveOptions` fallback list of step 5 of `getMove`: the seven
"reasonable" generator outputs, nulls dropped, then the filter whose
predicate is the (always truthy) `GoValidity` value. -/
def fallbackMoveOptions (moves : MoveOptions) (boardState : BoardState) (player : GoColor) :
    List PointState :=
  ([moves.growth.map (fun m => m.point),
    moves.surround.map (fun m => m.point),
    moves.defend.map (fun m => m.point),
    moves.expansion.map (fun m => m.point),
    moves.pattern.map (fun m => m.point),
    moves.eyeMove.map (fun m => m.point),
    moves.eyeBlock.map (fun m => m.point)].filterMap id).filter
    (fun point => goValidityTruthy (evaluateIfMoveIsValid boardState point.x point.y player false))

/-- src `getMove`.  The four `rng.random()` draws of one decision are the
first four values of the stream: smartness coin, move-option randomness,
persona randomness, fallback pick. -/
def getMove (boardState : BoardState) (player : GoColor) (opponent : GoOpponent)
    (rng : Nat → Rat) : Play :=
  let smart := isSmart opponent (rng 0)
  let moves := getMoveOptions boardState player (rng 1) smart
  let priorityMove := getFactionMove moves opponent (rng 2)
  match priorityMove with
  | Option.some point => Play.move point.x point.y
  | Option.none =>
    match jsPick (fallbackMoveOptions moves boardState player) (rng 3) with
    | Option.some chosenMove => Play.move chosenMove.x chosenMove.y
    | Option.none => Play.pass

/-- src `boardStateFromSimpleBoard`. -/
def boardStateFromSimpleBoard (simpleBoard : SimpleBoard) (ai : GoOpponent) : BoardState :=
  ⟨updateChains (boardFromSimpleBoard simpleBoard) true, some GoColor.empty, [], ai, 0, 0, 0⟩

/-- src `get_move` (the exported entry point). -/
def get_move (simpleBoard : SimpleBoard) (ai : GoOpponent) (player : GoColor)
    (rng : Nat → Rat) : Play :=
  getMove (boardStateFromSimpleBoard simpleBoard ai) player ai rng

/-- Shape of a square board: `N` columns, each of length `N`. -/
abbrev boardShape (b : Board) (N : Nat) : Prop :=
  b.length = N ∧ ∀ col ∈ b, col.length = N

/-- The verdict of the pattern matcher of `findAnyMatchedPatterns` at a
given cell: whether `patterns.find(...)` yields a matched pattern. -/
def hasMatchedPattern (board : Board) (x y : Int) (player : GoColor) : Bool :=
  (expandAllThreeByThreePatterns.find? (fun pattern =>
    checkMatch (getNeighborhood board x y) pattern player)).isSome

/-- The board rotated a quarter turn, with cells carried over unchanged. -/
def rotateBoard (b : Board) : Board :=
  let N := b.length
  (List.range N).map (fun (u : Nat) => (List.range N).map (fun (v : Nat) =>
    getPt b ((N : Int) - 1 - (v : Int)) (u : Int)))

/-- The board mirrored in x (first coordinate), cells carried unchanged. -/
def vMirrorBoard (b : Board) : Board :=
  let N := b.length
  (List.range N).map (fun (u : Nat) => (List.range N).map (fun (v : Nat) =>
    getPt b ((N : Int) - 1 - (u : Int)) (v : Int)))

/-- The board mirrored in y (second coordinate), cells carried unchanged. -/
def hMirrorBoard (b : Board) : Board :=
  let N := b.length
  (List.range N).map (fun (u : Nat) => (List.range N).map (fun (v : Nat) =>
    getPt b (u : Int) ((N : Int) - 1 - (v : Int))))

/-- A cell that exists on the board, as the pattern matcher sees it. -/
def cellOfOpt : Option PointState → JSCell
  | Option.none => JSCell.nullv
  | Option.some p => JSCell.pt p

/-- A pattern is a 3x3 character grid. -/
def is3x3Pattern (p : List String) : Bool :=
  p.length == 3 && p.all (fun r => r.length == 3)

/-- The empty five-by-five `SimpleBoard` of the specification scenarios. -/
def emptyBoardFive : SimpleBoard := [".....", ".....", ".....", ".....", "....."]

/-- A `BoardState` in which the previous player is also the player to move
(it is not Black's turn), on an otherwise pristine empty board. -/
def notYourTurnState : BoardState :=
  ⟨(boardStateFromSimpleBoard emptyBoardFive GoOpponent.Illuminati).board,
   some GoColor.black, [], GoOpponent.Illuminati, 0, 0, 0⟩

/-- A three-by-three scenario in which Black's only hope at (0,0) is a
plain suicide whose played-out result reproduces the previous board. -/
def bsC3ce : BoardState :=
  ⟨updateChains (boardFromSimpleBoard [".O.", "O..", "..."]) true,
   some GoColor.white, [".O.O....."], GoOpponent.Illuminati, 0, 0, 0⟩

/-- A four-by-four ko scenario: Black recapturing at (2,1) recreates the
single recorded previous board. -/
def bsC3w : BoardState :=
  ⟨updateChains (boardFromSimpleBoard [".X..", "XOX.", "O.O.", ".O.."]) true,
   some GoColor.white, [".X..X.X.OXO..O.."], GoOpponent.Illuminati, 0, 0, 0⟩

/-- One orthogonal same-color step between two present points. -/
def adjStep (b : Board) (c c' : Int × Int) : Prop :=
  ∃ p p', getPt b c.1 c.2 = some p ∧ getPt b c'.1 c'.2 = some p' ∧ p.color = p'.color ∧
    (c' = (c.1, c.2 + 1) ∨ c' = (c.1 + 1, c.2) ∨ c' = (c.1, c.2 - 1) ∨ c' = (c.1 - 1, c.2))

/-- Connectivity through orthogonal same-color steps (absent cells block). -/
def Reach (b : Board) : (Int × Int) → (Int × Int) → Prop :=
  Relation.ReflTransGen (adjStep b)

/-- Column-major scan order on coordinates. -/
def lexLe (c c' : Int × Int) : Prop := c.1 < c'.1 ∨ (c.1 = c'.1 ∧ c.2 ≤ c'.2)

/-- Membership by coordinates in a list of points. -/
def containsC (l : List PointState) (x y : Int) : Bool :=
  l.any (fun p => p.x == x && p.y == y)

/-- The four candidate neighbors of a point, in source order. -/
def neighborsOf (b : Board) (x y : Int) : List PointState :=
  getArrayFromNeighbor (findNeighbors b x y)

/-- Whether a scan coordinate is covered by the `checkedPoints` list. -/
def coordChecked (checked : List PointState) (xy : Nat × Nat) : Bool :=
  checked.any (fun p => p.x == (xy.1 : Int) && p.y == (xy.2 : Int))

/-- The number of scan coordinates not yet covered by `checkedPoints`. -/
def uncheckedCount (b : Board) (checked : List PointState) : Nat :=
  ((scanCoords b).filter (fun xy => !coordChecked checked xy)).length

def ptSkel (o : Option PointState) : Option (GoColor × Int × Int) :=
  o.map (fun p => (p.color, p.x, p.y))

def sameSkel (b b' : Board) : Prop :=
  ∀ u v : Int, ptSkel (getPt b u v) = ptSkel (getPt b' u v)

/-- The numeric reading of a digit string. -/
def digitVal (c : Char) : Nat := c.toNat - '0'.toNat

/-- The numeric reading of a digit string, most significant first. -/
def digitsVal (l : List Char) : Nat := l.foldl (fun acc c => acc * 10 + digitVal c) 0

def natLexLt (z w : Nat × Nat) : Prop := z.1 < w.1 ∨ (z.1 = w.1 ∧ z.2 < w.2)

/-- Some already-processed scan coordinate reaches `w`. -/
def reachedBy (b0 : Board) (done : List (Nat × Nat)) (w : Int × Int) : Prop :=
  ∃ z ∈ done, Reach b0 ((z.1 : Int), (z.2 : Int)) w

/-- `c` is the first member of `w`'s component in column-major scan order. -/
def chainRoot (b0 : Board) (c w : Int × Int) : Prop :=
  Reach b0 c w ∧ ∀ c', Reach b0 c' w → lexLe c c'

/-- The invariant of the `updateChains` scan after processing `done`. -/
def scanInv (b0 : Board) (done : List (Nat × Nat)) (bcur : Board) : Prop :=
  sameSkel bcur b0 ∧
  ∀ (w : Int × Int) (p : PointState), getPt bcur w.1 w.2 = some p →
    (reachedBy b0 done w → ∃ c : Int × Int, chainRoot b0 c w ∧ p.chain = coordId c.1 c.2) ∧
    (¬ reachedBy b0 done w → p.chain = "")

/-- The in-place clearing applied to each captured point. -/
def capturePoint (q : PointState) : PointState := ⟨GoColor.empty, "", some [], q.x, q.y⟩

/-! ### Shared lemmas about the textual encodings -/

/-- The character `simpleBoardStep` appends for one cell. -/
def cellChar (point : Option PointState) : Char :=
  match point with
  | Option.none => '#'
  | Option.some p =>
    if p.color = GoColor.black then 'X'
    else if p.color = GoColor.white then 'O'
    else '.'

lemma simpleBoardStep_data (str : String) (point : Option PointState) :
    (simpleBoardStep str point).data = str.data ++ [cellChar point] := by
  cases point with
  | none => simp [simpleBoardStep, cellChar, String.data_append]
  | some p =>
    by_cases hb : p.color = GoColor.black
    · simp [simpleBoardStep, cellChar, hb, String.data_append]
    · by_cases hw : p.color = GoColor.white
      · simp [simpleBoardStep, cellChar, hb, hw, String.data_append]
      · simp [simpleBoardStep, cellChar, hb, hw, String.data_append]

lemma foldl_simpleBoardStep_data (column : List (Option PointState)) (str : String) :
    (column.foldl simpleBoardStep str).data = str.data ++ column.map cellChar := by
  induction column generalizing str with
  | nil => simp
  | cons c rest ih => simp [List.foldl_cons, ih, simpleBoardStep_data]

lemma string_join_data (l : List String) :
    (String.join l).data = (l.map String.data).flatten := by
  have h : ∀ (l : List String) (s : String),
      (l.foldl (fun r t => r ++ t) s).data = s.data ++ (l.map String.data).flatten := by
    intro l
    induction l with
    | nil => intro s; simp
    | cons a rest ih => intro s; simp [ih, String.data_append]
  simp [String.join, h l ""]

lemma boardStringFromBoard_data (board : Board) :
    (boardStringFromBoard board).data = (board.map (fun col => col.map cellChar)).flatten := by
  rw [boardStringFromBoard, string_join_data, simpleBoardFromBoard, List.map_map]
  congr 1
  apply List.map_congr_left
  intro col _
  simpa using foldl_simpleBoardStep_data col ""

lemma grid_flatten_getElem {α : Type} (b : List (List α)) (N : Nat)
    (hN : ∀ col ∈ b, col.length = N) (i j : Nat) (hi : i < b.length) (hj : j < N) :
    b.flatten[i * N + j]? = (b.getD i [])[j]? := by
  induction b generalizing i with
  | nil => simp at hi
  | cons col rest ih =>
    have hcol : col.length = N := hN col (by simp)
    cases i with
    | zero =>
      rw [List.flatten_cons, List.getElem?_append_left (by omega)]
      simp
    | succ i =>
      have hle : col.length ≤ (i + 1) * N + j := by
        have h1 : (i + 1) * N = i * N + N := Nat.succ_mul i N
        omega
      rw [List.flatten_cons, List.getElem?_append_right hle]
      have h2 : (i + 1) * N + j - col.length = i * N + j := by
        have h1 : (i + 1) * N = i * N + N := Nat.succ_mul i N
        omega
      rw [h2]
      have := ih (fun c hc => hN c (by simp [hc])) i (by simpa using hi)
      simpa using this

lemma sum_const_length {α : Type} (b : List (List α)) (N : Nat)
    (hN : ∀ col ∈ b, col.length = N) : (b.map List.length).sum = b.length * N := by
  induction b with
  | nil => simp
  | cons col rest ih =>
    have hcol : col.length = N := hN col (by simp)
    have := ih (fun c hc => hN c (by simp [hc]))
    simp [hcol, this, Nat.succ_mul]
    omega

lemma boardString_length (board : Board) (N : Nat) (hlen : board.length = N)
    (hN : ∀ col ∈ board, col.length = N) :
    (boardStringFromBoard board).length = N * N := by
  have : (boardStringFromBoard board).length = (boardStringFromBoard board).data.length := rfl
  rw [this, boardStringFromBoard_data, List.length_flatten, List.map_map]
  have : (List.map (List.length ∘ fun col => col.map cellChar) board) = board.map List.length := by
    apply List.map_congr_left
    intro col _
    simp
  rw [this, sum_const_length board N hN, hlen]

lemma jsRoundSqrt_sq (N : Nat) : jsRoundSqrt (N * N) = N := by
  rw [jsRoundSqrt]
  simp [Nat.sqrt_eq]

/-- The character of `boardStringFromBoard` at the position the source
indexes for `(x, y)` is the encoding of the cell at `(x, y)`. -/
lemma boardString_char (board : Board) (N : Nat) (hlen : board.length = N)
    (hN : ∀ col ∈ board, col.length = N) (x y : Nat) (hx : x < N) (hy : y < N) :
    (boardStringFromBoard board).data[x * N + y]? =
      some (cellChar ((board.getD x []).getD y none)) := by
  rw [boardStringFromBoard_data]
  have hN' : ∀ col ∈ board.map (fun col => col.map cellChar), col.length = N := by
    intro col hcol
    rcases List.mem_map.mp hcol with ⟨c, hc, rfl⟩
    simp [hN c hc]
  rw [grid_flatten_getElem _ N hN' x y (by simpa [hlen] using hx) hy]
  have hxb : x < board.length := by omega
  have hcolx : board[x]? = some (board.getD x []) := by
    rw [List.getD_eq_getElem?_getD]
    rcases List.getElem?_eq_some.mpr ⟨hxb, rfl⟩ with h
    simp [h]
  have h1 : (board.map (fun col => col.map cellChar)).getD x [] =
      (board.getD x []).map cellChar := by
    rw [List.getD_eq_getElem?_getD, List.getElem?_map, List.getD_eq_getElem?_getD]
    cases h : board[x]? <;> simp [h]
  rw [h1, List.getElem?_map]
  have hyb : y < (board.getD x []).length := by
    have := hN (board.getD x []) (by
      have : board.getD x [] = board[x] := by
        rw [List.getD_eq_getElem?_getD]
        simp [List.getElem?_eq_getElem hxb]
      rw [this]; exact List.getElem_mem hxb)
    omega
  have h2 : (board.getD x []).getD y none = (board.getD x [])[y] := by
    rw [List.getD_eq_getElem?_getD, List.getElem?_eq_getElem hyb, Option.getD_some]
  rw [List.getElem?_eq_getElem hyb, h2]
  simp

lemma listGetI_natCast {α : Type} (l : List α) (n : Nat) : listGetI l (n : Int) = l[n]? := by
  simp [listGetI]

lemma getPt_natCast (board : Board) (x y : Nat) :
    getPt board (x : Int) (y : Int) = ((board[x]?.getD [])[y]?).getD none := by
  unfold getPt
  rw [listGetI_natCast]
  cases h : board[x]? with
  | none => simp
  | some col =>
    show (listGetI col (y : Int)).join = _
    rw [listGetI_natCast]
    cases hc : col[y]? <;> simp [hc]

/-- `claim C10` core: reading a position through `getColorOnBoardString ∘
boardStringFromBoard` agrees with reading the board, on a square board. -/
lemma getColorOnBoardString_boardString (board : Board) (N : Nat) (hlen : board.length = N)
    (hN : ∀ col ∈ board, col.length = N) (x y : Nat) (hx : x < N) (hy : y < N) :
    getColorOnBoardString (boardStringFromBoard board) (x : Int) (y : Int) =
      (getPt board (x : Int) (y : Int)).map (fun p => p.color) := by
  have hxb : x < board.length := by omega
  have hcolx : board[x]? = some (board.getD x []) := by
    rw [List.getD_eq_getElem?_getD]
    simp [List.getElem?_eq_getElem hxb]
  have hyb : y < (board.getD x []).length := by
    have hmem : board.getD x [] ∈ board := by
      have : board.getD x [] = board[x] := by
        rw [List.getD_eq_getElem?_getD]
        simp [List.getElem?_eq_getElem hxb]
      rw [this]; exact List.getElem_mem hxb
    have := hN _ hmem
    omega
  have hsize : ((jsRoundSqrt (boardStringFromBoard board).length : Nat) : Int) = (N : Int) := by
    rw [boardString_length board N hlen hN, jsRoundSqrt_sq]
  have hidx : ((x : Int) * ((jsRoundSqrt (boardStringFromBoard board).length : Nat) : Int) + (y : Int)) =
      ((x * N + y : Nat) : Int) := by
    rw [hsize]; push_cast; ring
  rw [getColorOnBoardString]
  show charColor (listGetI (boardStringFromBoard board).data _) = _
  rw [hidx, listGetI_natCast, boardString_char board N hlen hN x y hx hy]
  have hcell : getPt board (x : Int) (y : Int) = (board.getD x []).getD y none := by
    rw [getPt_natCast, hcolx]
    rw [List.getD_eq_getElem?_getD]
    simp
  rw [hcell]
  rcases hc : (board.getD x []).getD y none with _ | p
  · simp [cellChar, charColor]
  · rcases hcolor : p.color <;> simp [cellChar, charColor, hcolor]

lemma cellChar_pointFromChar (x y : Int) (c : Char)
    (h : c = 'X' ∨ c = 'O' ∨ c = '.' ∨ c = '#') :
    cellChar (pointFromChar x y c) = c := by
  rcases h with h | h | h | h <;> subst h <;> rfl

/-- C6: for every well-formed `SimpleBoard` (square, characters drawn from
`X`, `O`, `.`, `#`), `simpleBoardFromBoard (boardFromSimpleBoard s)`
reproduces `s` exactly. -/
theorem claim_C6 (s : SimpleBoard)
    (_hsq : ∀ col ∈ s, col.length = s.length)
    (hchars : ∀ col ∈ s, ∀ c ∈ col.data, c = 'X' ∨ c = 'O' ∨ c = '.' ∨ c = '#') :
    simpleBoardFromBoard (boardFromSimpleBoard s) = s := by
  rw [simpleBoardFromBoard, boardFromSimpleBoard, List.map_map]
  conv_rhs => rw [← List.enum_map_snd s]
  apply List.map_congr_left
  rintro ⟨i, str⟩ ha
  rcases List.mem_enum ha with ⟨hi, hstr⟩
  have hmem : str ∈ s := by rw [hstr]; exact List.getElem_mem hi
  apply String.ext
  rw [Function.comp_apply, foldl_simpleBoardStep_data, List.map_map]
  show [] ++ _ = _
  rw [List.nil_append]
  have : str.data.enum.map (cellChar ∘ fun ychar => pointFromChar (i : Int) (ychar.1 : Int) ychar.2) =
      str.data.enum.map Prod.snd := by
    apply List.map_congr_left
    rintro ⟨j, c⟩ hc
    rcases List.mem_enum hc with ⟨hj, hcj⟩
    have hcm : c ∈ str.data := by rw [hcj]; exact List.getElem_mem hj
    exact cellChar_pointFromChar _ _ c (hchars str hmem c hcm)
  rw [this, List.enum_map_snd]

/-- C6 witness: the round trip on a concrete well-formed 2×2 board. -/
theorem claim_C6_witness :
    (∀ col ∈ (["X#", ".O"] : SimpleBoard), col.length = (["X#", ".O"] : SimpleBoard).length) ∧
    (∀ col ∈ (["X#", ".O"] : SimpleBoard), ∀ c ∈ col.data, c = 'X' ∨ c = 'O' ∨ c = '.' ∨ c = '#') ∧
    simpleBoardFromBoard (boardFromSimpleBoard ["X#", ".O"]) = ["X#", ".O"] :=
  ⟨by decide, by decide, claim_C6 _ (by decide) (by decide)⟩

/-- C10: on a square board, `getColorOnBoardString` applied to
`boardStringFromBoard b` at in-range `(x, y)` returns the color of the point
of `b` at `(x, y)`, and `null` (`none`) when that cell is absent. -/
theorem claim_C10 (b : Board) (N : Nat) (hlen : b.length = N)
    (hN : ∀ col ∈ b, col.length = N) (x y : Nat) (hx : x < N) (hy : y < N) :
    getColorOnBoardString (boardStringFromBoard b) (x : Int) (y : Int) =
      (getPt b (x : Int) (y : Int)).map (fun p => p.color) :=
  getColorOnBoardString_boardString b N hlen hN x y hx hy

/-- C10 witness: a concrete 3×3 board with a stone and an offline node. -/
theorem claim_C10_witness :
    (boardFromSimpleBoard [".X#", "O..", "..."]).length = 3 ∧
    (∀ col ∈ boardFromSimpleBoard [".X#", "O..", "..."], col.length = 3) ∧
    getColorOnBoardString (boardStringFromBoard (boardFromSimpleBoard [".X#", "O..", "..."])) 0 1 =
      (getPt (boardFromSimpleBoard [".X#", "O..", "..."]) 0 1).map (fun p => p.color) :=
  ⟨by decide, by decide, claim_C10 _ 3 (by decide) (by decide) 0 1 (by decide) (by decide)⟩

/-! ### The mutation model for `evaluateMoveResult` (claims C7 and C9) -/

/-- An object store: boards are heap cells, board references are indices.
`evaluateMoveResultImp` is `evaluateMoveResult` with its allocation
(`structuredClone`) and its in-place writes made explicit: the clone of the
input board is written into a fresh cell (`cloneRef`), every mutation
(`point.color = player`, `resetChainsById`, `updateCaptures`) targets that
cell, and the function returns the updated store together with the
reference it returns — the clone, or the input reference itself when the
target cell is absent. -/
def evaluateMoveResultImp (store : List Board) (boardRef : Nat) (x y : Int)
    (player : GoColor) (resetChains : Bool) : List Board × Nat :=
  let board := store.getD boardRef []
  let evaluationBoard := getBoardCopy board
  let cloneRef := store.length
  let store1 := store ++ [evaluationBoard]
  match getPt evaluationBoard x y with
  | Option.none => (store1, boardRef)
  | Option.some point =>
    let b1 := setPt evaluationBoard x y (fun p => ⟨player, p.chain, p.liberties, p.x, p.y⟩)
    let neighbors := getArrayFromNeighbor (findNeighbors board x y)
    let chainIdsToUpdate := point.chain :: neighbors.map (fun p => p.chain)
    (store1.set cloneRef (updateCaptures (resetChainsById b1 chainIdsToUpdate) player resetChains),
     cloneRef)

/-- C7: `evaluateMoveResult` never mutates its input: after the call the
store still holds, at the input reference, a board deeply equal (all colors,
chain ids and liberty lists) to the one before the call; the reference the
call returns holds the value of the pure `evaluateMoveResult`. -/
theorem claim_C7 (store : List Board) (boardRef : Nat) (x y : Int) (player : GoColor)
    (resetChains : Bool) (href : boardRef < store.length) :
    (evaluateMoveResultImp store boardRef x y player resetChains).1[boardRef]? =
      store[boardRef]? ∧
    ((evaluateMoveResultImp store boardRef x y player resetChains).1.getD
        (evaluateMoveResultImp store boardRef x y player resetChains).2 []) =
      evaluateMoveResult (store.getD boardRef []) x y player resetChains := by
  unfold evaluateMoveResultImp evaluateMoveResult getBoardCopy
  cases h : getPt (store.getD boardRef []) x y with
  | none =>
    simp only [h]
    constructor
    · exact List.getElem?_append_left href
    · rw [List.getD_eq_getElem?_getD, List.getElem?_append_left href]
      rw [List.getD_eq_getElem?_getD]
  | some point =>
    simp only [h]
    constructor
    · rw [List.getElem?_set_ne (by omega)]
      exact List.getElem?_append_left href
    · rw [List.getD_eq_getElem?_getD]
      have hlt : store.length < (store ++ [store.getD boardRef []]).length := by
        simp
      rw [List.getElem?_set_self (by simp)]
      simp

/-- C7 witness: a concrete call on a one-board store. -/
theorem claim_C7_witness :
    0 < [boardFromSimpleBoard ["X.", ".."]].length ∧
    ((evaluateMoveResultImp [boardFromSimpleBoard ["X.", ".."]] 0 0 1 GoColor.black false).1[0]? =
      [boardFromSimpleBoard ["X.", ".."]][0]? ∧
    ((evaluateMoveResultImp [boardFromSimpleBoard ["X.", ".."]] 0 0 1 GoColor.black false).1.getD
        (evaluateMoveResultImp [boardFromSimpleBoard ["X.", ".."]] 0 0 1 GoColor.black false).2 []) =
      evaluateMoveResult ([boardFromSimpleBoard ["X.", ".."]].getD 0 []) 0 1 GoColor.black false) :=
  ⟨by decide, claim_C7 [boardFromSimpleBoard ["X.", ".."]] 0 0 1 GoColor.black false (by decide)⟩

/-- C9: when the target cell is absent (`board[x][y]` is `null`),
`evaluateMoveResult` returns the input board object itself — the same
reference, unmodified, not the freshly allocated clone — and its value is
the input board with no move applied. -/
theorem claim_C9 (store : List Board) (boardRef : Nat) (x y : Int) (player : GoColor)
    (resetChains : Bool) (href : boardRef < store.length)
    (habsent : getPt (store.getD boardRef []) x y = none) :
    (evaluateMoveResultImp store boardRef x y player resetChains).2 = boardRef ∧
    (evaluateMoveResultImp store boardRef x y player resetChains).2 ≠ store.length ∧
    (evaluateMoveResultImp store boardRef x y player resetChains).1[boardRef]? =
      store[boardRef]? ∧
    evaluateMoveResult (store.getD boardRef []) x y player resetChains =
      store.getD boardRef [] := by
  unfold evaluateMoveResultImp evaluateMoveResult getBoardCopy
  simp only [habsent]
  exact ⟨trivial, by omega, List.getElem?_append_left href, trivial⟩

/-- C9 witness: the board's `(0,0)` node is offline. -/
theorem claim_C9_witness :
    0 < [boardFromSimpleBoard ["#.", ".."]].length ∧
    getPt ([boardFromSimpleBoard ["#.", ".."]].getD 0 []) 0 0 = none ∧
    ((evaluateMoveResultImp [boardFromSimpleBoard ["#.", ".."]] 0 0 0 GoColor.black false).2 = 0 ∧
    (evaluateMoveResultImp [boardFromSimpleBoard ["#.", ".."]] 0 0 0 GoColor.black false).2 ≠
      [boardFromSimpleBoard ["#.", ".."]].length ∧
    (evaluateMoveResultImp [boardFromSimpleBoard ["#.", ".."]] 0 0 0 GoColor.black false).1[0]? =
      [boardFromSimpleBoard ["#.", ".."]][0]? ∧
    evaluateMoveResult ([boardFromSimpleBoard ["#.", ".."]].getD 0 []) 0 0 GoColor.black false =
      [boardFromSimpleBoard ["#.", ".."]].getD 0 []) :=
  ⟨by decide, by decide,
   claim_C9 [boardFromSimpleBoard ["#.", ".."]] 0 0 0 GoColor.black false (by decide) (by decide)⟩

/-! ### Where the move generators draw their points from (claim C1) -/

lemma mem_of_getElemOpt {α : Type} {l : List α} {n : Nat} {a : α} (h : l[n]? = some a) :
    a ∈ l := by
  rcases List.getElem?_eq_some.mp h with ⟨hlt, rfl⟩
  exact List.getElem_mem hlt

lemma jsPick_mem {α : Type} {l : List α} {r : Rat} {a : α} (h : jsPick l r = some a) :
    a ∈ l := by
  unfold jsPick listGetI at h
  split at h
  · exact absurd h (by simp)
  · exact mem_of_getElemOpt h

lemma listGetI_eq_some {α : Type} {l : List α} {i : Int} {a : α} (h : listGetI l i = some a) :
    ∃ n : Nat, i = (n : Int) ∧ l[n]? = some a := by
  unfold listGetI at h
  split at h
  · exact absurd h (by simp)
  · next hneg => exact ⟨i.toNat, by omega, h⟩

/-- On a well-formed board, the point stored at `(x, y)` carries `(x, y)`
in its coordinate fields. -/
lemma wellFormed_getPt {b : Board} (hwf : wellFormedBoard b = true) {x y : Int}
    {p : PointState} (h : getPt b x y = some p) : p.x = x ∧ p.y = y := by
  unfold wellFormedBoard at hwf
  rw [Bool.and_eq_true] at hwf
  obtain ⟨-, hcoords⟩ := hwf
  rw [List.all_eq_true] at hcoords
  unfold getPt at h
  rcases hcol : listGetI b x with _ | col
  · rw [hcol] at h; exact absurd h (by simp)
  · rw [hcol] at h
    rw [Option.join_eq_some] at h
    rcases listGetI_eq_some hcol with ⟨nx, rfl, hx⟩
    rcases listGetI_eq_some h with ⟨ny, rfl, hy⟩
    have hnx : nx ∈ List.range b.length := by
      rw [List.mem_range]
      rcases List.getElem?_eq_some.mp hx with ⟨hlt, -⟩
      exact hlt
    have h1 := hcoords nx hnx
    rw [List.all_eq_true] at h1
    have hcolD : b[nx]?.getD [] = col := by rw [hx]; rfl
    have hny : ny ∈ List.range ((b[nx]?.getD []).length) := by
      rw [List.mem_range, hcolD]
      rcases List.getElem?_eq_some.mp hy with ⟨hlt, -⟩
      exact hlt
    have h2 := h1 ny hny
    rw [hcolD, hy] at h2
    simp only [Bool.and_eq_true, beq_iff_eq] at h2
    exact h2

/-- Every point of `findDisputedTerritory` passed the fast-path legality
filter of `getAllValidMoves`. -/
lemma findDisputedTerritory_valid {bs : BoardState} {player : GoColor} {smart : Bool}
    {p : PointState} (h : p ∈ findDisputedTerritory bs player smart) :
    evaluateIfMoveIsValid bs p.x p.y player true = GoValidity.valid := by
  simp only [findDisputedTerritory] at h
  rw [List.mem_filter] at h
  obtain ⟨h1, -⟩ := h
  have h2 : p ∈ getAllValidMoves bs player := by
    split at h1
    · exact (List.mem_filter.mp h1).1
    · exact h1
  unfold getAllValidMoves at h2
  rw [List.mem_filter, beq_iff_eq] at h2
  exact h2.2

/-- The coordinates of a generator output occur in `availableSpaces`. -/
def fromSpaces (spaces : List PointState) (q : PointState) : Prop :=
  ∃ p ∈ spaces, p.x = q.x ∧ p.y = q.y

lemma fromSpaces_self {spaces : List PointState} {q : PointState} (h : q ∈ spaces) :
    fromSpaces spaces q := ⟨q, h, rfl, rfl⟩

lemma getLibertyGrowthMoves_spaces {board : Board} {player : GoColor}
    {spaces : List PointState} {g : GrowthMove}
    (h : g ∈ getLibertyGrowthMoves board player spaces) : fromSpaces spaces g.point := by
  simp only [getLibertyGrowthMoves] at h
  split at h
  · exact absurd h (by simp)
  · rw [List.mem_filter] at h
    obtain ⟨hmap, -⟩ := h
    rw [List.mem_map] at hmap
    obtain ⟨move, hmove, rfl⟩ := hmap
    rw [List.mem_filter] at hmove
    obtain ⟨-, hany⟩ := hmove
    rw [List.any_eq_true] at hany
    obtain ⟨p, hp, hbeq⟩ := hany
    rw [Bool.and_eq_true, beq_iff_eq, beq_iff_eq] at hbeq
    exact ⟨p, hp, hbeq.1.symm, hbeq.2.symm⟩

lemma getGrowthMove_spaces {board : Board} {player : GoColor} {spaces : List PointState}
    {r : Rat} {g : GrowthMove} (h : getGrowthMove board player spaces r = some g) :
    fromSpaces spaces g.point := by
  unfold getGrowthMove at h
  have hmem := jsPick_mem h
  rw [List.mem_filter] at hmem
  exact getLibertyGrowthMoves_spaces hmem.1

lemma getDefendMove_spaces {board : Board} {player : GoColor} {spaces : List PointState}
    {r : Rat} {g : GrowthMove} (h : getDefendMove board player spaces r = some g) :
    fromSpaces spaces g.point := by
  simp only [getDefendMove] at h
  split at h
  · exact absurd h (by simp)
  · have hmem := jsPick_mem h
    rw [List.mem_filter] at hmem
    have := (List.mem_filter.mp hmem.1).1
    exact getLibertyGrowthMoves_spaces this

lemma head?_mem {α : Type} {l : List α} {a : α} (h : l.head? = some a) : a ∈ l := by
  cases l with
  | nil => exact absurd h (by simp)
  | cons b t =>
    rw [List.head?_cons, Option.some_inj] at h
    rw [← h]
    simp

lemma surroundClassify_mem (board : Board) (player : GoColor) (smart : Bool)
    (libs : List PointState) :
    ∀ (l : List PointState) (st : List Move × List Move × List Move),
      (∀ m ∈ st.1 ++ st.2.1 ++ st.2.2, m.point ∈ libs) → (∀ q ∈ l, q ∈ libs) →
      ∀ m ∈ (l.foldl (surroundClassify board player smart) st).1 ++
        (l.foldl (surroundClassify board player smart) st).2.1 ++
        (l.foldl (surroundClassify board player smart) st).2.2, m.point ∈ libs := by
  intro l
  induction l with
  | nil => intro st hst _ m hm; exact hst m (by simpa using hm)
  | cons cur rest ih =>
    intro st hst hl m hm
    rw [List.foldl_cons] at hm
    refine ih (surroundClassify board player smart st cur) ?_ (fun q hq => hl q (by simp [hq])) m hm
    intro m' hm'
    have hcur : cur ∈ libs := hl cur (by simp)
    cases player <;> simp only [surroundClassify, reduceIte] at hm' <;>
    (repeat' split at hm') <;>
    (first
      | exact hst m' hm'
      | · simp only [List.append_assoc, List.mem_append, List.mem_singleton] at hm'
          rcases hm' with h | rfl | h | h
          · exact hst m' (by simp [h])
          · exact hcur
          · exact hst m' (by simp [h])
          · exact hst m' (by simp [h])
      | · simp only [List.append_assoc, List.mem_append, List.mem_singleton] at hm'
          rcases hm' with h | h | rfl | h
          · exact hst m' (by simp [h])
          · exact hst m' (by simp [h])
          · exact hcur
          · exact hst m' (by simp [h])
      | · simp only [List.append_assoc, List.mem_append, List.mem_singleton] at hm'
          rcases hm' with h | h | h | rfl
          · exact hst m' (by simp [h])
          · exact hst m' (by simp [h])
          · exact hst m' (by simp [h])
          · exact hcur)

lemma getSurroundMove_spaces {board : Board} {player : GoColor} {spaces : List PointState}
    {smart : Bool} {m : Move} (h : getSurroundMove board player spaces smart = some m) :
    fromSpaces spaces m.point := by
  simp only [getSurroundMove] at h
  split at h <;>
  (split at h
   · exact absurd h (by simp)
   · (have hmem := head?_mem h
      have hlibs := surroundClassify_mem board player smart _ _ ([], [], [])
        (by intro m' hm'; exact absurd hm' (by simp)) (fun q hq => hq) m hmem
      rw [List.mem_filter] at hlibs
      obtain ⟨-, hany⟩ := hlibs
      rw [List.any_eq_true] at hany
      obtain ⟨p, hp, hbeq⟩ := hany
      rw [Bool.and_eq_true, beq_iff_eq, beq_iff_eq] at hbeq
      exact ⟨p, hp, hbeq.1.symm, hbeq.2.symm⟩))

lemma getExpansionMoveArray_spaces {board : Board} {spaces : List PointState} {m : Move}
    (h : m ∈ getExpansionMoveArray board spaces) : m.point ∈ spaces := by
  simp only [getExpansionMoveArray] at h
  rw [List.mem_map] at h
  obtain ⟨point, hpt, rfl⟩ := h
  rw [List.mem_append] at hpt
  rcases hpt with h1 | h2
  · exact (List.mem_filter.mp h1).1
  · split at h2
    · exact absurd h2 (by simp)
    · unfold getDisputedTerritoryMoves at h2
      exact (List.mem_filter.mp h2).1

lemma getExpansionMove_spaces {board : Board} {spaces : List PointState} {r : Rat} {m : Move}
    (h : getExpansionMove board spaces r (some (getExpansionMoveArray board spaces)) = some m) :
    m.point ∈ spaces := by
  unfold getExpansionMove at h
  exact getExpansionMoveArray_spaces (jsPick_mem h)

lemma eyeCreationStep_mem (board : Board) (player : GoColor) (a c : Nat) :
    ∀ (l : List PointState) (init : List EyeMove),
      ∀ e ∈ l.foldl (eyeCreationStep board player a c) init,
        e ∈ init ∨ ∃ q ∈ l, e.point = q := by
  intro l
  induction l with
  | nil => intro init e he; exact Or.inl (by simpa using he)
  | cons cur rest ih =>
    intro init e he
    rw [List.foldl_cons] at he
    rcases ih (eyeCreationStep board player a c init cur) e he with h1 | h2
    · simp only [eyeCreationStep] at h1
      split at h1
      · rw [List.mem_append, List.mem_singleton] at h1
        rcases h1 with h | rfl
        · exact Or.inl h
        · exact Or.inr ⟨cur, by simp, rfl⟩
      · exact Or.inl h1
    · obtain ⟨q, hq, he2⟩ := h2
      exact Or.inr ⟨q, by simp [hq], he2⟩

lemma getEyeCreationMoves_spaces {board : Board} {player : GoColor}
    {spaces : List PointState} {maxLib : Int} {e : EyeMove}
    (h : e ∈ getEyeCreationMoves board player spaces maxLib) : fromSpaces spaces e.point := by
  simp only [getEyeCreationMoves, sortByCreatesLife] at h
  rw [List.mem_append] at h
  have hmem := h.elim (fun h => (List.mem_filter.mp h).1) (fun h => (List.mem_filter.mp h).1)
  rcases eyeCreationStep_mem _ _ _ _ _ _ e hmem with h1 | h2
  · exact absurd h1 (by simp)
  · obtain ⟨q, hq, he2⟩ := h2
    rw [List.mem_filter] at hq
    obtain ⟨hq1, -⟩ := hq
    rw [List.mem_filter] at hq1
    obtain ⟨-, hany⟩ := hq1
    rw [List.any_eq_true] at hany
    obtain ⟨p, hp, hbeq⟩ := hany
    rw [Bool.and_eq_true, beq_iff_eq, beq_iff_eq] at hbeq
    exact ⟨p, hp, by rw [he2, ← hbeq.1], by rw [he2, ← hbeq.2]⟩

lemma getEyeCreationMove_spaces {board : Board} {player : GoColor}
    {spaces : List PointState} {e : EyeMove}
    (h : getEyeCreationMove board player spaces = some e) : fromSpaces spaces e.point :=
  getEyeCreationMoves_spaces (head?_mem h)

lemma getEyeBlockingMove_spaces {board : Board} {player : GoColor}
    {spaces : List PointState} {e : EyeMove}
    (h : getEyeBlockingMove board player spaces = some e) : fromSpaces spaces e.point := by
  simp only [getEyeBlockingMove] at h
  split at h <;>
  (split at h
   · (have h2 := head?_mem h
      rw [List.mem_filter] at h2
      exact getEyeCreationMoves_spaces h2.1)
   · split at h
     · (have h2 := head?_mem h
        rw [List.mem_filter] at h2
        exact getEyeCreationMoves_spaces h2.1)
     · exact absurd h (by simp))

lemma findAnyMatchedPatterns_spaces {board : Board} {player : GoColor}
    {spaces : List PointState} {smart : Bool} {r : Rat} {q : PointState}
    (hwf : wellFormedBoard board = true)
    (h : findAnyMatchedPatterns board player spaces smart r = some q) :
    fromSpaces spaces q := by
  simp only [findAnyMatchedPatterns] at h
  have hmem := jsPick_mem h
  rw [List.mem_filterMap] at hmem
  obtain ⟨xy, -, hxy⟩ := hmem
  split at hxy
  · next hcond =>
    simp only [Bool.and_eq_true] at hcond
    obtain ⟨⟨-, hany⟩, -⟩ := hcond
    rw [List.any_eq_true] at hany
    obtain ⟨p, hp, hbeq⟩ := hany
    rw [Bool.and_eq_true, beq_iff_eq, beq_iff_eq] at hbeq
    rcases wellFormed_getPt hwf hxy with ⟨hqx, hqy⟩
    exact ⟨p, hp, by rw [hbeq.1, hqx], by rw [hbeq.2, hqy]⟩
  · exact absurd hxy (by simp)

/-- C1 counterexample: the claim "getMove returns either Pass or a Move
whose coordinates the legality adjudicator classifies as valid" fails as
stated: on the empty 5x5 board with `previousPlayer = Black`, the Illuminati
persona's corner generator (which consults no legality check) yields the
move (2,2), which the adjudicator classifies `notYourTurn`, not `valid`. -/
theorem claim_C1_counterexample :
    getMove notYourTurnState GoColor.black GoOpponent.Illuminati (fun _ => 0) = Play.move 2 2 ∧
    evaluateIfMoveIsValid notYourTurnState 2 2 GoColor.black true ≠ GoValidity.valid := by
  with_unfolding_all decide


lemma moveOptions_growth (bs : BoardState) (player : GoColor) (r : Rat) (smart : Bool) :
    (getMoveOptions bs player r smart).growth =
      (if (getDisputedTerritoryMoves bs.board (findDisputedTerritory bs player smart) 99).length = 0 ∧
          bs.passCount ≠ 0 then none
       else (getGrowthMove bs.board player (findDisputedTerritory bs player smart) r).map
         (fun g => (⟨g.point, some g.oldLibertyCount, some g.newLibertyCount, none⟩ : Move))) := rfl

lemma moveOptions_surround (bs : BoardState) (player : GoColor) (r : Rat) (smart : Bool) :
    (getMoveOptions bs player r smart).surround =
      getSurroundMove bs.board player (findDisputedTerritory bs player smart) smart := rfl

lemma moveOptions_defend (bs : BoardState) (player : GoColor) (r : Rat) (smart : Bool) :
    (getMoveOptions bs player r smart).defend =
      (getDefendMove bs.board player (findDisputedTerritory bs player smart) r).map
        (fun g => (⟨g.point, some g.oldLibertyCount, some g.newLibertyCount, none⟩ : Move)) := rfl

lemma moveOptions_expansion (bs : BoardState) (player : GoColor) (r : Rat) (smart : Bool) :
    (getMoveOptions bs player r smart).expansion =
      getExpansionMove bs.board (findDisputedTerritory bs player smart) r
        (some (getExpansionMoveArray bs.board (findDisputedTerritory bs player smart))) := rfl

lemma moveOptions_pattern (bs : BoardState) (player : GoColor) (r : Rat) (smart : Bool) :
    (getMoveOptions bs player r smart).pattern =
      (if (getDisputedTerritoryMoves bs.board (findDisputedTerritory bs player smart) 99).length = 0 ∧
          bs.passCount ≠ 0 then none
       else (findAnyMatchedPatterns bs.board player (findDisputedTerritory bs player smart) smart r).map
         (fun point => (⟨point, none, none, none⟩ : Move))) := rfl

lemma moveOptions_eyeMove (bs : BoardState) (player : GoColor) (r : Rat) (smart : Bool) :
    (getMoveOptions bs player r smart).eyeMove =
      (if (getDisputedTerritoryMoves bs.board (findDisputedTerritory bs player smart) 99).length = 0 ∧
          bs.passCount ≠ 0 then none
       else (getEyeCreationMove bs.board player (findDisputedTerritory bs player smart)).map
         (fun e => (⟨e.point, none, none, some e.createsLife⟩ : Move))) := rfl

lemma moveOptions_eyeBlock (bs : BoardState) (player : GoColor) (r : Rat) (smart : Bool) :
    (getMoveOptions bs player r smart).eyeBlock =
      (if (getDisputedTerritoryMoves bs.board (findDisputedTerritory bs player smart) 99).length = 0 ∧
          bs.passCount ≠ 0 then none
       else (getEyeBlockingMove bs.board player (findDisputedTerritory bs player smart)).map
         (fun e => (⟨e.point, none, none, some e.createsLife⟩ : Move))) := rfl

/-- C1 (amended): when the persona returns no priority move, `getMove`
returns either Pass or a Move whose coordinates the legality adjudicator
classifies as `valid` on the fast path for the current player — every point
of the step-5 fallback set comes from `findDisputedTerritory`, whose members
all satisfy `evaluateIfMoveIsValid = valid` (the step-5 filter itself is
vacuous, every `GoValidity` being truthy).  A persona priority move can
bypass legality entirely (see the counterexample). -/
theorem claim_C1_amended (bs : BoardState) (player : GoColor) (opponent : GoOpponent)
    (rng : Nat → Rat) (hwf : wellFormedBoard bs.board = true)
    (hpri : getFactionMove (getMoveOptions bs player (rng 1) (isSmart opponent (rng 0)))
        opponent (rng 2) = none) :
    getMove bs player opponent rng = Play.pass ∨
    ∃ x y : Int, getMove bs player opponent rng = Play.move x y ∧
      evaluateIfMoveIsValid bs x y player true = GoValidity.valid := by
  have hgm : getMove bs player opponent rng =
      (match jsPick (fallbackMoveOptions
          (getMoveOptions bs player (rng 1) (isSmart opponent (rng 0))) bs player) (rng 3) with
       | Option.some chosenMove => Play.move chosenMove.x chosenMove.y
       | Option.none => Play.pass) := by
    simp only [getMove, hpri]
    try rfl
  rcases hjp : jsPick (fallbackMoveOptions
      (getMoveOptions bs player (rng 1) (isSmart opponent (rng 0))) bs player) (rng 3)
    with _ | chosen
  · left
    rw [hgm, hjp]
  · right
    refine ⟨chosen.x, chosen.y, by rw [hgm, hjp], ?_⟩
    have hmem := jsPick_mem hjp
    simp only [fallbackMoveOptions] at hmem
    rw [List.mem_filter] at hmem
    obtain ⟨hmem, -⟩ := hmem
    rw [List.mem_filterMap] at hmem
    obtain ⟨o, ho, hoc⟩ := hmem
    simp only [id] at hoc
    subst hoc
    have hvalid : ∀ p : PointState, p ∈ findDisputedTerritory bs player
        (isSmart opponent (rng 0)) → p.x = chosen.x → p.y = chosen.y →
        evaluateIfMoveIsValid bs chosen.x chosen.y player true = GoValidity.valid := by
      intro p hp hx hy
      rw [← hx, ← hy]
      exact findDisputedTerritory_valid hp
    simp only [List.mem_cons, List.not_mem_nil, or_false] at ho
    rcases ho with h | h | h | h | h | h | h
    · rw [moveOptions_growth] at h
      split at h
      · exact absurd h.symm (by simp)
      · obtain ⟨mv, hmv, hpt⟩ := Option.map_eq_some'.mp h.symm
        obtain ⟨g, hg, rfl⟩ := Option.map_eq_some'.mp hmv
        obtain ⟨p, hp, hx, hy⟩ := getGrowthMove_spaces hg
        exact hvalid p hp (by rw [hx, ← hpt]) (by rw [hy, ← hpt])
    · rw [moveOptions_surround] at h
      obtain ⟨mv, hmv, hpt⟩ := Option.map_eq_some'.mp h.symm
      obtain ⟨p, hp, hx, hy⟩ := getSurroundMove_spaces hmv
      exact hvalid p hp (by rw [hx, ← hpt]) (by rw [hy, ← hpt])
    · rw [moveOptions_defend] at h
      obtain ⟨mv, hmv, hpt⟩ := Option.map_eq_some'.mp h.symm
      obtain ⟨g, hg, rfl⟩ := Option.map_eq_some'.mp hmv
      obtain ⟨p, hp, hx, hy⟩ := getDefendMove_spaces hg
      exact hvalid p hp (by rw [hx, ← hpt]) (by rw [hy, ← hpt])
    · rw [moveOptions_expansion] at h
      obtain ⟨mv, hmv, hpt⟩ := Option.map_eq_some'.mp h.symm
      have hp := getExpansionMove_spaces hmv
      exact hvalid mv.point hp (by rw [← hpt]) (by rw [← hpt])
    · rw [moveOptions_pattern] at h
      split at h
      · exact absurd h.symm (by simp)
      · obtain ⟨mv, hmv, hpt⟩ := Option.map_eq_some'.mp h.symm
        obtain ⟨q, hq, rfl⟩ := Option.map_eq_some'.mp hmv
        obtain ⟨p, hp, hx, hy⟩ := findAnyMatchedPatterns_spaces hwf hq
        exact hvalid p hp (by rw [hx, ← hpt]) (by rw [hy, ← hpt])
    · rw [moveOptions_eyeMove] at h
      split at h
      · exact absurd h.symm (by simp)
      · obtain ⟨mv, hmv, hpt⟩ := Option.map_eq_some'.mp h.symm
        obtain ⟨e, he, rfl⟩ := Option.map_eq_some'.mp hmv
        obtain ⟨p, hp, hx, hy⟩ := getEyeCreationMove_spaces he
        exact hvalid p hp (by rw [hx, ← hpt]) (by rw [hy, ← hpt])
    · rw [moveOptions_eyeBlock] at h
      split at h
      · exact absurd h.symm (by simp)
      · obtain ⟨mv, hmv, hpt⟩ := Option.map_eq_some'.mp h.symm
        obtain ⟨e, he, rfl⟩ := Option.map_eq_some'.mp hmv
        obtain ⟨p, hp, hx, hy⟩ := getEyeBlockingMove_spaces he
        exact hvalid p hp (by rw [hx, ← hpt]) (by rw [hy, ← hpt])

/-- C1 witness: the empty 5x5 board against Netburners with every RNG draw
0.8; no persona branch fires, so the decision falls through to step 5. -/
theorem claim_C1_witness :
    (wellFormedBoard (boardStateFromSimpleBoard emptyBoardFive GoOpponent.Netburners).board = true ∧
     getFactionMove
        (getMoveOptions (boardStateFromSimpleBoard emptyBoardFive GoOpponent.Netburners)
          GoColor.black ((4 : Rat)/5) (isSmart GoOpponent.Netburners ((4 : Rat)/5)))
        GoOpponent.Netburners ((4 : Rat)/5) = none) ∧
    (getMove (boardStateFromSimpleBoard emptyBoardFive GoOpponent.Netburners) GoColor.black
        GoOpponent.Netburners (fun _ => (4 : Rat)/5) = Play.pass ∨
     ∃ x y : Int,
       getMove (boardStateFromSimpleBoard emptyBoardFive GoOpponent.Netburners) GoColor.black
          GoOpponent.Netburners (fun _ => (4 : Rat)/5) = Play.move x y ∧
       evaluateIfMoveIsValid (boardStateFromSimpleBoard emptyBoardFive GoOpponent.Netburners)
          x y GoColor.black true = GoValidity.valid) :=
  ⟨⟨by with_unfolding_all decide, by with_unfolding_all decide⟩,
   claim_C1_amended _ _ _ _ (by with_unfolding_all decide) (by with_unfolding_all decide)⟩

/-- C8: on the empty 5x5 board (previousBoards empty, passCount 0) with
Black to move against Illuminati, `getMove` yields the corner move (2,2)
for every stream of RNG values: every generator the Illuminati priority
list consults before the corner generator returns null on this board, and
none of their computations on it consult the RNG. -/
theorem claim_C8 (rng : Nat → Rat) :
    getMove (boardStateFromSimpleBoard emptyBoardFive GoOpponent.Illuminati)
      GoColor.black GoOpponent.Illuminati rng = Play.move 2 2 := by
  with_unfolding_all rfl

/-! ### C2: symmetry of the pattern matcher -/

-- ### basic getCellJS lemmas

lemma listGetI_map_range {α : Type} (f : Nat → α) {N : Nat} {i : Int}
    (h0 : 0 ≤ i) (hN : i < (N : Int)) :
    listGetI ((List.range N).map f) i = some (f i.toNat) := by
  rw [listGetI, if_neg (by omega), List.getElem?_map, List.getElem?_range (by omega)]
  rfl

lemma getCellJS_out_left {b : Board} {N : Nat} (hsh : boardShape b N) {x : Int}
    (hx : x < 0 ∨ (N : Int) ≤ x) (y : Int) : getCellJS b x y = JSCell.undef := by
  have : listGetI b x = none := by
    rcases hx with hx | hx
    · simp [listGetI, hx]
    · rw [listGetI, if_neg (by omega), List.getElem?_eq_none_iff, hsh.1]
      omega
  simp [getCellJS, this]

lemma getCellJS_out_right {b : Board} {N : Nat} (hsh : boardShape b N) (x : Int) {y : Int}
    (hy : y < 0 ∨ (N : Int) ≤ y) : getCellJS b x y = JSCell.undef := by
  rw [getCellJS]
  cases hcol : listGetI b x with
  | none => rfl
  | some col =>
    have hlen : col.length = N := by
      apply hsh.2
      rw [listGetI] at hcol
      split at hcol
      · exact absurd hcol (by simp)
      · exact mem_of_getElemOpt hcol
    have : listGetI col y = none := by
      rcases hy with hy | hy
      · simp [listGetI, hy]
      · rw [listGetI, if_neg (by omega), List.getElem?_eq_none_iff, hlen]
        omega
    simp [this]

lemma getCellJS_in {b : Board} {N : Nat} (hsh : boardShape b N) {x y : Int}
    (hx0 : 0 ≤ x) (hxN : x < (N : Int)) (hy0 : 0 ≤ y) (hyN : y < (N : Int)) :
    getCellJS b x y = cellOfOpt (getPt b x y) := by
  rw [getCellJS, getPt]
  cases hcol : listGetI b x with
  | none =>
    exfalso
    rw [listGetI, if_neg (by omega), List.getElem?_eq_none_iff, hsh.1] at hcol
    omega
  | some col =>
    have hlen : col.length = N := by
      apply hsh.2
      rw [listGetI, if_neg (by omega)] at hcol
      exact mem_of_getElemOpt hcol
    cases hcell : listGetI col y with
    | none =>
      exfalso
      rw [listGetI, if_neg (by omega), List.getElem?_eq_none_iff, hlen] at hcell
      omega
    | some cell =>
      cases cell <;> simp [hcell, Option.join, cellOfOpt]

-- ### shape of the transformed boards

lemma rotateBoard_shape {b : Board} {N : Nat} (hsh : boardShape b N) :
    boardShape (rotateBoard b) N := by
  refine ⟨by simp [rotateBoard, hsh.1], ?_⟩
  intro col hcol
  simp only [rotateBoard, hsh.1, List.mem_map] at hcol
  obtain ⟨u, -, rfl⟩ := hcol
  simp

lemma vMirrorBoard_shape {b : Board} {N : Nat} (hsh : boardShape b N) :
    boardShape (vMirrorBoard b) N := by
  refine ⟨by simp [vMirrorBoard, hsh.1], ?_⟩
  intro col hcol
  simp only [vMirrorBoard, hsh.1, List.mem_map] at hcol
  obtain ⟨u, -, rfl⟩ := hcol
  simp

lemma hMirrorBoard_shape {b : Board} {N : Nat} (hsh : boardShape b N) :
    boardShape (hMirrorBoard b) N := by
  refine ⟨by simp [hMirrorBoard, hsh.1], ?_⟩
  intro col hcol
  simp only [hMirrorBoard, hsh.1, List.mem_map] at hcol
  obtain ⟨u, -, rfl⟩ := hcol
  simp

-- ### cell commutation

lemma getPt_map_range (f : Nat → Nat → Option PointState) {N : Nat} {u v : Int}
    (hu0 : 0 ≤ u) (huN : u < (N : Int)) (hv0 : 0 ≤ v) (hvN : v < (N : Int)) :
    getPt ((List.range N).map (fun (x : Nat) => (List.range N).map (fun (y : Nat) => f x y)))
      u v = f u.toNat v.toNat := by
  rw [getPt, listGetI_map_range _ hu0 huN]
  show (listGetI ((List.range N).map (fun (y : Nat) => f u.toNat y)) v).join = f u.toNat v.toNat
  rw [listGetI_map_range _ hv0 hvN]
  rfl

lemma getPt_rotateBoard {b : Board} {N : Nat} (hsh : boardShape b N) {u v : Int}
    (hu0 : 0 ≤ u) (huN : u < (N : Int)) (hv0 : 0 ≤ v) (hvN : v < (N : Int)) :
    getPt (rotateBoard b) u v = getPt b ((N : Int) - 1 - v) u := by
  have h := @getPt_map_range (fun x y => getPt b ((b.length : Int) - 1 - (y : Int)) (x : Int))
    b.length u v hu0 (by rw [hsh.1]; exact huN) hv0 (by rw [hsh.1]; exact hvN)
  calc getPt (rotateBoard b) u v
      = getPt b ((b.length : Int) - 1 - (v.toNat : Int)) (u.toNat : Int) := h
    _ = getPt b ((N : Int) - 1 - v) u := by
        rw [Int.toNat_of_nonneg hu0, Int.toNat_of_nonneg hv0, hsh.1]

lemma getPt_vMirrorBoard {b : Board} {N : Nat} (hsh : boardShape b N) {u v : Int}
    (hu0 : 0 ≤ u) (huN : u < (N : Int)) (hv0 : 0 ≤ v) (hvN : v < (N : Int)) :
    getPt (vMirrorBoard b) u v = getPt b ((N : Int) - 1 - u) v := by
  have h := @getPt_map_range (fun x y => getPt b ((b.length : Int) - 1 - (x : Int)) (y : Int))
    b.length u v hu0 (by rw [hsh.1]; exact huN) hv0 (by rw [hsh.1]; exact hvN)
  calc getPt (vMirrorBoard b) u v
      = getPt b ((b.length : Int) - 1 - (u.toNat : Int)) (v.toNat : Int) := h
    _ = getPt b ((N : Int) - 1 - u) v := by
        rw [Int.toNat_of_nonneg hu0, Int.toNat_of_nonneg hv0, hsh.1]

lemma getPt_hMirrorBoard {b : Board} {N : Nat} (hsh : boardShape b N) {u v : Int}
    (hu0 : 0 ≤ u) (huN : u < (N : Int)) (hv0 : 0 ≤ v) (hvN : v < (N : Int)) :
    getPt (hMirrorBoard b) u v = getPt b u ((N : Int) - 1 - v) := by
  have h := @getPt_map_range (fun x y => getPt b (x : Int) ((b.length : Int) - 1 - (y : Int)))
    b.length u v hu0 (by rw [hsh.1]; exact huN) hv0 (by rw [hsh.1]; exact hvN)
  calc getPt (hMirrorBoard b) u v
      = getPt b (u.toNat : Int) ((b.length : Int) - 1 - (v.toNat : Int)) := h
    _ = getPt b u ((N : Int) - 1 - v) := by
        rw [Int.toNat_of_nonneg hu0, Int.toNat_of_nonneg hv0, hsh.1]

lemma getCellJS_rotateBoard {b : Board} {N : Nat} (hsh : boardShape b N) (u v : Int) :
    getCellJS (rotateBoard b) u v = getCellJS b ((N : Int) - 1 - v) u := by
  by_cases hu : 0 ≤ u ∧ u < (N : Int)
  · by_cases hv : 0 ≤ v ∧ v < (N : Int)
    · rw [getCellJS_in (rotateBoard_shape hsh) hu.1 hu.2 hv.1 hv.2,
        getCellJS_in hsh (by omega) (by omega) hu.1 hu.2,
        getPt_rotateBoard hsh hu.1 hu.2 hv.1 hv.2]
    · rw [getCellJS_out_right (rotateBoard_shape hsh) u (by omega),
        getCellJS_out_left hsh (by omega) u]
  · rw [getCellJS_out_left (rotateBoard_shape hsh) (by omega) v,
      getCellJS_out_right hsh _ (by omega)]

lemma getCellJS_vMirrorBoard {b : Board} {N : Nat} (hsh : boardShape b N) (u v : Int) :
    getCellJS (vMirrorBoard b) u v = getCellJS b ((N : Int) - 1 - u) v := by
  by_cases hu : 0 ≤ u ∧ u < (N : Int)
  · by_cases hv : 0 ≤ v ∧ v < (N : Int)
    · rw [getCellJS_in (vMirrorBoard_shape hsh) hu.1 hu.2 hv.1 hv.2,
        getCellJS_in hsh (by omega) (by omega) hv.1 hv.2,
        getPt_vMirrorBoard hsh hu.1 hu.2 hv.1 hv.2]
    · rw [getCellJS_out_right (vMirrorBoard_shape hsh) u (by omega),
        getCellJS_out_right hsh _ (by omega)]
  · rw [getCellJS_out_left (vMirrorBoard_shape hsh) (by omega) v,
      getCellJS_out_left hsh (by omega) v]

lemma getCellJS_hMirrorBoard {b : Board} {N : Nat} (hsh : boardShape b N) (u v : Int) :
    getCellJS (hMirrorBoard b) u v = getCellJS b u ((N : Int) - 1 - v) := by
  by_cases hu : 0 ≤ u ∧ u < (N : Int)
  · by_cases hv : 0 ≤ v ∧ v < (N : Int)
    · rw [getCellJS_in (hMirrorBoard_shape hsh) hu.1 hu.2 hv.1 hv.2,
        getCellJS_in hsh hu.1 hu.2 (by omega) (by omega),
        getPt_hMirrorBoard hsh hu.1 hu.2 hv.1 hv.2]
    · rw [getCellJS_out_right (hMirrorBoard_shape hsh) u (by omega),
        getCellJS_out_right hsh _ (by omega)]
  · rw [getCellJS_out_left (hMirrorBoard_shape hsh) (by omega) v,
      getCellJS_out_left hsh (by omega) _]

-- ### checkMatch on explicit 3x3 data

lemma checkMatch_explicit (player : GoColor) (a b c d e f g h i : Char)
    (n00 n01 n02 n10 n11 n12 n20 n21 n22 : JSCell) :
    checkMatch [[n00, n01, n02], [n10, n11, n12], [n20, n21, n22]]
      [patRow3 a b c, patRow3 d e f, patRow3 g h i] player
    = (matchesCell a n00 player && (matchesCell b n01 player && (matchesCell c n02 player &&
      (matchesCell d n10 player && (matchesCell e n11 player && (matchesCell f n12 player &&
      (matchesCell g n20 player && (matchesCell h n21 player &&
      (matchesCell i n22 player && true))))))))) := rfl

lemma rotate90_explicit (a b c d e f g h i : Char) :
    rotate90Degrees [patRow3 a b c, patRow3 d e f, patRow3 g h i]
    = [patRow3 g d a, patRow3 h e b, patRow3 i f c] := rfl

lemma verticalMirror_explicit (a b c d e f g h i : Char) :
    verticalMirror [patRow3 a b c, patRow3 d e f, patRow3 g h i]
    = [patRow3 g h i, patRow3 d e f, patRow3 a b c] := rfl

-- ### dead comma patterns

lemma matchesCell_comma (cell : JSCell) (player : GoColor) :
    matchesCell ',' cell player = false := rfl

lemma checkMatch_false_of_comma {pattern : List String}
    (hc : ',' ∈ (String.join pattern).data) (n : List (List JSCell)) (player : GoColor) :
    checkMatch n pattern player = false := by
  simp only [checkMatch]
  obtain ⟨k, hk⟩ := List.mem_iff_getElem?.mp hc
  refine List.all_eq_false.mpr ⟨(k, ','), List.mk_mem_enum_iff_getElem?.mpr hk, ?_⟩
  simp [matchesCell_comma]

-- ### 3x3 destructuring

lemma is3x3_destruct {p : List String} (h3 : is3x3Pattern p = true) :
    ∃ a b c d e f g h i : Char, p = [patRow3 a b c, patRow3 d e f, patRow3 g h i] := by
  rw [is3x3Pattern, Bool.and_eq_true, beq_iff_eq] at h3
  obtain ⟨hlen, hall⟩ := h3
  obtain ⟨r0, r1, r2, rfl⟩ := List.length_eq_three.mp hlen
  simp only [List.all_cons, List.all_nil, Bool.and_eq_true, beq_iff_eq, and_true] at hall
  obtain ⟨h0, h1, h2⟩ := hall
  obtain ⟨d0⟩ := r0
  obtain ⟨d1⟩ := r1
  obtain ⟨d2⟩ := r2
  obtain ⟨a, b, c, rfl⟩ := List.length_eq_three.mp h0
  obtain ⟨d, e, f, rfl⟩ := List.length_eq_three.mp h1
  obtain ⟨g, h, i, rfl⟩ := List.length_eq_three.mp h2
  exact ⟨a, b, c, d, e, f, g, h, i, rfl⟩

-- ### catalog closure (decided on the concrete catalog)

lemma catalog_closed : ∀ p ∈ expandAllThreeByThreePatterns,
    (',' ∈ (String.join p).data) ∨
    (is3x3Pattern p = true ∧
     rotate90Degrees p ∈ expandAllThreeByThreePatterns ∧
     rotate90Degrees (rotate90Degrees (rotate90Degrees p)) ∈ expandAllThreeByThreePatterns ∧
     verticalMirror p ∈ expandAllThreeByThreePatterns ∧
     verticalMirror (rotate90Degrees (rotate90Degrees p)) ∈ expandAllThreeByThreePatterns) := by
  decide

-- ### checkMatch commutation with the board transforms

lemma checkMatch_rotate {bd : Board} {N : Nat} (hsh : boardShape bd N) (player : GoColor)
    (x y : Int) (a b c d e f g h i : Char) :
    checkMatch (getNeighborhood (rotateBoard bd) y ((N : Int) - 1 - x))
      (rotate90Degrees [patRow3 a b c, patRow3 d e f, patRow3 g h i]) player
    = checkMatch (getNeighborhood bd x y)
      [patRow3 a b c, patRow3 d e f, patRow3 g h i] player := by
  rw [rotate90_explicit]
  simp only [getNeighborhood, checkMatch_explicit]
  simp only [getCellJS_rotateBoard hsh]
  have e1 : (N : Int) - 1 - ((N : Int) - 1 - x - 1) = x + 1 := by ring
  have e2 : (N : Int) - 1 - ((N : Int) - 1 - x) = x := by ring
  have e3 : (N : Int) - 1 - ((N : Int) - 1 - x + 1) = x - 1 := by ring
  simp only [e1, e2, e3, Bool.and_true]
  simp only [Bool.and_comm, Bool.and_left_comm, Bool.and_assoc]

lemma checkMatch_vMirror {bd : Board} {N : Nat} (hsh : boardShape bd N) (player : GoColor)
    (x y : Int) (a b c d e f g h i : Char) :
    checkMatch (getNeighborhood (vMirrorBoard bd) ((N : Int) - 1 - x) y)
      (verticalMirror [patRow3 a b c, patRow3 d e f, patRow3 g h i]) player
    = checkMatch (getNeighborhood bd x y)
      [patRow3 a b c, patRow3 d e f, patRow3 g h i] player := by
  rw [verticalMirror_explicit]
  simp only [getNeighborhood, checkMatch_explicit]
  simp only [getCellJS_vMirrorBoard hsh]
  have e1 : (N : Int) - 1 - ((N : Int) - 1 - x - 1) = x + 1 := by ring
  have e2 : (N : Int) - 1 - ((N : Int) - 1 - x) = x := by ring
  have e3 : (N : Int) - 1 - ((N : Int) - 1 - x + 1) = x - 1 := by ring
  simp only [e1, e2, e3, Bool.and_true]
  simp only [Bool.and_comm, Bool.and_left_comm, Bool.and_assoc]

lemma hexchars_explicit (a b c d e f g h i : Char) :
    verticalMirror (rotate90Degrees (rotate90Degrees
      [patRow3 a b c, patRow3 d e f, patRow3 g h i]))
    = [patRow3 c b a, patRow3 f e d, patRow3 i h g] := rfl

lemma checkMatch_hMirror {bd : Board} {N : Nat} (hsh : boardShape bd N) (player : GoColor)
    (x y : Int) (a b c d e f g h i : Char) :
    checkMatch (getNeighborhood (hMirrorBoard bd) x ((N : Int) - 1 - y))
      (verticalMirror (rotate90Degrees (rotate90Degrees
        [patRow3 a b c, patRow3 d e f, patRow3 g h i]))) player
    = checkMatch (getNeighborhood bd x y)
      [patRow3 a b c, patRow3 d e f, patRow3 g h i] player := by
  rw [hexchars_explicit]
  simp only [getNeighborhood, checkMatch_explicit]
  simp only [getCellJS_hMirrorBoard hsh]
  have e1 : (N : Int) - 1 - ((N : Int) - 1 - y - 1) = y + 1 := by ring
  have e2 : (N : Int) - 1 - ((N : Int) - 1 - y) = y := by ring
  have e3 : (N : Int) - 1 - ((N : Int) - 1 - y + 1) = y - 1 := by ring
  simp only [e1, e2, e3, Bool.and_true]
  simp only [Bool.and_comm, Bool.and_left_comm, Bool.and_assoc]

-- ### transfer of the matcher verdict

lemma bool_eq_of_iff {a b : Bool} (h : a = true ↔ b = true) : a = b := by
  cases a <;> cases b <;> simp_all

lemma hasMatchedPattern_iff {bd : Board} {x y : Int} {player : GoColor} :
    hasMatchedPattern bd x y player = true ↔
    ∃ p ∈ expandAllThreeByThreePatterns,
      checkMatch (getNeighborhood bd x y) p player = true := by
  rw [hasMatchedPattern, List.find?_isSome]

lemma matched_transfer {bd bd' : Board} {x y x' y' : Int} {player : GoColor}
    (T : List String → List String) (Tinv : List String → List String)
    (hmemT : ∀ p ∈ expandAllThreeByThreePatterns, ',' ∉ (String.join p).data →
        is3x3Pattern p = true ∧ T p ∈ expandAllThreeByThreePatterns ∧
        Tinv p ∈ expandAllThreeByThreePatterns)
    (hcomm : ∀ a b c d e f g h i : Char,
        checkMatch (getNeighborhood bd' x' y')
            (T [patRow3 a b c, patRow3 d e f, patRow3 g h i]) player
          = checkMatch (getNeighborhood bd x y)
            [patRow3 a b c, patRow3 d e f, patRow3 g h i] player)
    (hTinv : ∀ a b c d e f g h i : Char,
        T (Tinv [patRow3 a b c, patRow3 d e f, patRow3 g h i])
          = [patRow3 a b c, patRow3 d e f, patRow3 g h i])
    (h3inv : ∀ a b c d e f g h i : Char,
        is3x3Pattern (Tinv [patRow3 a b c, patRow3 d e f, patRow3 g h i]) = true) :
    hasMatchedPattern bd' x' y' player = hasMatchedPattern bd x y player := by
  refine bool_eq_of_iff ?_
  rw [hasMatchedPattern_iff, hasMatchedPattern_iff]
  constructor
  · rintro ⟨q, hqmem, hq⟩
    have hqlive : ',' ∉ (String.join q).data := by
      intro hcm
      rw [checkMatch_false_of_comma hcm] at hq
      exact absurd hq (by simp)
    obtain ⟨hq3, -, hTinvq⟩ := hmemT q hqmem hqlive
    obtain ⟨a, b, c, d, e, f, g, h, i, rfl⟩ := is3x3_destruct hq3
    refine ⟨Tinv [patRow3 a b c, patRow3 d e f, patRow3 g h i], hTinvq, ?_⟩
    obtain ⟨a', b', c', d', e', f', g', h', i', heq⟩ :=
      is3x3_destruct (h3inv a b c d e f g h i)
    have h2 : checkMatch (getNeighborhood bd' x' y')
        (T (Tinv [patRow3 a b c, patRow3 d e f, patRow3 g h i])) player
        = checkMatch (getNeighborhood bd x y)
          (Tinv [patRow3 a b c, patRow3 d e f, patRow3 g h i]) player := by
      rw [heq]
      exact hcomm a' b' c' d' e' f' g' h' i'
    rw [hTinv a b c d e f g h i] at h2
    rw [← h2]
    exact hq
  · rintro ⟨p, hpmem, hp⟩
    have hplive : ',' ∉ (String.join p).data := by
      intro hcm
      rw [checkMatch_false_of_comma hcm] at hp
      exact absurd hp (by simp)
    obtain ⟨hp3, hTp, -⟩ := hmemT p hpmem hplive
    obtain ⟨a, b, c, d, e, f, g, h, i, rfl⟩ := is3x3_destruct hp3
    refine ⟨T [patRow3 a b c, patRow3 d e f, patRow3 g h i], hTp, ?_⟩
    rw [hcomm a b c d e f g h i]
    exact hp

/-- C2: rotating or mirroring the board together with the target-move
coordinates preserves the pattern matcher's accept/reject verdict (the
existence of a pattern of the expanded catalog matching the cell's
neighborhood), for each of the three generating symmetries: quarter
rotation, vertical mirror and horizontal mirror; in particular a position
whose neighborhood matches some expanded pattern still matches some
expanded pattern after the horizontal mirror.  Underlying mechanism
(`catalog_closed`): the comma-free patterns of the expanded catalog are
closed under the dihedral transformations, while the comma-carrying rows
produced by `horizontalMirror` match nothing. -/
theorem claim_C2 {bd : Board} {N : Nat} (hsh : boardShape bd N)
    (player : GoColor) (x y : Int) :
    hasMatchedPattern (rotateBoard bd) y ((N : Int) - 1 - x) player
      = hasMatchedPattern bd x y player ∧
    hasMatchedPattern (vMirrorBoard bd) ((N : Int) - 1 - x) y player
      = hasMatchedPattern bd x y player ∧
    hasMatchedPattern (hMirrorBoard bd) x ((N : Int) - 1 - y) player
      = hasMatchedPattern bd x y player ∧
    (∀ p ∈ expandAllThreeByThreePatterns,
      checkMatch (getNeighborhood bd x y) p player = true →
      ∃ q ∈ expandAllThreeByThreePatterns,
        checkMatch (getNeighborhood (hMirrorBoard bd) x ((N : Int) - 1 - y)) q player
          = true) := by
  have hrot : hasMatchedPattern (rotateBoard bd) y ((N : Int) - 1 - x) player
      = hasMatchedPattern bd x y player :=
    matched_transfer rotate90Degrees
      (fun p => rotate90Degrees (rotate90Degrees (rotate90Degrees p)))
      (fun p hp hl => by
        rcases catalog_closed p hp with hcm | ⟨h3, hr, hr3, -, -⟩
        · exact absurd hcm hl
        · exact ⟨h3, hr, hr3⟩)
      (checkMatch_rotate hsh player x y)
      (fun a b c d e f g h i => rfl)
      (fun a b c d e f g h i => rfl)
  have hvm : hasMatchedPattern (vMirrorBoard bd) ((N : Int) - 1 - x) y player
      = hasMatchedPattern bd x y player :=
    matched_transfer verticalMirror verticalMirror
      (fun p hp hl => by
        rcases catalog_closed p hp with hcm | ⟨h3, -, -, hv, -⟩
        · exact absurd hcm hl
        · exact ⟨h3, hv, hv⟩)
      (checkMatch_vMirror hsh player x y)
      (fun a b c d e f g h i => rfl)
      (fun a b c d e f g h i => rfl)
  have hhm : hasMatchedPattern (hMirrorBoard bd) x ((N : Int) - 1 - y) player
      = hasMatchedPattern bd x y player :=
    matched_transfer
      (fun p => verticalMirror (rotate90Degrees (rotate90Degrees p)))
      (fun p => verticalMirror (rotate90Degrees (rotate90Degrees p)))
      (fun p hp hl => by
        rcases catalog_closed p hp with hcm | ⟨h3, -, -, -, hh⟩
        · exact absurd hcm hl
        · exact ⟨h3, hh, hh⟩)
      (checkMatch_hMirror hsh player x y)
      (fun a b c d e f g h i => rfl)
      (fun a b c d e f g h i => rfl)
  refine ⟨hrot, hvm, hhm, ?_⟩
  intro p hpmem hp
  have h1 : hasMatchedPattern bd x y player = true :=
    hasMatchedPattern_iff.mpr ⟨p, hpmem, hp⟩
  exact hasMatchedPattern_iff.mp (hhm.trans h1)

theorem claim_C2_witness :
    boardShape (boardFromSimpleBoard ["X.", ".."]) 2 ∧
    (hasMatchedPattern (rotateBoard (boardFromSimpleBoard ["X.", ".."])) 1
        (((2 : Nat) : Int) - 1 - 0) GoColor.black
      = hasMatchedPattern (boardFromSimpleBoard ["X.", ".."]) 0 1 GoColor.black ∧
    hasMatchedPattern (vMirrorBoard (boardFromSimpleBoard ["X.", ".."]))
        (((2 : Nat) : Int) - 1 - 0) 1 GoColor.black
      = hasMatchedPattern (boardFromSimpleBoard ["X.", ".."]) 0 1 GoColor.black ∧
    hasMatchedPattern (hMirrorBoard (boardFromSimpleBoard ["X.", ".."])) 0
        (((2 : Nat) : Int) - 1 - 1) GoColor.black
      = hasMatchedPattern (boardFromSimpleBoard ["X.", ".."]) 0 1 GoColor.black ∧
    (∀ p ∈ expandAllThreeByThreePatterns,
      checkMatch (getNeighborhood (boardFromSimpleBoard ["X.", ".."]) 0 1) p
        GoColor.black = true →
      ∃ q ∈ expandAllThreeByThreePatterns,
        checkMatch (getNeighborhood (hMirrorBoard (boardFromSimpleBoard ["X.", ".."])) 0
          (((2 : Nat) : Int) - 1 - 1)) q GoColor.black = true)) :=
  ⟨by decide, claim_C2 (by decide) GoColor.black 0 1⟩

/-! ### C3: the superko screen -/

/-- C3 counterexample: the claim fails as stated.  In `bsC3ce` every
premise of the claim holds at (0,0) for Black: the previous player is the
opposing color, the point is empty and not absent, the played-out result
board (`evaluateMoveResult`, after capture resolution) textually equals the
recorded previous board, and none of the three fast-path early-valid
conditions applies (no direct liberty, no friendly chain with more than one
liberty, no adjacent enemy chain with fewer than two liberties) -- yet the
adjudicator returns `noSuicide`, not `boardRepeated`: the fast path's
suicide screen fires before the superko check is ever reached. -/
theorem claim_C3_counterexample :
    (bsC3ce.previousPlayer = some GoColor.white ∧
     (getPt bsC3ce.board 0 0).map (fun p => p.color) = some GoColor.empty ∧
     bsC3ce.previousBoards.contains
       (boardStringFromBoard (evaluateMoveResult bsC3ce.board 0 0 GoColor.black true)) = true ∧
     ((findAdjacentLibertiesForPoint bsC3ce.board 0 0).north.isSome ||
      (findAdjacentLibertiesForPoint bsC3ce.board 0 0).east.isSome ||
      (findAdjacentLibertiesForPoint bsC3ce.board 0 0).south.isSome ||
      (findAdjacentLibertiesForPoint bsC3ce.board 0 0).west.isSome) = false ∧
     ¬ findMaxLibertyCountOfAdjacentChains bsC3ce 0 0 GoColor.black > 1 ∧
     ¬ findMinLibertyCountOfAdjacentChains bsC3ce.board 0 0 GoColor.white < 2) ∧
    evaluateIfMoveIsValid bsC3ce 0 0 GoColor.black true = GoValidity.noSuicide := by
  with_unfolding_all decide

/-- C3 amended: the adjudicator returns `boardRepeated` under the claim's
premises strengthened by the three conditions the code actually requires:
(a) some recorded previous board shows the player's color at the target
point (the `possibleRepeat` heuristic), (b) the fast-path suicide screen
does not fire (the point has a direct liberty, or some adjacent enemy
chain has fewer than two liberties, or some friendly neighbour chain has
more than one liberty), and (c) the played-out stone survives capture
resolution.  Together with the textual-repeat premise these force the
`boardRepeated` verdict. -/
theorem claim_C3_amended (bs : BoardState) (x y : Int) (player : GoColor)
    (hprev : bs.previousPlayer
      = some (if player = GoColor.white then GoColor.black else GoColor.white))
    (hpt : (getPt bs.board x y).map (fun p => p.color) = some GoColor.empty)
    (hrep : (bs.previousBoards.find? (fun board =>
       getColorOnBoardString board x y == some player)).isSome = true)
    (hfall : ((findAdjacentLibertiesForPoint bs.board x y).north.isSome ||
              (findAdjacentLibertiesForPoint bs.board x y).east.isSome ||
              (findAdjacentLibertiesForPoint bs.board x y).south.isSome ||
              (findAdjacentLibertiesForPoint bs.board x y).west.isSome) = true ∨
             findMinLibertyCountOfAdjacentChains bs.board x y
               (if player = GoColor.black then GoColor.white else GoColor.black) < 2 ∨
             findMaxLibertyCountOfAdjacentChains bs x y player > 1)
    (hsurv : (getPt (evaluateMoveResult bs.board x y player true) x y).map
       (fun p => p.color) = some player)
    (hmem : bs.previousBoards.contains
       (boardStringFromBoard (evaluateMoveResult bs.board x y player true)) = true) :
    evaluateIfMoveIsValid bs x y player true = GoValidity.boardRepeated := by
  obtain ⟨pt, hpt', hc⟩ : ∃ pt, getPt bs.board x y = some pt ∧ pt.color = GoColor.empty := by
    cases h : getPt bs.board x y with
    | none => rw [h] at hpt; exact absurd hpt (by simp)
    | some p =>
      rw [h] at hpt
      exact ⟨p, rfl, by simpa using hpt⟩
  have hne : ¬ ((if player = GoColor.white then GoColor.black else GoColor.white) = player) := by
    cases player <;> simp
  have hlen : bs.previousBoards.length ≠ 0 := by
    intro h0
    rw [List.length_eq_zero] at h0
    rw [h0] at hrep
    exact absurd hrep (by simp)
  obtain ⟨b0, hb0⟩ := Option.isSome_iff_exists.mp hrep
  have hisNone : (List.find? (fun board => getColorOnBoardString board x y == some player)
      bs.previousBoards).isNone = false := by rw [hb0]; rfl
  have hns : (!((findAdjacentLibertiesForPoint bs.board x y).north.isSome ||
        (findAdjacentLibertiesForPoint bs.board x y).east.isSome ||
        (findAdjacentLibertiesForPoint bs.board x y).south.isSome ||
        (findAdjacentLibertiesForPoint bs.board x y).west.isSome) &&
      decide (findMinLibertyCountOfAdjacentChains bs.board x y
          (if player = GoColor.black then GoColor.white else GoColor.black) ≥ 2) &&
      decide (findMaxLibertyCountOfAdjacentChains bs x y player ≤ 1)) = false := by
    rcases hfall with h | h | h
    · simp [h]
    · have h2 : ¬ (findMinLibertyCountOfAdjacentChains bs.board x y
          (if player = GoColor.black then GoColor.white else GoColor.black) ≥ 2) := by omega
      simp [h2]
    · have h2 : ¬ (findMaxLibertyCountOfAdjacentChains bs x y player ≤ 1) := by omega
      simp [h2]
  simp only [evaluateIfMoveIsValid, hprev, hpt', hc, hisNone, hns, hsurv, hb0]
  simp [hne, hlen]
  simpa using hmem

theorem claim_C3_witness :
    ((getPt bsC3w.board 2 1).map (fun p => p.color) = some GoColor.empty ∧
     (bsC3w.previousBoards.find? (fun board =>
        getColorOnBoardString board 2 1 == some GoColor.black)).isSome = true ∧
     (getPt (evaluateMoveResult bsC3w.board 2 1 GoColor.black true) 2 1).map
        (fun p => p.color) = some GoColor.black ∧
     bsC3w.previousBoards.contains
        (boardStringFromBoard (evaluateMoveResult bsC3w.board 2 1 GoColor.black true)) = true) ∧
    evaluateIfMoveIsValid bsC3w 2 1 GoColor.black true = GoValidity.boardRepeated :=
  ⟨⟨by with_unfolding_all decide, by with_unfolding_all decide, by with_unfolding_all decide,
    by with_unfolding_all decide⟩,
   claim_C3_amended bsC3w 2 1 GoColor.black (by with_unfolding_all decide)
     (by with_unfolding_all decide) (by with_unfolding_all decide)
     (Or.inr (Or.inl (by with_unfolding_all decide)))
     (by with_unfolding_all decide) (by with_unfolding_all decide)⟩

/-! ### C5: chains computed by updateChains -/

-- basic lemmas

lemma adjStep_symm {b : Board} {c c' : Int × Int} (h : adjStep b c c') : adjStep b c' c := by
  obtain ⟨p, p', hp, hp', hc, hgeo⟩ := h
  obtain ⟨cx, cy⟩ := c
  obtain ⟨cx', cy'⟩ := c'
  refine ⟨p', p, hp', hp, hc.symm, ?_⟩
  rcases hgeo with h | h | h | h <;>
    (injection h with h1 h2 ; subst h1 ; subst h2) <;> simp

lemma reach_symm {b : Board} {c c' : Int × Int} (h : Reach b c c') : Reach b c' c :=
  (Relation.ReflTransGen.symmetric (fun _ _ hs => adjStep_symm hs)) h

lemma reach_trans {b : Board} {c c' c'' : Int × Int} (h : Reach b c c') (h' : Reach b c' c'') :
    Reach b c c'' := Relation.ReflTransGen.trans h h'

lemma reach_color {b : Board} {c c' : Int × Int} (h : Reach b c c') :
    ∀ {p p' : PointState}, getPt b c.1 c.2 = some p → getPt b c'.1 c'.2 = some p' →
      p.color = p'.color := by
  induction h with
  | refl =>
    intro p p' hp hp'
    rw [hp] at hp'
    injection hp' with h
    rw [h]
  | tail hstep hlast ih =>
    intro p p' hp hp'
    obtain ⟨r, r', hr, hr', hcol, -⟩ := hlast
    have := ih hp hr
    rw [hr'] at hp'
    injection hp' with h
    rw [this, hcol, h]

lemma reach_src_present {b : Board} {c c' : Int × Int} (h : Reach b c c')
    {p' : PointState} (hp' : getPt b c'.1 c'.2 = some p') :
    ∃ p, getPt b c.1 c.2 = some p := by
  induction h using Relation.ReflTransGen.head_induction_on with
  | refl => exact ⟨p', hp'⟩
  | head hstep _ _ =>
    obtain ⟨r, r', hr, -⟩ := hstep
    exact ⟨r, hr⟩

lemma lexLe_total (c c' : Int × Int) : lexLe c c' ∨ lexLe c' c := by
  rw [lexLe, lexLe]; omega

lemma lexLe_antisymm {c c' : Int × Int} (h : lexLe c c') (h' : lexLe c' c) : c = c' := by
  obtain ⟨a, b⟩ := c
  obtain ⟨a', b'⟩ := c'
  rw [lexLe] at h h'
  simp only [Prod.mk.injEq]
  omega

-- position lemmas

lemma getPt_bounds {b : Board} {x y : Int} {p : PointState} (h : getPt b x y = some p) :
    0 ≤ x ∧ 0 ≤ y ∧ (x.toNat, y.toNat) ∈ scanCoords b := by
  rw [getPt] at h
  rcases hcol : listGetI b x with _ | col
  · rw [hcol] at h; exact absurd h (by simp)
  · rw [hcol] at h
    rw [Option.join_eq_some] at h
    rcases listGetI_eq_some hcol with ⟨nx, hx0, hx⟩
    rcases listGetI_eq_some h with ⟨ny, hy0, hy⟩
    refine ⟨by omega, by omega, ?_⟩
    rw [scanCoords, List.mem_flatMap]
    refine ⟨nx, ?_, ?_⟩
    · rw [List.mem_range]
      exact (List.getElem?_eq_some.mp hx).1
    · rw [List.mem_map]
      refine ⟨ny, ?_, ?_⟩
      · rw [List.mem_range, hx]
        exact (List.getElem?_eq_some.mp hy).1
      · have : x.toNat = nx := by omega
        have h2 : y.toNat = ny := by omega
        rw [this, h2]

lemma scanCoords_length (b : Board) :
    (scanCoords b).length = (b.map (fun c => c.length)).sum := by
  rw [scanCoords]
  rw [List.length_flatMap]
  congr 1
  refine List.ext_getElem (by simp) ?_
  intro i h1 h2
  simp only [List.getElem_map, List.getElem_range, Function.comp_apply, List.length_map, List.length_range]
  rw [List.getElem?_eq_getElem (by simpa using h2)]
  rfl

-- neighborsOf membership

lemma neighborsOf_mem {b : Board} {x y : Int} {n : PointState} :
    n ∈ neighborsOf b x y ↔
      (getPt b x (y + 1) = some n ∨ getPt b (x + 1) y = some n ∨
       getPt b x (y - 1) = some n ∨ getPt b (x - 1) y = some n) := by
  rw [neighborsOf, getArrayFromNeighbor, findNeighbors]
  simp [List.mem_filterMap, eq_comm]

-- contains / containsC interplay

lemma contains_eq_containsC (l : List PointState) (pt : PointState) :
    contains l pt = containsC l pt.x pt.y := rfl

lemma containsC_of_mem {l : List PointState} {m : PointState} (h : m ∈ l) :
    containsC l m.x m.y = true := by
  rw [containsC, List.any_eq_true]
  exact ⟨m, h, by simp⟩

lemma containsC_append (l l' : List PointState) (u v : Int) :
    containsC (l ++ l') u v = (containsC l u v || containsC l' u v) := by
  rw [containsC, containsC, containsC, List.any_append]

lemma containsC_mono {l l' : List PointState} {u v : Int} (hsub : ∀ m ∈ l, m ∈ l')
    (h : containsC l u v = true) : containsC l' u v = true := by
  rw [containsC, List.any_eq_true] at h ⊢
  obtain ⟨m, hm, he⟩ := h
  exact ⟨m, hsub m hm, he⟩

lemma exists_of_containsC {l : List PointState} {u v : Int} (h : containsC l u v = true) :
    ∃ m ∈ l, m.x = u ∧ m.y = v := by
  rw [containsC, List.any_eq_true] at h
  obtain ⟨m, hm, he⟩ := h
  rw [Bool.and_eq_true, beq_iff_eq, beq_iff_eq] at he
  exact ⟨m, hm, he⟩

lemma mem_of_containsC_genuine {b : Board} {l : List PointState} {u v : Int}
    (hgen : ∀ m ∈ l, getPt b m.x m.y = some m) (h : containsC l u v = true)
    {n : PointState} (hn : getPt b u v = some n) : n ∈ l := by
  obtain ⟨m, hm, hx, hy⟩ := exists_of_containsC h
  have := hgen m hm
  rw [hx, hy, hn] at this
  injection this with h2
  rw [h2]
  exact hm

-- uncheckedCount lemmas

lemma coordChecked_append (checked : List PointState) (e : PointState) (xy : Nat × Nat) :
    coordChecked (checked ++ [e]) xy
      = (coordChecked checked xy || (e.x == (xy.1 : Int) && e.y == (xy.2 : Int))) := by
  rw [coordChecked, coordChecked, List.any_append]
  simp [List.any_cons]

lemma countP_lt_of_witness {α : Type} {l : List α} {p q : α → Bool}
    (h : ∀ a ∈ l, q a = true → p a = true) {a0 : α} (ha0 : a0 ∈ l)
    (hp : p a0 = true) (hq : q a0 = false) : l.countP q < l.countP p := by
  induction l with
  | nil => exact absurd ha0 (by simp)
  | cons a l ih =>
    rw [List.countP_cons, List.countP_cons]
    rcases List.mem_cons.mp ha0 with rfl | hmem
    · rw [hp, hq]
      have : l.countP q ≤ l.countP p :=
        List.countP_mono_left (fun a ha => h a (List.mem_cons_of_mem _ ha))
      simp
      omega
    · have h2 := ih (fun a ha hqa => h a (List.mem_cons_of_mem _ ha) hqa) hmem
      have h3 : (if q a = true then 1 else 0) ≤ (if p a = true then 1 else 0) := by
        by_cases hqa : q a = true
        · rw [if_pos hqa, if_pos (h a (List.mem_cons_self a l) hqa)]
        · rw [if_neg hqa]
          omega
      omega

lemma coordChecked_toNat {checked : List PointState} {x y : Int}
    (hx0 : 0 ≤ x) (hy0 : 0 ≤ y) :
    coordChecked checked (x.toNat, y.toNat) = containsC checked x y := by
  rw [coordChecked, containsC]
  congr 1
  funext pp
  rw [Int.toNat_of_nonneg hx0, Int.toNat_of_nonneg hy0]

lemma uncheckedCount_append_le (b : Board) (checked : List PointState) (e : PointState) :
    uncheckedCount b (checked ++ [e]) ≤ uncheckedCount b checked := by
  rw [uncheckedCount, uncheckedCount, ← List.countP_eq_length_filter,
    ← List.countP_eq_length_filter]
  refine List.countP_mono_left ?_
  intro xy _ hx
  rw [Bool.not_eq_true'] at hx ⊢
  rw [coordChecked_append] at hx
  exact (Bool.or_eq_false_iff.mp hx).1

lemma uncheckedCount_append_lt {b : Board} {checked : List PointState} {e : PointState}
    (hz : (e.x.toNat, e.y.toNat) ∈ scanCoords b) (hx0 : 0 ≤ e.x) (hy0 : 0 ≤ e.y)
    (hnew : containsC checked e.x e.y = false) :
    uncheckedCount b (checked ++ [e]) < uncheckedCount b checked := by
  rw [uncheckedCount, uncheckedCount, ← List.countP_eq_length_filter,
    ← List.countP_eq_length_filter]
  refine countP_lt_of_witness ?_ hz ?_ ?_
  · intro xy _ hx
    rw [Bool.not_eq_true'] at hx ⊢
    rw [coordChecked_append] at hx
    exact (Bool.or_eq_false_iff.mp hx).1
  · rw [Bool.not_eq_true', coordChecked_toNat hx0 hy0]
    exact hnew
  · rw [Bool.not_eq_false', coordChecked_append]
    refine Bool.or_eq_true_iff.mpr (Or.inr ?_)
    rw [Bool.and_eq_true, beq_iff_eq, beq_iff_eq]
    exact ⟨(Int.toNat_of_nonneg hx0).symm, (Int.toNat_of_nonneg hy0).symm⟩

-- the forEach over a popped point's neighbors

lemma floodFold_spec (b : Board) (p0 : PointState) (sx sy : Int)
    (cur : PointState)
    (hcur : getPt b cur.x cur.y = some cur)
    (hcurcol : cur.color = p0.color)
    (hcurReach : Reach b (sx, sy) (cur.x, cur.y)) :
    ∀ (ns : List PointState)
      (c s a : List PointState),
      (∀ n ∈ ns, getPt b n.x n.y = some n ∧
         ((n.x, n.y) = (cur.x, cur.y + 1) ∨ (n.x, n.y) = (cur.x + 1, cur.y) ∨
          (n.x, n.y) = (cur.x, cur.y - 1) ∨ (n.x, n.y) = (cur.x - 1, cur.y))) →
      (∀ m ∈ a, getPt b m.x m.y = some m) →
      (∀ m ∈ a, Reach b (sx, sy) (m.x, m.y)) →
      (∀ m ∈ a, m.color = p0.color) →
      (∀ m ∈ s, m ∈ a) →
      (∀ e ∈ c, getPt b e.x e.y = some e) →
      (∀ e ∈ c, e.color = p0.color → containsC a e.x e.y = true) →
      ((∀ m ∈ (ns.foldl (floodStep cur) (c, s, a)).2.2, getPt b m.x m.y = some m) ∧
       (∀ m ∈ (ns.foldl (floodStep cur) (c, s, a)).2.2, Reach b (sx, sy) (m.x, m.y)) ∧
       (∀ m ∈ (ns.foldl (floodStep cur) (c, s, a)).2.2, m.color = p0.color) ∧
       (∀ m ∈ (ns.foldl (floodStep cur) (c, s, a)).2.1,
          m ∈ (ns.foldl (floodStep cur) (c, s, a)).2.2) ∧
       (∀ e ∈ (ns.foldl (floodStep cur) (c, s, a)).1, getPt b e.x e.y = some e) ∧
       (∀ e ∈ (ns.foldl (floodStep cur) (c, s, a)).1, e.color = p0.color →
          containsC (ns.foldl (floodStep cur) (c, s, a)).2.2 e.x e.y = true) ∧
       (∀ m ∈ a, m ∈ (ns.foldl (floodStep cur) (c, s, a)).2.2) ∧
       (∀ m ∈ s, m ∈ (ns.foldl (floodStep cur) (c, s, a)).2.1) ∧
       (∀ m ∈ (ns.foldl (floodStep cur) (c, s, a)).2.2,
          m ∈ a ∨ containsC (ns.foldl (floodStep cur) (c, s, a)).2.1 m.x m.y = true) ∧
       (5 * uncheckedCount b (ns.foldl (floodStep cur) (c, s, a)).1 +
          (ns.foldl (floodStep cur) (c, s, a)).2.1.length ≤
        5 * uncheckedCount b c + s.length) ∧
       (∀ n ∈ ns, n.color = cur.color →
          containsC (ns.foldl (floodStep cur) (c, s, a)).2.2 n.x n.y = true)) := by
  intro ns
  induction ns with
  | nil =>
    intro c s a _ hag har hacol hss hcg hca
    exact ⟨hag, har, hacol, hss, hcg, hca, fun m hm => hm, fun m hm => hm,
      fun m hm => Or.inl hm, le_refl _, by simp⟩
  | cons n ns ih =>
    intro c s a hns hag har hacol hss hcg hca
    obtain ⟨hngen, hngeo⟩ := hns n (List.mem_cons_self n ns)
    rw [List.foldl_cons]
    by_cases hcond : (n.color == cur.color && !(contains c n)) = true
    · have hstep : floodStep cur (c, s, a) n = (c ++ [n], n :: s, a ++ [n]) := by
        rw [floodStep, if_pos hcond]
      rw [hstep]
      rw [Bool.and_eq_true, beq_iff_eq, Bool.not_eq_true'] at hcond
      obtain ⟨hncol, hnnew⟩ := hcond
      have hnreach : Reach b (sx, sy) (n.x, n.y) := by
        refine Relation.ReflTransGen.tail hcurReach ?_
        exact ⟨cur, n, hcur, hngen, hncol.symm, by
          rcases hngeo with h | h | h | h <;> simp [h]⟩
      have hag' : ∀ m ∈ a ++ [n], getPt b m.x m.y = some m := by
        intro m hm
        rcases List.mem_append.mp hm with hm | hm
        · exact hag m hm
        · rw [List.mem_singleton.mp hm]; exact hngen
      have har' : ∀ m ∈ a ++ [n], Reach b (sx, sy) (m.x, m.y) := by
        intro m hm
        rcases List.mem_append.mp hm with hm | hm
        · exact har m hm
        · rw [List.mem_singleton.mp hm]; exact hnreach
      have hacol' : ∀ m ∈ a ++ [n], m.color = p0.color := by
        intro m hm
        rcases List.mem_append.mp hm with hm | hm
        · exact hacol m hm
        · rw [List.mem_singleton.mp hm]; rw [hncol]; exact hcurcol
      have hss' : ∀ m ∈ n :: s, m ∈ a ++ [n] := by
        intro m hm
        rcases List.mem_cons.mp hm with rfl | hm
        · exact List.mem_append_right _ (List.mem_singleton_self _)
        · exact List.mem_append_left _ (hss m hm)
      have hcg' : ∀ e ∈ c ++ [n], getPt b e.x e.y = some e := by
        intro e he
        rcases List.mem_append.mp he with he | he
        · exact hcg e he
        · rw [List.mem_singleton.mp he]; exact hngen
      have hca' : ∀ e ∈ c ++ [n], e.color = p0.color → containsC (a ++ [n]) e.x e.y = true := by
        intro e he hecol
        rcases List.mem_append.mp he with he | he
        · exact containsC_mono (fun m hm => List.mem_append_left _ hm) (hca e he hecol)
        · rw [List.mem_singleton.mp he]
          exact containsC_of_mem (List.mem_append_right _ (List.mem_singleton_self _))
      obtain ⟨k1, k2, k3, k4, k5, k6, k7, k8, k9, k10, k11⟩ :=
        ih (c ++ [n]) (n :: s) (a ++ [n])
          (fun m hm => hns m (List.mem_cons_of_mem _ hm)) hag' har' hacol' hss' hcg' hca'
      refine ⟨k1, k2, k3, k4, k5, k6, ?_, ?_, ?_, ?_, ?_⟩
      · exact fun m hm => k7 m (List.mem_append_left _ hm)
      · exact fun m hm => k8 m (List.mem_cons_of_mem _ hm)
      · intro m hm
        rcases k9 m hm with hm2 | hm2
        · rcases List.mem_append.mp hm2 with hm3 | hm3
          · exact Or.inl hm3
          · refine Or.inr ?_
            rw [List.mem_singleton.mp hm3]
            exact containsC_of_mem (k8 n (List.mem_cons_self n s))
        · exact Or.inr hm2
      · have hlt : uncheckedCount b (c ++ [n]) < uncheckedCount b c := by
          obtain ⟨hx0, hy0, hmem⟩ := getPt_bounds hngen
          exact uncheckedCount_append_lt hmem hx0 hy0
            (by rw [← contains_eq_containsC]; exact hnnew)
        have := k10
        simp only [List.length_cons] at this ⊢
        omega
      · intro n' hn' hn'col
        rcases List.mem_cons.mp hn' with rfl | hn'
        · exact containsC_mono k7 (containsC_of_mem (List.mem_append_right _
            (List.mem_singleton_self _)))
        · exact k11 n' hn' hn'col
    · have hstep : floodStep cur (c, s, a) n = (c ++ [n], s, a) := by
        rw [floodStep, if_neg hcond]
      rw [hstep]
      have hrej : n.color = cur.color → containsC a n.x n.y = true := by
        intro hncol
        simp only [Bool.and_eq_true, beq_iff_eq, Bool.not_eq_true', not_and] at hcond
        have hc : contains c n = true := by
          cases h : contains c n
          · exact absurd h (hcond hncol)
          · rfl
        have hmemc : n ∈ c := mem_of_containsC_genuine hcg
          (by rw [← contains_eq_containsC]; exact hc) hngen
        exact hca n hmemc (by rw [hncol]; exact hcurcol)
      have hcg' : ∀ e ∈ c ++ [n], getPt b e.x e.y = some e := by
        intro e he
        rcases List.mem_append.mp he with he | he
        · exact hcg e he
        · rw [List.mem_singleton.mp he]; exact hngen
      have hca' : ∀ e ∈ c ++ [n], e.color = p0.color → containsC a e.x e.y = true := by
        intro e he hecol
        rcases List.mem_append.mp he with he | he
        · exact hca e he hecol
        · rw [List.mem_singleton.mp he] at hecol ⊢
          exact hrej (by rw [hecol, hcurcol])
      obtain ⟨k1, k2, k3, k4, k5, k6, k7, k8, k9, k10, k11⟩ :=
        ih (c ++ [n]) s a
          (fun m hm => hns m (List.mem_cons_of_mem _ hm)) hag har hacol hss hcg' hca'
      refine ⟨k1, k2, k3, k4, k5, k6, k7, k8, k9, ?_, ?_⟩
      · have hle : uncheckedCount b (c ++ [n]) ≤ uncheckedCount b c :=
          uncheckedCount_append_le b c n
        omega
      · intro n' hn' hn'col
        rcases List.mem_cons.mp hn' with rfl | hn'
        · exact containsC_mono k7 (hrej hn'col)
        · exact k11 n' hn' hn'col

lemma floodLoop_spec (b : Board) (p0 : PointState) (sx sy : Int)
    (hco : ∀ (x y : Int) (p : PointState), getPt b x y = some p → p.x = x ∧ p.y = y) :
    ∀ (fuel : Nat) (checked stack acc : List PointState),
      (∀ m ∈ acc, getPt b m.x m.y = some m) →
      (∀ m ∈ acc, Reach b (sx, sy) (m.x, m.y)) →
      (∀ m ∈ acc, m.color = p0.color) →
      (∀ m ∈ stack, m ∈ acc) →
      (∀ e ∈ checked, getPt b e.x e.y = some e) →
      (∀ e ∈ checked, e.color = p0.color → containsC acc e.x e.y = true) →
      containsC acc sx sy = true →
      (∀ m ∈ acc, containsC stack m.x m.y = false →
         ∀ n ∈ neighborsOf b m.x m.y, n.color = m.color → containsC acc n.x n.y = true) →
      5 * uncheckedCount b checked + stack.length < fuel →
      ((∀ m ∈ floodLoop b fuel checked stack acc, getPt b m.x m.y = some m ∧
          m.color = p0.color ∧ Reach b (sx, sy) (m.x, m.y)) ∧
       containsC (floodLoop b fuel checked stack acc) sx sy = true ∧
       (∀ m ∈ floodLoop b fuel checked stack acc, ∀ n ∈ neighborsOf b m.x m.y,
          n.color = m.color → containsC (floodLoop b fuel checked stack acc) n.x n.y = true)) := by
  intro fuel
  induction fuel with
  | zero => intro checked stack acc _ _ _ _ _ _ _ _ hfuel; omega
  | succ fuel ih =>
    intro checked stack acc hag har hacol hss hcg hca hseed hclo hfuel
    cases stack with
    | nil =>
      have hres : floodLoop b (fuel + 1) checked [] acc = acc := rfl
      rw [hres]
      refine ⟨fun m hm => ⟨hag m hm, hacol m hm, har m hm⟩, hseed, ?_⟩
      intro m hm n hn hncol
      exact hclo m hm rfl n hn hncol
    | cons cur rest =>
      have hcurmem : cur ∈ acc := hss cur (List.mem_cons_self cur rest)
      have hcur : getPt b cur.x cur.y = some cur := hag cur hcurmem
      have hcurcol : cur.color = p0.color := hacol cur hcurmem
      have hcurReach : Reach b (sx, sy) (cur.x, cur.y) := har cur hcurmem
      have hns : ∀ n ∈ neighborsOf b cur.x cur.y, getPt b n.x n.y = some n ∧
          ((n.x, n.y) = (cur.x, cur.y + 1) ∨ (n.x, n.y) = (cur.x + 1, cur.y) ∨
           (n.x, n.y) = (cur.x, cur.y - 1) ∨ (n.x, n.y) = (cur.x - 1, cur.y)) := by
        intro n hn
        rcases neighborsOf_mem.mp hn with h | h | h | h <;>
          (obtain ⟨h1, h2⟩ := hco _ _ _ h) <;>
          (constructor ; (rw [h1, h2] ; exact h)) <;> simp [h1, h2]
      have hcg1 : ∀ e ∈ checked ++ [cur], getPt b e.x e.y = some e := by
        intro e he
        rcases List.mem_append.mp he with he | he
        · exact hcg e he
        · rw [List.mem_singleton.mp he]; exact hcur
      have hca1 : ∀ e ∈ checked ++ [cur], e.color = p0.color →
          containsC acc e.x e.y = true := by
        intro e he hecol
        rcases List.mem_append.mp he with he | he
        · exact hca e he hecol
        · rw [List.mem_singleton.mp he]; exact containsC_of_mem hcurmem
      obtain ⟨k1, k2, k3, k4, k5, k6, k7, k8, k9, k10, k11⟩ :=
        floodFold_spec b p0 sx sy cur hcur hcurcol hcurReach
          (neighborsOf b cur.x cur.y) (checked ++ [cur]) rest acc
          hns hag har hacol (fun m hm => hss m (List.mem_cons_of_mem _ hm)) hcg1 hca1
      have hres : floodLoop b (fuel + 1) checked (cur :: rest) acc =
          floodLoop b fuel
            ((neighborsOf b cur.x cur.y).foldl (floodStep cur) (checked ++ [cur], rest, acc)).1
            ((neighborsOf b cur.x cur.y).foldl (floodStep cur) (checked ++ [cur], rest, acc)).2.1
            ((neighborsOf b cur.x cur.y).foldl (floodStep cur) (checked ++ [cur], rest, acc)).2.2
          := rfl
      rw [hres]
      refine ih _ _ _ k1 k2 k3 k4 k5 k6 (containsC_mono k7 hseed) ?_ ?_
      · intro m hm hmnot n hn hncol
        rcases k9 m hm with hm2 | hm2
        · cases hsc : containsC (cur :: rest) m.x m.y with
          | false => exact containsC_mono k7 (hclo m hm2 hsc n hn hncol)
          | true =>
            obtain ⟨m', hm', hx, hy⟩ := exists_of_containsC hsc
            rcases List.mem_cons.mp hm' with rfl | hm'
            · have hmeq : m = m' := by
                have h1 := hag m hm2
                have h2 : getPt b m.x m.y = some m' := by rw [← hx, ← hy]; exact hcur
                rw [h1] at h2
                injection h2
              rw [hmeq] at hn hncol
              exact k11 n hn hncol
            · exfalso
              have : containsC ((neighborsOf b cur.x cur.y).foldl (floodStep cur)
                  (checked ++ [cur], rest, acc)).2.1 m.x m.y = true := by
                rw [← hx, ← hy]
                exact containsC_of_mem (k8 m' hm')
              rw [this] at hmnot
              exact absurd hmnot (by simp)
        · rw [hm2] at hmnot
          exact absurd hmnot (by simp)
      · have hle : uncheckedCount b (checked ++ [cur]) ≤ uncheckedCount b checked :=
          uncheckedCount_append_le b checked cur
        simp only [List.length_cons] at hfuel
        omega

lemma findAdjacentPointsInChain_spec (b : Board) (sx sy : Int) (p0 : PointState)
    (hco : ∀ (x y : Int) (p : PointState), getPt b x y = some p → p.x = x ∧ p.y = y)
    (hp0 : getPt b sx sy = some p0) :
    (∀ m ∈ findAdjacentPointsInChain b sx sy, getPt b m.x m.y = some m ∧
       m.color = p0.color ∧ Reach b (sx, sy) (m.x, m.y)) ∧
    (∀ c : Int × Int, Reach b (sx, sy) c →
       containsC (findAdjacentPointsInChain b sx sy) c.1 c.2 = true) := by
  obtain ⟨hpx, hpy⟩ := hco _ _ _ hp0
  have hunf : findAdjacentPointsInChain b sx sy = floodLoop b (floodFuel b) [] [p0] [p0] := by
    rw [findAdjacentPointsInChain, hp0]
  have hfuel : 5 * uncheckedCount b [] + ([p0] : List PointState).length < floodFuel b := by
    have : uncheckedCount b [] = (scanCoords b).length := by
      rw [uncheckedCount]
      congr 1
      refine List.filter_eq_self.mpr ?_
      intro xy _
      rfl
    rw [this, scanCoords_length, floodFuel]
    simp
  obtain ⟨hsound, hseedR, hclosure⟩ :=
    floodLoop_spec b p0 sx sy hco (floodFuel b) [] [p0] [p0]
      (by intro m hm; rw [List.mem_singleton.mp hm, hpx, hpy]; exact hp0)
      (by intro m hm; rw [List.mem_singleton.mp hm, hpx, hpy]; exact Relation.ReflTransGen.refl)
      (by intro m hm; rw [List.mem_singleton.mp hm])
      (fun m hm => hm)
      (by intro e he; exact absurd he (by simp))
      (by intro e he; exact absurd he (by simp))
      (by rw [containsC]; simp [hpx, hpy])
      (by
        intro m hm hfalse
        rw [List.mem_singleton.mp hm] at hfalse
        rw [containsC_of_mem (List.mem_singleton_self p0)] at hfalse
        exact absurd hfalse (by simp))
      hfuel
  rw [hunf]
  refine ⟨hsound, ?_⟩
  intro c hreach
  induction hreach with
  | refl => exact hseedR
  | tail hpath hstep ih =>
    obtain ⟨p, p', hp, hp', hcol, hgeo⟩ := hstep
    obtain ⟨m, hmmem, hmx, hmy⟩ := exists_of_containsC ih
    obtain ⟨hmgen, -, -⟩ := hsound m hmmem
    have hmp : m = p := by
      rw [hmx, hmy] at hmgen
      rw [hmgen] at hp
      injection hp
    obtain ⟨hpx', hpy'⟩ := hco _ _ _ hp'
    have hmemn : p' ∈ neighborsOf b m.x m.y := by
      rw [neighborsOf_mem, hmx, hmy]
      rcases hgeo with h | h | h | h <;> rw [h] at hp' <;> simp [hp']
    have := hclosure m hmmem p' hmemn (by rw [← hcol, hmp])
    rw [hpx', hpy'] at this
    exact this

-- ### setPt characterization

lemma getPt_eq_of_listGetI {b : Board} {x : Int} {col : List (Option PointState)}
    (h : listGetI b x = some col) (y : Int) :
    getPt b x y = (listGetI col y).join := by
  rw [getPt, h]

lemma getPt_eq_of_listGetI_none {b : Board} {x : Int}
    (h : listGetI b x = none) (y : Int) : getPt b x y = none := by
  rw [getPt, h]

lemma setPt_getPt (b : Board) (x y : Int) (f : PointState → PointState) (u v : Int) :
    getPt (setPt b x y f) u v
      = if u = x ∧ v = y then (getPt b x y).map f else getPt b u v := by
  cases hxy : getPt b x y with
  | none =>
    have hsetPt : setPt b x y f = b := by rw [setPt, hxy]
    rw [hsetPt]
    by_cases h : u = x ∧ v = y
    · rw [if_pos h, h.1, h.2, hxy]
      rfl
    · rw [if_neg h]
  | some p =>
    obtain ⟨hx0, hy0, -⟩ := getPt_bounds hxy
    have hxlt : x.toNat < b.length := by
      rw [getPt] at hxy
      rcases hcol : listGetI b x with _ | col
      · rw [hcol] at hxy; exact absurd hxy (by simp)
      · rcases listGetI_eq_some hcol with ⟨nx, hnx, hx⟩
        have := (List.getElem?_eq_some.mp hx).1
        omega
    have hcolget : listGetI b x = some (b[x.toNat]?.getD []) := by
      rw [listGetI, if_neg (by omega), List.getElem?_eq_getElem hxlt]
      rfl
    have hylt : y.toNat < (b[x.toNat]?.getD []).length := by
      rw [getPt, hcolget] at hxy
      rcases listGetI_eq_some (Option.join_eq_some.mp hxy) with ⟨ny, hny, hy⟩
      have := (List.getElem?_eq_some.mp hy).1
      omega
    have hsetPt : setPt b x y f
        = b.set x.toNat ((b[x.toNat]?.getD []).set y.toNat (some (f p))) := by
      rw [setPt, hxy]
      exact if_pos ⟨hx0, hy0⟩
    rw [hsetPt]
    have h1 : listGetI (b.set x.toNat ((b[x.toNat]?.getD []).set y.toNat (some (f p)))) x
        = some ((b[x.toNat]?.getD []).set y.toNat (some (f p))) := by
      have hxneg : ¬ x < 0 := by omega
      simp only [listGetI, if_neg hxneg]
      rw [List.getElem?_set_self (by simpa using hxlt)]
    by_cases h : u = x ∧ v = y
    · rw [if_pos h, h.1, h.2]
      rw [getPt_eq_of_listGetI h1]
      have h2 : listGetI ((b[x.toNat]?.getD []).set y.toNat (some (f p))) y
          = some (some (f p)) := by
        have hyneg : ¬ y < 0 := by omega
        simp only [listGetI, if_neg hyneg]
        rw [List.getElem?_set_self (by simpa using hylt)]
      rw [h2]
      rfl
    · rw [if_neg h]
      by_cases hu : u = x
      · have hv : ¬ v = y := fun hv => h ⟨hu, hv⟩
        rw [hu]
        rw [getPt_eq_of_listGetI h1, getPt_eq_of_listGetI hcolget]
        by_cases hv0 : 0 ≤ v
        · have h2 : listGetI ((b[x.toNat]?.getD []).set y.toNat (some (f p))) v
              = listGetI (b[x.toNat]?.getD []) v := by
            have hvneg : ¬ v < 0 := by omega
            simp only [listGetI, if_neg hvneg]
            rw [List.getElem?_set_ne (by omega)]
          rw [h2]
        · have hvneg : v < 0 := by omega
          simp only [listGetI, if_pos hvneg]
      · have h2 : listGetI (b.set x.toNat ((b[x.toNat]?.getD []).set y.toNat (some (f p)))) u
            = listGetI b u := by
          by_cases hu0 : 0 ≤ u
          · have huneg : ¬ u < 0 := by omega
            simp only [listGetI, if_neg huneg]
            rw [List.getElem?_set_ne (by omega)]
          · have huneg : u < 0 := by omega
            simp only [listGetI, if_pos huneg]
        rw [getPt, getPt, h2]

-- ### the chain-assignment fold

lemma foldl_setPt_getPt (f : PointState → PointState) (hf : ∀ p, f (f p) = f p) :
    ∀ (L : List PointState) (b : Board) (u v : Int),
      getPt (L.foldl (fun bb m => setPt bb m.x m.y f) b) u v
        = if containsC L u v = true then (getPt b u v).map f else getPt b u v := by
  intro L
  induction L with
  | nil =>
    intro b u v
    rw [if_neg (by rw [containsC]; simp)]
    rfl
  | cons m L ih =>
    intro b u v
    rw [List.foldl_cons, ih]
    have hcons : containsC (m :: L) u v = ((m.x == u && m.y == v) || containsC L u v) := by
      rw [containsC, containsC, List.any_cons]
    by_cases hm : u = m.x ∧ v = m.y
    · have hset : getPt (setPt b m.x m.y f) u v = (getPt b u v).map f := by
        rw [setPt_getPt, if_pos hm, hm.1, hm.2]
      by_cases hL : containsC L u v = true
      · rw [if_pos hL, if_pos (by rw [hcons, hL]; simp), hset, Option.map_map]
        congr 1
        funext p
        exact hf p
      · rw [if_neg hL, if_pos (by rw [hcons, hm.1, hm.2]; simp), hset]
    · have hset : getPt (setPt b m.x m.y f) u v = getPt b u v := by
        rw [setPt_getPt, if_neg hm]
      by_cases hL : containsC L u v = true
      · rw [if_pos hL, if_pos (by rw [hcons, hL]; simp), hset]
      · have hcc : ¬ containsC (m :: L) u v = true := by
          rw [hcons]
          simp only [Bool.or_eq_true, not_or]
          constructor
          · rw [Bool.and_eq_true, beq_iff_eq, beq_iff_eq]
            intro hc
            exact hm ⟨hc.1.symm, hc.2.symm⟩
          · exact hL
        rw [if_neg hL, if_neg hcc, hset]

-- ### skeletons

lemma sameSkel_refl (b : Board) : sameSkel b b := fun _ _ => rfl

lemma sameSkel_symm {b b' : Board} (h : sameSkel b b') : sameSkel b' b :=
  fun u v => (h u v).symm

lemma sameSkel_trans {b b' b'' : Board} (h : sameSkel b b') (h' : sameSkel b' b'') :
    sameSkel b b'' := fun u v => (h u v).trans (h' u v)

lemma skel_some {b b' : Board} (h : sameSkel b b') {u v : Int} {p : PointState}
    (hp : getPt b u v = some p) :
    ∃ p', getPt b' u v = some p' ∧ p'.color = p.color ∧ p'.x = p.x ∧ p'.y = p.y := by
  have := h u v
  rw [ptSkel, ptSkel, hp] at this
  cases hq : getPt b' u v with
  | none => rw [hq] at this; exact absurd this (by simp)
  | some q =>
    rw [hq] at this
    simp only [Option.map_some'] at this
    injection this with h2
    refine ⟨q, rfl, ?_, ?_, ?_⟩
    · exact (congrArg Prod.fst h2).symm
    · exact (congrArg (fun t => t.2.1) h2).symm
    · exact (congrArg (fun t => t.2.2) h2).symm

-- ### the chain id string

lemma digitChar_ne_comma (d : Nat) : Nat.digitChar d ≠ ',' := by
  by_cases h16 : d < 16
  · interval_cases d <;> decide
  · have hstar : Nat.digitChar d = '*' := by
      rw [Nat.digitChar]
      repeat' rw [if_neg (by omega)]
    rw [hstar]
    decide

lemma toDigitsCore_no_comma : ∀ (f n : Nat) (acc : List Char),
    ',' ∉ acc → ',' ∉ Nat.toDigitsCore 10 f n acc := by
  intro f
  induction f with
  | zero => intro n acc hacc; exact hacc
  | succ f ih =>
    intro n acc hacc
    simp only [Nat.toDigitsCore]
    split
    · intro hmem
      rcases List.mem_cons.mp hmem with h | h
      · exact digitChar_ne_comma _ h.symm
      · exact hacc h
    · refine ih _ _ ?_
      intro hmem
      rcases List.mem_cons.mp hmem with h | h
      · exact digitChar_ne_comma _ h.symm
      · exact hacc h

lemma toDigitsCore_append (b : Nat) : ∀ (f n : Nat) (acc : List Char),
    Nat.toDigitsCore b f n acc = Nat.toDigitsCore b f n [] ++ acc := by
  intro f
  induction f with
  | zero => intro n acc; rfl
  | succ f ih =>
    intro n acc
    simp only [Nat.toDigitsCore]
    split
    · rfl
    · rw [ih _ (Nat.digitChar (n % b) :: acc), ih _ [Nat.digitChar (n % b)]]
      rw [List.append_assoc]
      rfl

lemma toDigitsCore_fuel {b : Nat} (hb : 2 ≤ b) : ∀ (f f' n : Nat) (acc : List Char),
    n < f → n < f' → Nat.toDigitsCore b f n acc = Nat.toDigitsCore b f' n acc := by
  intro f
  induction f with
  | zero => intro f' n acc h _; exact absurd h (by omega)
  | succ f ih =>
    intro f' n acc hn hn'
    cases f' with
    | zero => omega
    | succ f' =>
      simp only [Nat.toDigitsCore]
      split
      · rfl
      · next hdiv =>
        have hn0 : 0 < n := by
          rcases Nat.eq_zero_or_pos n with rfl | h
          · exact absurd (Nat.zero_div b) hdiv
          · exact h
        have h1 : n / b < n := Nat.div_lt_self hn0 (by omega)
        exact ih f' (n / b) _ (by omega) (by omega)

lemma digitsVal_append_aux : ∀ (l : List Char) (s : Nat),
    l.foldl (fun acc c => acc * 10 + digitVal c) s
      = s * 10 ^ l.length + l.foldl (fun acc c => acc * 10 + digitVal c) 0 := by
  intro l
  induction l with
  | nil => intro s; simp
  | cons c l ih =>
    intro s
    rw [List.foldl_cons, List.foldl_cons, ih (s * 10 + digitVal c), ih (0 * 10 + digitVal c)]
    simp [List.length_cons, Nat.pow_succ]
    ring

lemma digitsVal_append (l : List Char) (c : Char) :
    digitsVal (l ++ [c]) = 10 * digitsVal l + digitVal c := by
  rw [digitsVal, digitsVal, List.foldl_append, List.foldl_cons, List.foldl_nil]
  ring

lemma digitVal_digitChar {d : Nat} (hd : d < 10) : digitVal (Nat.digitChar d) = d := by
  interval_cases d <;> rfl

lemma digitsVal_toDigits : ∀ n : Nat, digitsVal (Nat.toDigits 10 n) = n := by
  intro n
  induction n using Nat.strong_induction_on with
  | _ n ih =>
    rw [Nat.toDigits]
    simp only [Nat.toDigitsCore]
    split
    · next hdiv =>
      have hn : n < 10 := by omega
      rw [digitsVal]
      simp only [List.foldl_cons, List.foldl_nil]
      rw [digitVal_digitChar (by omega)]
      omega
    · next hdiv =>
      rw [toDigitsCore_append]
      have hlt : n / 10 < n := Nat.div_lt_self (by omega) (by omega)
      have hfuel : Nat.toDigitsCore 10 n (n / 10) [] = Nat.toDigits 10 (n / 10) := by
        rw [Nat.toDigits]
        exact toDigitsCore_fuel (by omega) n (n / 10 + 1) (n / 10) [] (by omega) (by omega)
      rw [hfuel, digitsVal_append, ih (n / 10) hlt, digitVal_digitChar (by omega)]
      omega

lemma nat_repr_inj {n n' : Nat} (h : Nat.repr n = Nat.repr n') : n = n' := by
  have h2 : Nat.toDigits 10 n = Nat.toDigits 10 n' := by
    have := congrArg String.data h
    rw [Nat.repr, Nat.repr] at this
    exact this
  have := congrArg digitsVal h2
  rw [digitsVal_toDigits, digitsVal_toDigits] at this
  exact this

lemma nat_repr_no_comma (n : Nat) : ',' ∉ (Nat.repr n).data := by
  rw [Nat.repr]
  exact toDigitsCore_no_comma _ _ _ (by simp)

lemma toString_int_nonneg {x : Int} (hx : 0 ≤ x) : toString x = Nat.repr x.toNat := by
  obtain ⟨n, rfl⟩ := Int.eq_ofNat_of_zero_le hx
  rfl

lemma append_comma_inj : ∀ (a c b d : List Char), ',' ∉ a → ',' ∉ c →
    a ++ ',' :: b = c ++ ',' :: d → a = c ∧ b = d := by
  intro a
  induction a with
  | nil =>
    intro c b d _ hc h
    cases c with
    | nil =>
      simp only [List.nil_append] at h
      injection h with h1 h2
      exact ⟨rfl, h2⟩
    | cons ch c =>
      simp only [List.nil_append, List.cons_append] at h
      injection h with h1 h2
      exact absurd (h1 ▸ List.mem_cons_self ch c) hc
  | cons ah a iha =>
    intro c b d ha hc h
    cases c with
    | nil =>
      simp only [List.cons_append, List.nil_append] at h
      injection h with h1 h2
      exact absurd (h1 ▸ List.mem_cons_self ah a) ha
    | cons ch c =>
      simp only [List.cons_append] at h
      injection h with h1 h2
      obtain ⟨hac, hbd⟩ := iha c b d (fun hm => ha (List.mem_cons_of_mem _ hm))
        (fun hm => hc (List.mem_cons_of_mem _ hm)) h2
      exact ⟨by rw [h1, hac], hbd⟩

lemma coordId_data (x y : Int) :
    (coordId x y).data = (toString x).data ++ ',' :: (toString y).data := by
  rw [coordId, String.data_append, String.data_append, List.append_assoc]
  rfl

lemma coordId_ne_empty (x y : Int) : coordId x y ≠ "" := by
  intro h
  have := congrArg String.data h
  rw [coordId_data] at this
  exact absurd this (by simp)

lemma coordId_inj {x y x' y' : Int} (hx : 0 ≤ x) (hy : 0 ≤ y) (hx' : 0 ≤ x')
    (hy' : 0 ≤ y') (h : coordId x y = coordId x' y') : x = x' ∧ y = y' := by
  have hd := congrArg String.data h
  rw [coordId_data, coordId_data, toString_int_nonneg hx, toString_int_nonneg hy,
    toString_int_nonneg hx', toString_int_nonneg hy'] at hd
  obtain ⟨h1, h2⟩ := append_comma_inj _ _ _ _ (nat_repr_no_comma _) (nat_repr_no_comma _) hd
  have hxe : x.toNat = x'.toNat := nat_repr_inj (String.ext h1)
  have hye : y.toNat = y'.toNat := nat_repr_inj (String.ext h2)
  constructor <;> omega

-- ### transfer along skeletons

lemma adjStep_transfer {b b' : Board} (h : sameSkel b b') {c c' : Int × Int}
    (ha : adjStep b c c') : adjStep b' c c' := by
  obtain ⟨p, p', hp, hp', hcol, hgeo⟩ := ha
  obtain ⟨q, hq, hqc, -, -⟩ := skel_some h hp
  obtain ⟨q', hq', hq'c, -, -⟩ := skel_some h hp'
  exact ⟨q, q', hq, hq', by rw [hqc, hq'c, hcol], hgeo⟩

lemma reach_transfer {b b' : Board} (h : sameSkel b b') {c c' : Int × Int}
    (hr : Reach b c c') : Reach b' c c' := by
  induction hr with
  | refl => exact Relation.ReflTransGen.refl
  | tail hp hs ih => exact Relation.ReflTransGen.tail ih (adjStep_transfer h hs)

lemma hco_transfer {b b' : Board} (h : sameSkel b b')
    (hco : ∀ (x y : Int) (p : PointState), getPt b x y = some p → p.x = x ∧ p.y = y) :
    ∀ (x y : Int) (p : PointState), getPt b' x y = some p → p.x = x ∧ p.y = y := by
  intro x y p hp
  obtain ⟨q, hq, -, hqx, hqy⟩ := skel_some (sameSkel_symm h) hp
  obtain ⟨h1, h2⟩ := hco x y q hq
  constructor
  · rw [← hqx.symm.trans h1]
  · rw [← hqy.symm.trans h2]

-- ### clearChains

lemma listGetI_map {α β : Type} (f : α → β) (l : List α) (i : Int) :
    listGetI (l.map f) i = (listGetI l i).map f := by
  rw [listGetI, listGetI]
  split
  · rfl
  · rw [List.getElem?_map]

lemma clearChains_getPt (b : Board) (x y : Int) :
    getPt (clearChains b) x y
      = (getPt b x y).map (fun p => ⟨p.color, "", none, p.x, p.y⟩) := by
  rw [clearChains, getPt, getPt, listGetI_map]
  cases hcol : listGetI b x with
  | none => rfl
  | some col =>
    simp only [Option.map_some']
    rw [listGetI_map]
    cases hcell : listGetI col y with
    | none => rfl
    | some cell => cases cell <;> rfl

lemma clearChains_skel (b : Board) : sameSkel (clearChains b) b := by
  intro u v
  rw [clearChains_getPt, ptSkel, ptSkel, Option.map_map]
  cases getPt b u v <;> rfl

lemma clearChains_blank {b : Board} {x y : Int} {p : PointState}
    (hp : getPt (clearChains b) x y = some p) : p.chain = "" := by
  rw [clearChains_getPt] at hp
  cases h : getPt b x y with
  | none => rw [h] at hp; exact absurd hp (by simp)
  | some q =>
    rw [h] at hp
    simp only [Option.map_some'] at hp
    injection hp with h2
    rw [← h2]

-- ### the scan order

lemma scanCoords_pairwise (b : Board) : (scanCoords b).Pairwise natLexLt := by
  rw [scanCoords, List.pairwise_flatMap]
  constructor
  · intro a _
    rw [List.pairwise_map]
    refine (List.pairwise_lt_range _).imp ?_
    intro y1 y2 h
    exact Or.inr ⟨rfl, h⟩
  · refine (List.pairwise_lt_range _).imp ?_
    intro x1 x2 h z hz w hw
    rw [List.mem_map] at hz hw
    obtain ⟨y1, -, rfl⟩ := hz
    obtain ⟨y2, -, rfl⟩ := hw
    exact Or.inl h

lemma scan_before_mem {b0 : Board} {done todo : List (Nat × Nat)} {z : Nat × Nat}
    (hsplit : scanCoords b0 = done ++ z :: todo) :
    ∀ w ∈ scanCoords b0, natLexLt w z → w ∈ done := by
  intro w hw hlt
  have hpw := scanCoords_pairwise b0
  rw [hsplit] at hpw hw
  rcases List.mem_append.mp hw with h | h
  · exact h
  · exfalso
    rw [List.pairwise_append] at hpw
    obtain ⟨-, hp2, -⟩ := hpw
    rcases List.mem_cons.mp h with rfl | h
    · rw [natLexLt] at hlt
      omega
    · rw [List.pairwise_cons] at hp2
      have h2 := hp2.1 w h
      rw [natLexLt] at hlt h2
      omega

-- ### the updateChains scan

lemma updateChainsAt_inv {b0 : Board}
    (hco0 : ∀ (x y : Int) (p : PointState), getPt b0 x y = some p → p.x = x ∧ p.y = y)
    {done todo : List (Nat × Nat)} {z : Nat × Nat} {bcur : Board}
    (hsplit : scanCoords b0 = done ++ z :: todo)
    (hinv : scanInv b0 done bcur) :
    scanInv b0 (done ++ [z]) (updateChainsAt bcur z) := by
  obtain ⟨hskel, hpt⟩ := hinv
  have hco : ∀ (x y : Int) (p : PointState), getPt bcur x y = some p → p.x = x ∧ p.y = y :=
    hco_transfer (sameSkel_symm hskel) hco0
  cases hz : getPt bcur (z.1 : Int) (z.2 : Int) with
  | none =>
    have heq : updateChainsAt bcur z = bcur := by rw [updateChainsAt, hz]
    rw [heq]
    refine ⟨hskel, ?_⟩
    intro w p hp
    have hz0 : getPt b0 (z.1 : Int) (z.2 : Int) = none := by
      cases h : getPt b0 (z.1 : Int) (z.2 : Int) with
      | none => rfl
      | some q =>
        obtain ⟨q', hq', -⟩ := skel_some (sameSkel_symm hskel) h
        rw [hq'] at hz
        exact absurd hz (by simp)
    constructor
    · rintro ⟨zd, hzd, hr⟩
      rcases List.mem_append.mp hzd with hzd | hzd
      · exact (hpt w p hp).1 ⟨zd, hzd, hr⟩
      · exfalso
        rw [List.mem_singleton.mp hzd] at hr
        obtain ⟨pw, hpw, -⟩ := skel_some hskel hp
        obtain ⟨psrc, hpsrc⟩ := reach_src_present hr hpw
        rw [hpsrc] at hz0
        exact absurd hz0 (by simp)
    · intro hnot
      refine (hpt w p hp).2 ?_
      rintro ⟨zd, hzd, hr⟩
      exact hnot ⟨zd, List.mem_append_left _ hzd, hr⟩
  | some point =>
    by_cases hchain : point.chain ≠ ""
    · have heq : updateChainsAt bcur z = bcur := by
        rw [updateChainsAt, hz]
        exact if_pos hchain
      rw [heq]
      have hzreach : reachedBy b0 done ((z.1 : Int), (z.2 : Int)) := by
        by_contra hnot
        exact hchain ((hpt _ point hz).2 hnot)
      refine ⟨hskel, ?_⟩
      intro w p hp
      constructor
      · rintro ⟨zd, hzd, hr⟩
        rcases List.mem_append.mp hzd with hzd | hzd
        · exact (hpt w p hp).1 ⟨zd, hzd, hr⟩
        · rw [List.mem_singleton.mp hzd] at hr
          obtain ⟨zd', hzd', hr'⟩ := hzreach
          exact (hpt w p hp).1 ⟨zd', hzd', reach_trans hr' hr⟩
      · intro hnot
        refine (hpt w p hp).2 ?_
        rintro ⟨zd, hzd, hr⟩
        exact hnot ⟨zd, List.mem_append_left _ hzd, hr⟩
    · rw [Ne, not_not] at hchain
      have hpx : point.x = (z.1 : Int) := (hco _ _ _ hz).1
      have hpy : point.y = (z.2 : Int) := (hco _ _ _ hz).2
      have heq : updateChainsAt bcur z =
          (findAdjacentPointsInChain bcur (z.1 : Int) (z.2 : Int)).foldl
            (fun bb m => setPt bb m.x m.y (fun p => ⟨p.color, coordId point.x point.y,
              some ((findLibertiesForChain bcur
                  (findAdjacentPointsInChain bcur (z.1 : Int) (z.2 : Int))).map
                (fun p => (p.x, p.y))), p.x, p.y⟩)) bcur := by
        rw [updateChainsAt, hz]
        exact if_neg (by rw [hchain]; simp)
      have hnotdone : ¬ reachedBy b0 done ((z.1 : Int), (z.2 : Int)) := by
        intro hr
        obtain ⟨c, -, hcid⟩ := (hpt _ point hz).1 hr
        rw [hchain] at hcid
        exact coordId_ne_empty _ _ hcid.symm
      obtain ⟨hsound, hcomplete⟩ :=
        findAdjacentPointsInChain_spec bcur (z.1 : Int) (z.2 : Int) point hco hz
      -- z is the scan-first member of its component
      have hroot : chainRoot b0 ((z.1 : Int), (z.2 : Int)) ((z.1 : Int), (z.2 : Int)) := by
        refine ⟨Relation.ReflTransGen.refl, ?_⟩
        intro c' hr'
        by_contra hnotle
        have hcz : Reach bcur c' ((z.1 : Int), (z.2 : Int)) :=
          reach_transfer (sameSkel_symm hskel) hr'
        obtain ⟨pz0, hpz0, -⟩ := skel_some hskel hz
        obtain ⟨pc', hpc'⟩ := reach_src_present hr' hpz0
        obtain ⟨hc'x, hc'y, hc'mem⟩ := getPt_bounds hpc'
        have hlt : natLexLt (c'.1.toNat, c'.2.toNat) z := by
          rw [natLexLt]
          rw [lexLe] at hnotle
          omega
        have hdone : (c'.1.toNat, c'.2.toNat) ∈ done :=
          scan_before_mem hsplit _ hc'mem hlt
        refine hnotdone ⟨(c'.1.toNat, c'.2.toNat), hdone, ?_⟩
        have : ((c'.1.toNat : Int), (c'.2.toNat : Int)) = c' := by
          rw [Prod.ext_iff]
          constructor <;> simp <;> omega
        rw [this]
        exact hr'
      rw [heq]
      set fAssign := (fun p : PointState => (⟨p.color, coordId point.x point.y,
        some ((findLibertiesForChain bcur
            (findAdjacentPointsInChain bcur (z.1 : Int) (z.2 : Int))).map
          (fun p => (p.x, p.y))), p.x, p.y⟩ : PointState)) with hfA
      have hgetPt : ∀ u v : Int,
          getPt ((findAdjacentPointsInChain bcur (z.1 : Int) (z.2 : Int)).foldl
            (fun bb m => setPt bb m.x m.y fAssign) bcur) u v
          = if containsC (findAdjacentPointsInChain bcur (z.1 : Int) (z.2 : Int)) u v = true
            then (getPt bcur u v).map fAssign else getPt bcur u v :=
        fun u v => foldl_setPt_getPt fAssign (fun p => rfl) _ bcur u v
      constructor
      · -- skeleton
        intro u v
        rw [hgetPt u v]
        split
        · rw [← hskel u v, ptSkel, ptSkel, Option.map_map]
          cases getPt bcur u v <;> rfl
        · exact hskel u v
      · intro w p hp
        rw [hgetPt w.1 w.2] at hp
        by_cases hcase : containsC (findAdjacentPointsInChain bcur (z.1 : Int) (z.2 : Int))
            w.1 w.2 = true
        · rw [if_pos hcase] at hp
          obtain ⟨m, hmmem, hmx, hmy⟩ := exists_of_containsC hcase
          obtain ⟨-, -, hmreach⟩ := hsound m hmmem
          rw [hmx, hmy] at hmreach
          have hwreach : Reach b0 ((z.1 : Int), (z.2 : Int)) w := by
            have := reach_transfer hskel hmreach
            rwa [← Prod.mk.eta (p := w)]
          have hpchain : p.chain = coordId (z.1 : Int) (z.2 : Int) := by
            cases hq : getPt bcur w.1 w.2 with
            | none => rw [hq] at hp; exact absurd hp (by simp)
            | some q =>
              rw [hq] at hp
              simp only [Option.map_some'] at hp
              injection hp with h2
              rw [← h2, hfA, hpx, hpy]
          constructor
          · intro _
            refine ⟨((z.1 : Int), (z.2 : Int)), ⟨hwreach, ?_⟩, hpchain⟩
            intro c' hr'
            exact hroot.2 c' (reach_trans hr' (reach_symm hwreach))
          · intro hnot
            exact absurd ⟨z, List.mem_append_right _ (List.mem_singleton_self z), hwreach⟩ hnot
        · rw [if_neg hcase] at hp
          constructor
          · rintro ⟨zd, hzd, hr⟩
            rcases List.mem_append.mp hzd with hzd | hzd
            · exact (hpt w p hp).1 ⟨zd, hzd, hr⟩
            · exfalso
              rw [List.mem_singleton.mp hzd] at hr
              have := hcomplete w (by
                have := reach_transfer (sameSkel_symm hskel) hr
                rwa [← Prod.mk.eta (p := w)] at this)
              exact hcase this
          · intro hnot
            refine (hpt w p hp).2 ?_
            rintro ⟨zd, hzd, hr⟩
            exact hnot ⟨zd, List.mem_append_left _ hzd, hr⟩

lemma scan_foldl_inv {b0 : Board}
    (hco0 : ∀ (x y : Int) (p : PointState), getPt b0 x y = some p → p.x = x ∧ p.y = y) :
    ∀ (todo done : List (Nat × Nat)) (bcur : Board),
      scanCoords b0 = done ++ todo → scanInv b0 done bcur →
      scanInv b0 (scanCoords b0) (todo.foldl updateChainsAt bcur) := by
  intro todo
  induction todo with
  | nil =>
    intro done bcur hsplit hinv
    rw [List.foldl_nil]
    rw [List.append_nil] at hsplit
    rw [hsplit]
    exact hinv
  | cons z todo ih =>
    intro done bcur hsplit hinv
    rw [List.foldl_cons]
    refine ih (done ++ [z]) _ ?_ (updateChainsAt_inv hco0 hsplit hinv)
    rw [hsplit, List.append_assoc]
    rfl

lemma updateChains_spec (B : Board) (hwf : wellFormedBoard B = true) :
    sameSkel (updateChains B true) (clearChains B) ∧
    ∀ (w : Int × Int) (p : PointState), getPt (updateChains B true) w.1 w.2 = some p →
      ∃ c : Int × Int, chainRoot (clearChains B) c w ∧ p.chain = coordId c.1 c.2 := by
  have hco0 : ∀ (x y : Int) (p : PointState), getPt (clearChains B) x y = some p →
      p.x = x ∧ p.y = y :=
    hco_transfer (sameSkel_symm (clearChains_skel B)) (fun x y p h => wellFormed_getPt hwf h)
  have hinit : scanInv (clearChains B) [] (clearChains B) := by
    refine ⟨sameSkel_refl _, ?_⟩
    intro w p hp
    constructor
    · rintro ⟨zd, hzd, -⟩
      exact absurd hzd (by simp)
    · intro _
      exact clearChains_blank hp
  have hinv := scan_foldl_inv hco0 (scanCoords (clearChains B)) [] (clearChains B)
    (by rw [List.nil_append]) hinit
  have hfold : updateChains B true
      = (scanCoords (clearChains B)).foldl updateChainsAt (clearChains B) := rfl
  rw [hfold]
  obtain ⟨hskel, hpt⟩ := hinv
  refine ⟨hskel, ?_⟩
  intro w p hp
  obtain ⟨p0, hp0, -⟩ := skel_some hskel hp
  obtain ⟨hw1, hw2, hwmem⟩ := getPt_bounds hp0
  refine (hpt w p hp).1 ⟨(w.1.toNat, w.2.toNat), hwmem, ?_⟩
  have hcast : ((w.1.toNat : Int), (w.2.toNat : Int)) = w := by
    rw [Prod.ext_iff]
    constructor <;> simp <;> omega
  rw [hcast]
  exact Relation.ReflTransGen.refl

lemma reach_clear_iff (B : Board) (c c' : Int × Int) :
    Reach (clearChains B) c c' ↔ Reach B c c' :=
  ⟨reach_transfer (clearChains_skel B),
   reach_transfer (sameSkel_symm (clearChains_skel B))⟩

/-- C5: on a well-formed board, after `updateChains` (with chain reset) two
present points carry equal `chain` ids exactly when they have the same color
and are connected through orthogonal same-color steps (`Reach`; absent cells
block), and each point's id is the `"x,y"` rendering of the first member of
its component in column-major scan order (the lexicographically least
member, which the scan meets first). -/
theorem claim_C5 (B : Board) (hwf : wellFormedBoard B = true)
    (x y x' y' : Int) (p q : PointState)
    (hp : getPt (updateChains B true) x y = some p)
    (hq : getPt (updateChains B true) x' y' = some q) :
    (p.chain = q.chain ↔ (p.color = q.color ∧ Reach B (x, y) (x', y'))) ∧
    (∃ x0 y0 : Int, Reach B (x0, y0) (x, y) ∧
       (∀ x1 y1 : Int, Reach B (x1, y1) (x, y) → lexLe (x0, y0) (x1, y1)) ∧
       p.chain = coordId x0 y0) := by
  obtain ⟨hskel, hspec⟩ := updateChains_spec B hwf
  obtain ⟨cp, ⟨hcpr, hcpmin⟩, hcpid⟩ := hspec (x, y) p hp
  obtain ⟨cq, ⟨hcqr, hcqmin⟩, hcqid⟩ := hspec (x', y') q hq
  obtain ⟨pxy0, hpxy0, hpc0, -, -⟩ := skel_some hskel hp
  obtain ⟨qxy0, hqxy0, hqc0, -, -⟩ := skel_some hskel hq
  obtain ⟨pcp, hpcp⟩ := reach_src_present hcpr hpxy0
  obtain ⟨pcq, hpcq⟩ := reach_src_present hcqr hqxy0
  obtain ⟨hcp1, hcp2, -⟩ := getPt_bounds hpcp
  obtain ⟨hcq1, hcq2, -⟩ := getPt_bounds hpcq
  constructor
  · constructor
    · intro hchains
      have hid : coordId cp.1 cp.2 = coordId cq.1 cq.2 := by
        rw [← hcpid, ← hcqid, hchains]
      obtain ⟨h1, h2⟩ := coordId_inj hcp1 hcp2 hcq1 hcq2 hid
      have hcpq : cp = cq := Prod.ext h1 h2
      have hreach0 : Reach (clearChains B) (x, y) (x', y') :=
        reach_trans (reach_symm hcpr) (hcpq ▸ hcqr)
      refine ⟨?_, (reach_clear_iff B _ _).mp hreach0⟩
      have := reach_color hreach0 hpxy0 hqxy0
      rw [hpc0, hqc0] at this
      exact this
    · rintro ⟨-, hreach⟩
      have hreach0 : Reach (clearChains B) (x, y) (x', y') := (reach_clear_iff B _ _).mpr hreach
      have hle1 : lexLe cp cq := hcpmin cq (reach_trans hcqr (reach_symm hreach0))
      have hle2 : lexLe cq cp := hcqmin cp (reach_trans hcpr hreach0)
      rw [hcpid, hcqid, lexLe_antisymm hle1 hle2]
  · refine ⟨cp.1, cp.2, ?_, ?_, ?_⟩
    · refine (reach_clear_iff B _ _).mp ?_
      rw [Prod.mk.eta]
      exact hcpr
    · intro x1 y1 hr
      exact hcpmin (x1, y1) ((reach_clear_iff B _ _).mpr hr)
    · rw [hcpid]

theorem claim_C5_witness :
    (wellFormedBoard (boardFromSimpleBoard ["XX", "X."]) = true ∧
     getPt (updateChains (boardFromSimpleBoard ["XX", "X."]) true) 0 1
       = some ⟨GoColor.black, "0,0", some [(1, 1)], 0, 1⟩ ∧
     getPt (updateChains (boardFromSimpleBoard ["XX", "X."]) true) 1 0
       = some ⟨GoColor.black, "0,0", some [(1, 1)], 1, 0⟩) ∧
    (((⟨GoColor.black, "0,0", some [(1, 1)], 0, 1⟩ : PointState).chain
        = (⟨GoColor.black, "0,0", some [(1, 1)], 1, 0⟩ : PointState).chain ↔
      ((⟨GoColor.black, "0,0", some [(1, 1)], 0, 1⟩ : PointState).color
        = (⟨GoColor.black, "0,0", some [(1, 1)], 1, 0⟩ : PointState).color ∧
       Reach (boardFromSimpleBoard ["XX", "X."]) (0, 1) (1, 0))) ∧
     (∃ x0 y0 : Int, Reach (boardFromSimpleBoard ["XX", "X."]) (x0, y0) (0, 1) ∧
       (∀ x1 y1 : Int, Reach (boardFromSimpleBoard ["XX", "X."]) (x1, y1) (0, 1) →
          lexLe (x0, y0) (x1, y1)) ∧
       (⟨GoColor.black, "0,0", some [(1, 1)], 0, 1⟩ : PointState).chain = coordId x0 y0)) :=
  ⟨⟨by decide, by decide, by decide⟩,
   claim_C5 (boardFromSimpleBoard ["XX", "X."]) (by decide) 0 1 1 0
     ⟨GoColor.black, "0,0", some [(1, 1)], 0, 1⟩
     ⟨GoColor.black, "0,0", some [(1, 1)], 1, 0⟩ (by decide) (by decide)⟩

/-! ### C4: capture priority in updateCaptures -/

lemma updateChainsAt_skel (b : Board) (z : Nat × Nat) : sameSkel (updateChainsAt b z) b := by
  cases hz : getPt b (z.1 : Int) (z.2 : Int) with
  | none =>
    have heq : updateChainsAt b z = b := by rw [updateChainsAt, hz]
    rw [heq]
    exact sameSkel_refl b
  | some point =>
    by_cases hchain : point.chain ≠ ""
    · have heq : updateChainsAt b z = b := by
        rw [updateChainsAt, hz]
        exact if_pos hchain
      rw [heq]
      exact sameSkel_refl b
    · rw [Ne, not_not] at hchain
      have heq : updateChainsAt b z =
          (findAdjacentPointsInChain b (z.1 : Int) (z.2 : Int)).foldl
            (fun bb m => setPt bb m.x m.y (fun p => ⟨p.color, coordId point.x point.y,
              some ((findLibertiesForChain b
                  (findAdjacentPointsInChain b (z.1 : Int) (z.2 : Int))).map
                (fun p => (p.x, p.y))), p.x, p.y⟩)) b := by
        rw [updateChainsAt, hz]
        exact if_neg (by rw [hchain]; simp)
      rw [heq]
      intro u v
      rw [foldl_setPt_getPt (fun p => (⟨p.color, coordId point.x point.y,
        some ((findLibertiesForChain b
            (findAdjacentPointsInChain b (z.1 : Int) (z.2 : Int))).map
          (fun (q : PointState) => ((q.x, q.y) : Int × Int))), p.x, p.y⟩ : PointState))
        (fun p => rfl)]
      split
      · rw [ptSkel, ptSkel, Option.map_map]
        cases getPt b u v <;> rfl
      · rfl

lemma foldl_updateChainsAt_skel : ∀ (zs : List (Nat × Nat)) (b : Board),
    sameSkel (zs.foldl updateChainsAt b) b := by
  intro zs
  induction zs with
  | nil => intro b; exact sameSkel_refl b
  | cons z zs ih =>
    intro b
    rw [List.foldl_cons]
    exact sameSkel_trans (ih (updateChainsAt b z)) (updateChainsAt_skel b z)

lemma updateChains_skel (b : Board) (rc : Bool) : sameSkel (updateChains b rc) b := by
  cases rc with
  | false =>
    have heq : updateChains b false = (scanCoords b).foldl updateChainsAt b := rfl
    rw [heq]
    exact foldl_updateChainsAt_skel _ b
  | true =>
    have heq : updateChains b true
        = (scanCoords (clearChains b)).foldl updateChainsAt (clearChains b) := rfl
    rw [heq]
    exact sameSkel_trans (foldl_updateChainsAt_skel _ _) (clearChains_skel b)

lemma skel_color {b b' : Board} (h : sameSkel b b') (u v : Int) :
    (getPt b u v).map (fun p => p.color) = (getPt b' u v).map (fun p => p.color) := by
  have := h u v
  cases hb : getPt b u v with
  | none =>
    rw [hb, ptSkel] at this
    cases hb' : getPt b' u v with
    | none => rfl
    | some q => rw [hb', ptSkel] at this; exact absurd this (by simp)
  | some p =>
    obtain ⟨q, hq, hqc, -, -⟩ := skel_some h hb
    rw [hq]
    simp only [Option.map_some']
    rw [hqc]

lemma captureChainB_getPt (b : Board) (ch : List PointState) (u v : Int) :
    getPt (captureChainB b ch) u v
      = if containsC ch u v = true then (getPt b u v).map capturePoint
        else getPt b u v :=
  foldl_setPt_getPt capturePoint (fun _ => rfl) ch b u v

lemma foldl_captureChainB_getPt : ∀ (chs : List (List PointState)) (b : Board) (u v : Int),
    getPt (chs.foldl captureChainB b) u v
      = if chs.any (fun ch => containsC ch u v) = true
        then (getPt b u v).map capturePoint else getPt b u v := by
  intro chs
  induction chs with
  | nil =>
    intro b u v
    rw [if_neg (by simp)]
    rfl
  | cons ch chs ih =>
    intro b u v
    rw [List.foldl_cons, ih, captureChainB_getPt]
    have hany : (ch :: chs).any (fun c => containsC c u v)
        = (containsC ch u v || chs.any (fun c => containsC c u v)) := List.any_cons
    by_cases h1 : containsC ch u v = true
    · by_cases h2 : chs.any (fun c => containsC c u v) = true
      · rw [if_pos h2, if_pos h1, if_pos (by rw [hany, h1]; simp), Option.map_map]
        cases getPt b u v <;> rfl
      · rw [if_neg h2, if_pos h1, if_pos (by rw [hany, h1]; simp)]
    · by_cases h2 : chs.any (fun c => containsC c u v) = true
      · rw [if_pos h2, if_neg h1, if_pos (by rw [hany, h2]; simp)]
      · rw [if_neg h2, if_neg h1, if_neg (by rw [hany]; simp [h1, h2])]

/-- C4: if, after the chain analysis that opens `updateCaptures`, at least
one chain of the color opposing the mover has zero liberties, then the
captured set is exactly the set of zero-liberty opposing chains (friendly
suicide is never considered), and on the resulting board exactly the cells
of those chains have been emptied while every other cell keeps its color. -/
theorem claim_C4 (board : Board) (P : GoColor) (resetChains : Bool)
    (hE : findCapturedChainOfColor (getAllChains (updateChains board resetChains))
        (if P = GoColor.white then GoColor.black else GoColor.white) ≠ []) :
    findAllCapturedChains (getAllChains (updateChains board resetChains)) P
      = some (findCapturedChainOfColor (getAllChains (updateChains board resetChains))
          (if P = GoColor.white then GoColor.black else GoColor.white)) ∧
    ∀ u v : Int,
      (getPt (updateCaptures board P resetChains) u v).map (fun p => p.color)
        = if (findCapturedChainOfColor (getAllChains (updateChains board resetChains))
                (if P = GoColor.white then GoColor.black else GoColor.white)).any
              (fun ch => containsC ch u v) = true
          then (getPt (updateChains board resetChains) u v).map (fun _ => GoColor.empty)
          else (getPt (updateChains board resetChains) u v).map (fun p => p.color) := by
  have hlen : (findCapturedChainOfColor (getAllChains (updateChains board resetChains))
      (if P = GoColor.white then GoColor.black else GoColor.white)).length ≠ 0 :=
    fun h => hE (List.length_eq_zero.mp h)
  have ha : findAllCapturedChains (getAllChains (updateChains board resetChains)) P
      = some (findCapturedChainOfColor (getAllChains (updateChains board resetChains))
          (if P = GoColor.white then GoColor.black else GoColor.white)) := by
    simp only [findAllCapturedChains]
    rw [if_pos hlen]
  refine ⟨ha, ?_⟩
  intro u v
  have hcap : updateCaptures board P resetChains
      = updateChains ((findCapturedChainOfColor (getAllChains (updateChains board resetChains))
          (if P = GoColor.white then GoColor.black else GoColor.white)).foldl captureChainB
            (updateChains board resetChains)) true := by
    simp only [updateCaptures, ha]
    rw [if_neg hlen]
  rw [hcap, skel_color (updateChains_skel _ true) u v, foldl_captureChainB_getPt]
  by_cases hc : (findCapturedChainOfColor (getAllChains (updateChains board resetChains))
        (if P = GoColor.white then GoColor.black else GoColor.white)).any
      (fun ch => containsC ch u v) = true
  · rw [if_pos hc, if_pos hc, Option.map_map]
    cases getPt (updateChains board resetChains) u v <;> rfl
  · rw [if_neg hc, if_neg hc]

theorem claim_C4_witness :
    findCapturedChainOfColor (getAllChains (updateChains (boardFromSimpleBoard ["OX", "X."]) true))
        (if GoColor.black = GoColor.white then GoColor.black else GoColor.white) ≠ [] ∧
    (findAllCapturedChains (getAllChains (updateChains (boardFromSimpleBoard ["OX", "X."]) true))
        GoColor.black
      = some (findCapturedChainOfColor
          (getAllChains (updateChains (boardFromSimpleBoard ["OX", "X."]) true))
          (if GoColor.black = GoColor.white then GoColor.black else GoColor.white)) ∧
    ∀ u v : Int,
      (getPt (updateCaptures (boardFromSimpleBoard ["OX", "X."]) GoColor.black true) u v).map
          (fun p => p.color)
        = if (findCapturedChainOfColor
                (getAllChains (updateChains (boardFromSimpleBoard ["OX", "X."]) true))
                (if GoColor.black = GoColor.white then GoColor.black else GoColor.white)).any
              (fun ch => containsC ch u v) = true
          then (getPt (updateChains (boardFromSimpleBoard ["OX", "X."]) true) u v).map
            (fun _ => GoColor.empty)
          else (getPt (updateChains (boardFromSimpleBoard ["OX", "X."]) true) u v).map
            (fun p => p.color)) :=
  ⟨by decide, claim_C4 (boardFromSimpleBoard ["OX", "X."]) GoColor.black true (by decide)⟩
